import Mathlib

/-!
C-CPU: assembler codec, opcode table and flags unit.

A shallow embedding of `cpu_constants.h`, `cpu_utils.c` and the ALU / flags part of
`cpu_main.c`.

Conventions of the embedding:

* `SIZE_TYPE` (`uint32_t`) values are natural numbers below `2 ^ 32`; every operation that can
  leave that range is followed by an explicit `% 4294967296`.
* A C `int` that takes part in bit operations is handled through its 32-bit two's complement
  pattern (`toU32`), and read back as a signed number with `toS32`.  A left shift of an `int`
  that overflows is taken to wrap around, which is what the targeted compilers emit.
* `char` is the signed 8-bit type of the x86 ABI, `short` the signed 16-bit type.
* C strings are `String`s; `strcmp (a, b) == 0` is `a = b`.
* `while` loops take a fuel argument and return `none` when it runs out.
-/

namespace CCPU

/-! ## Machine integers -/

/-- The 32-bit two's complement pattern of a C `int`. -/
def toU32 (x : Int) : Nat := (x % 4294967296).toNat

/-- The C cast `(int) x` of a 32-bit word. -/
def toS32 (n : Nat) : Int :=
  if n % 4294967296 < 2147483648 then ((n % 4294967296 : Nat) : Int)
  else ((n % 4294967296 : Nat) : Int) - 4294967296

/-- The C cast `(char) x` followed by `(int)`: the low byte, sign-extended. -/
def toChar (n : Nat) : Int :=
  if n % 256 < 128 then ((n % 256 : Nat) : Int) else ((n % 256 : Nat) : Int) - 256

/-- The C cast `(short) x` followed by `(int)`: the low half-word, sign-extended. -/
def toShort (n : Nat) : Int :=
  if n % 65536 < 32768 then ((n % 65536 : Nat) : Int) else ((n % 65536 : Nat) : Int) - 65536

/-- Left shift of a 32-bit pattern, `x << k`, keeping the low 32 bits. -/
def shl32 (x k : Nat) : Nat := (x <<< k) % 4294967296

/-- Bitwise complement of a 32-bit pattern, `~x`. -/
def not32 (x : Nat) : Nat := 4294967295 ^^^ (x % 4294967296)

/-! ## Constants of `cpu_constants.h` -/

def WORD_SIZE : Nat := 32

def HEX_SF : Nat := 0x80
def HEX_OF : Nat := 0x40
def HEX_PF : Nat := 0x10
def HEX_ZF : Nat := 0x04
def HEX_CF : Nat := 0x01

def R_INSTR : List String :=
  ["not", "and", "or", "xor", "add", "sub", "div", "mul", "mod", "nor", "slt", "sll", "srl",
   "sra", "sltu"]

def I_INSTR : List String :=
  ["addi", "subi", "divi", "muli", "modi", "andi", "ori", "xori", "nori", "slti", "slli",
   "srli", "srai"]

def MEM_INSTR : List String := ["load", "store", "lea"]

def CONTROL_INSTR : List String :=
  ["jmp", "je", "jne", "js", "jns", "jg", "jge", "jl", "jle", "call"]

def STACK_INSTR : List String := ["push", "pop"]

def NO_OPERAND_INSTR : List String := ["ret"]

def MEM_DISPLAY_INSTR : List String := ["mem"]

def MOV_INSTR : List String := ["mov", "movi"]

def TOTAL_ASSEMBLY_OPCODES : Nat := 46

/-- The table `opcode_map`: mnemonic and opcode, in source order. -/
def opcode_map : List (String × Int) :=
  [("load", 0x00), ("store", 0x01), ("mem", 0x02), ("mov", 0x03), ("movi", 0x04), ("lea", 0x05),
   ("add", 0x20), ("sub", 0x21), ("mul", 0x22), ("div", 0x23), ("mod", 0x24), ("and", 0x25),
   ("or", 0x26), ("xor", 0x27), ("nor", 0x28), ("sll", 0x29), ("slt", 0x2A), ("srl", 0x2B),
   ("sra", 0x2C), ("sltu", 0x2D),
   ("addi", 0x30), ("subi", 0x31), ("muli", 0x32), ("divi", 0x33), ("modi", 0x34),
   ("andi", 0x35), ("ori", 0x36), ("xori", 0x37), ("nori", 0x38), ("slli", 0x39),
   ("slti", 0x3A), ("srli", 0x3B), ("srai", 0x3C),
   ("jmp", 0x10), ("je", 0x11), ("jne", 0x12), ("js", 0x13), ("jns", 0x14), ("jg", 0x15),
   ("jge", 0x16), ("jl", 0x17), ("jle", 0x18),
   ("ret", 0x08), ("call", 0x09),
   ("push", 0x0A), ("pop", 0x0B)]

/-- The enum `opcode_formats`, constructors in the order of their C values 0..11. -/
inductive opcode_formats
  | LOAD_STORE | REG_REG | REG_MEM | MEM_REG | IMM_REG | IMM_MEM | MEM_DISPLAY
  | CONTROL_LABEL | STACK_REG | NO_OPERAND | MOV_REG_REG | MOV_IMM_REG
  deriving DecidableEq, Repr

/-- The enum value stored by `instr_attr_ptr->format = instr_format` for an `int`. -/
def formatOfInt : Nat → Option opcode_formats
  | 0 => some .LOAD_STORE
  | 1 => some .REG_REG
  | 2 => some .REG_MEM
  | 3 => some .MEM_REG
  | 4 => some .IMM_REG
  | 5 => some .IMM_MEM
  | 6 => some .MEM_DISPLAY
  | 7 => some .CONTROL_LABEL
  | 8 => some .STACK_REG
  | 9 => some .NO_OPERAND
  | 10 => some .MOV_REG_REG
  | 11 => some .MOV_IMM_REG
  | _ => none

/-- The struct `instruction_attr`. -/
structure instruction_attr where
  format : opcode_formats
  instruction : String
  base_register : Int
  index_register : Int
  offset : Int
  scale : Int
  operand_register : Int
  const_or_label : Int
  deriving DecidableEq, Repr

def REG_REG_IND : Nat := 0x01
def REG_MEM_IND : Nat := 0x02
def MEM_REG_IND : Nat := 0x03
def MOV_REG_REG_IND : Nat := 0x00
def MOV_IMM_REG_IND : Nat := 0x01

/-! ## `cpu_utils.c` -/

/-- The inner `while` of `IsStringInStringArray` followed by its test
`arr[i][j] == str[j]`: both strings are walked together while their characters agree, and the
test succeeds only when both ended at the same place. -/
def strMatch : List Char → List Char → Bool
  | [], [] => true
  | a :: as, c :: cs => if a = c then strMatch as cs else false
  | _, _ => false

/-- The function `IsStringInStringArray`. -/
def IsStringInStringArray (str : String) : List String → Bool
  | [] => false
  | a :: arr => if strMatch a.data str.data then true else IsStringInStringArray str arr

/-- The scan of `getOpcodeFromInstruction` over the remaining table entries. -/
def getOpcodeLoop (command : String) : List (String × Int) → Int
  | [] => -1
  | e :: rest => if command = e.1 then e.2 else getOpcodeLoop command rest

/-- The function `getOpcodeFromInstruction`: the opcode of a mnemonic, `-1` when absent. -/
def getOpcodeFromInstruction (command : String) : Int := getOpcodeLoop command opcode_map

/-- The scan of `getInstructionFromOpcode` over the remaining table entries. -/
def getInstructionLoop (opcode : Int) : List (String × Int) → Option String
  | [] => none
  | e :: rest => if opcode = e.2 then some e.1 else getInstructionLoop opcode rest

/-- The function `getInstructionFromOpcode`.  The C function falls off its end without a
`return` when the opcode is absent; that case is `none`. -/
def getInstructionFromOpcode (opcode : Int) : Option String := getInstructionLoop opcode opcode_map

/-- The function `decodeInstructionFromBinary`.  The C function fills the struct it is handed,
so the embedding takes the struct before the call and returns it afterwards; `none` is the
undefined behaviour of an opcode that is not in the table. -/
def decodeInstructionFromBinary (binary_opcode : Nat) (instr_attr : instruction_attr) :
    Option instruction_attr :=
  let opcode := (binary_opcode >>> 26) &&& 0x3f
  match getInstructionFromOpcode (opcode : Int) with
  | none => none
  | some command =>
    let op_reg := (binary_opcode >>> 22) &&& 0x0f
    let base_reg := (binary_opcode >>> 18) &&& 0x0f
    let index_reg := (binary_opcode >>> 14) &&& 0x0f
    let scale := shl32 0x01 ((binary_opcode >>> 12) &&& 0x03)
    let offset := toChar ((binary_opcode >>> 4) &&& 0xff)
    let a : instruction_attr :=
      { instr_attr with
        instruction := command
        operand_register := op_reg
        base_register := base_reg
        index_register := index_reg
        scale := scale
        offset := offset }
    if IsStringInStringArray command MEM_INSTR then
      some { a with format := .LOAD_STORE }
    else if IsStringInStringArray command R_INSTR then
      let instr_format := (binary_opcode >>> 2) &&& 0x03
      (formatOfInt instr_format).map fun f => { a with format := f }
    else if IsStringInStringArray command I_INSTR then
      let label := toChar (binary_opcode &&& 0xff)
      let a := { a with const_or_label := label }
      if base_reg = 0 then
        some { a with format := .IMM_REG }
      else
        let offset := toChar ((binary_opcode >>> 8) &&& 0xff)
        some { a with
               base_register := op_reg
               index_register := base_reg
               scale := shl32 1 ((binary_opcode >>> 16) &&& 0x03)
               offset := offset
               format := .IMM_MEM }
    else if IsStringInStringArray command CONTROL_INSTR then
      let label := toShort (binary_opcode &&& 0xffff)
      some { a with format := .CONTROL_LABEL, const_or_label := label }
    else if IsStringInStringArray command STACK_INSTR then
      some { a with format := .STACK_REG }
    else if IsStringInStringArray command NO_OPERAND_INSTR then
      some { a with format := .NO_OPERAND }
    else if IsStringInStringArray command MEM_DISPLAY_INSTR then
      let label := toChar (binary_opcode &&& 0xff)
      some { a with format := .MEM_DISPLAY, const_or_label := label }
    else if IsStringInStringArray command MOV_INSTR then
      let indicator := (binary_opcode >>> 16) &&& 0x01
      if indicator ≠ 0 then
        let label := toShort (binary_opcode &&& 0xffff)
        some { a with format := .MOV_IMM_REG, const_or_label := label }
      else
        some { a with format := .MOV_REG_REG }
    else
      some a

/-- The function `encodeInstructionToBinary`.  Every local is the 32-bit pattern of the C
`int` of the same name; the `default:` branch of the `switch` is unreachable for the twelve
formats of the enum. -/
def encodeInstructionToBinary (instr_attr : instruction_attr) : Nat :=
  let opcode := toU32 (getOpcodeFromInstruction instr_attr.instruction)
  let base_reg := toU32 instr_attr.base_register
  let index_reg := toU32 instr_attr.index_register
  let offset := toU32 instr_attr.offset &&& 0xff
  let scale := toU32 (Int.tdiv instr_attr.scale 2)
  let op_reg := toU32 instr_attr.operand_register
  let label := toU32 instr_attr.const_or_label
  let opcode := shl32 opcode 26
  let op_reg := shl32 op_reg 22
  let base_reg := shl32 base_reg 18
  let index_reg := shl32 index_reg 14
  let scale := shl32 scale 12
  let offset := shl32 offset 4
  match instr_attr.format with
  | .LOAD_STORE => opcode ||| op_reg ||| base_reg ||| index_reg ||| scale ||| offset
  | .REG_REG =>
    let indicator := shl32 REG_REG_IND 2
    opcode ||| op_reg ||| base_reg ||| indicator
  | .REG_MEM =>
    let indicator := shl32 REG_MEM_IND 2
    opcode ||| op_reg ||| base_reg ||| index_reg ||| scale ||| offset ||| indicator
  | .MEM_REG =>
    let indicator := shl32 MEM_REG_IND 2
    opcode ||| op_reg ||| base_reg ||| index_reg ||| scale ||| offset ||| indicator
  | .MEM_DISPLAY | .IMM_REG =>
    let label := label &&& 0xff
    opcode ||| op_reg ||| label
  | .IMM_MEM =>
    let base_reg := shl32 base_reg 22
    let index_reg := shl32 index_reg 18
    let scale := shl32 scale 16
    let offset := shl32 offset 8
    let label := label &&& 0xff
    opcode ||| base_reg ||| index_reg ||| scale ||| offset ||| label
  | .CONTROL_LABEL =>
    let label := label &&& 0xffff
    opcode ||| label
  | .STACK_REG => opcode ||| op_reg
  | .MOV_REG_REG =>
    let indicator := shl32 MOV_REG_REG_IND 16
    opcode ||| op_reg ||| base_reg ||| indicator
  | .MOV_IMM_REG =>
    let indicator := shl32 MOV_IMM_REG_IND 16
    let label := label &&& 0xffff
    opcode ||| op_reg ||| indicator ||| label
  | .NO_OPERAND => opcode

/-! ## Architectural state (`cpu_constants.h`, `cpu_main.c`) -/

/-- The file-scope registers, the memory and the flag `isSubtract`. -/
structure State where
  GPRS : Nat → Nat
  MEMORY : Nat → Nat
  FLAGS : Nat
  PC : Nat
  MDR : Nat
  MAR : Nat
  HI : Nat
  LO : Nat
  INSTR_REG : Nat
  INSTR_MEMORY_PTR : Nat
  isSubtract : Bool

/-! ## ALU primitives (`cpu_main.c`) -/

/-- The `while (val1 != 0)` loop of `add`; one unit of fuel per evaluation of the loop test. -/
def addLoop : Nat → Nat → Nat → Option Nat
  | 0, _, _ => none
  | fuel + 1, val1, val2 =>
    if val1 ≠ 0 then
      let carry := val2 &&& val1
      let val2 := val2 ^^^ val1
      let val1 := shl32 carry 1
      addLoop fuel val1 val2
    else some val2

/-- The function `add`.  Every pass of the loop clears the lowest set bit position of `val1`
(the carry is shifted left), so the loop test is evaluated at most `WORD_SIZE + 1` times. -/
def add (val1 val2 : Nat) : Option Nat := addLoop (WORD_SIZE + 1) val1 val2

/-- The function `Twos_Complement`. -/
def Twos_Complement (x : Nat) : Option Nat := add (not32 x) 1

/-- The `while (val1 != 0)` loop of `subtract`. -/
def subtractLoop : Nat → Nat → Nat → Option Nat
  | 0, _, _ => none
  | fuel + 1, val1, val2 =>
    if val1 ≠ 0 then
      let borrow := not32 val2 &&& val1
      let val2 := val2 ^^^ val1
      let val1 := shl32 borrow 1
      subtractLoop fuel val1 val2
    else some val2

/-- The function `subtract`: sets `isSubtract`, then runs the borrow loop. -/
def subtract (s : State) (val1 val2 : Nat) : Option (Nat × State) :=
  let s := { s with isSubtract := true }
  (subtractLoop (WORD_SIZE + 1) val1 val2).map fun r => (r, s)

/-- The function `tmpsubtract`. -/
def tmpsubtract (val1 val2 : Nat) : Option Nat :=
  match Twos_Complement val2 with
  | none => none
  | some t => add val1 t

/-- The `while (val1 >= val2)` loop of `divide`, on the locals `val1` and `c`. -/
def divideLoop : Nat → Nat → Nat → Nat → Option (Nat × Nat)
  | 0, _, _, _ => none
  | fuel + 1, val1, val2, c =>
    if val1 ≥ val2 then
      match tmpsubtract val1 val2 with
      | none => none
      | some val1 =>
        match add c 1 with
        | none => none
        | some c => divideLoop fuel val1 val2 c
    else some (val1, c)

/-- The function `divide`.  Its operands are unsigned, so the two `< 0` tests never hold; the
loop is entered only for a non-zero divisor, where its test is evaluated at most `val1 + 1`
times.  The result is the returned value and the state with `HI` and `LO` written. -/
def divide (s : State) (val1 val2 : Nat) : Option (Nat × State) :=
  let c := 0
  let sign := 0
  match (if val1 < 0 then (Twos_Complement val1).map fun v => (v, sign ^^^ 0x01)
         else some (val1, sign)) with
  | none => none
  | some (val1, sign) =>
    match (if val2 < 0 then (Twos_Complement val2).map fun v => (v, sign ^^^ 0x01)
           else some (val2, sign)) with
    | none => none
    | some (val2, sign) =>
      match (if val2 ≠ 0 then
               (divideLoop (val1 + 1) val1 val2 c).map fun r => (r.2, { s with HI := r.1 })
             else some (c, s)) with
      | none => none
      | some (c, s) =>
        match (if sign ≠ 0 then Twos_Complement c else some c) with
        | none => none
        | some c => some (c, { s with LO := c })

/-! ## Flags unit (`cpu_main.c`) -/

/-- The `for (i = 0; i < WORD_SIZE; i++)` loop of `setFlagsRegister` that counts the one-bits of
`result` into the `SIZE_TYPE count_ones`. -/
def countOnes (result : Nat) : Nat :=
  (List.range WORD_SIZE).foldl
    (fun count_ones i =>
      let res_temp := result >>> i
      let val := res_temp &&& 0x01
      (count_ones + val) % 4294967296)
    0

/-- The function `setFlagsRegister`.  The global `FLAGS` is followed through the five
read-modify-write steps as the local `FLAGS`; it is in the state at the call of `divide` (which
writes `HI` and `LO`) and at the end. -/
def setFlagsRegister (s : State) (val1 val2 result : Nat) : Option State :=
  -- Set 7th bit: SF
  let res_msb := (result >>> (WORD_SIZE - 1)) &&& 0x01
  let FLAGS := if res_msb ≠ 0 then s.FLAGS ||| HEX_SF else s.FLAGS &&& not32 HEX_SF
  -- Set 6th bit: OF
  let val1_signed := toS32 val1
  let val2_signed := toS32 val2
  let result_signed := toS32 result
  let sum_condition : Bool :=
    (decide (val1_signed > 0) && decide (val2_signed > 0) && decide (result_signed ≤ 0)) ||
    (decide (val1_signed < 0) && decide (val2_signed < 0) && decide (result_signed ≥ 0))
  let sub_condition : Bool :=
    (decide (val2_signed > 0) && decide (val1_signed < 0) && decide (result_signed < 0)) ||
    (decide (val2_signed < 0) && decide (val1_signed > 0) && decide (result_signed > 0))
  let FLAGS :=
    if s.isSubtract && sub_condition then FLAGS ||| HEX_OF
    else if !s.isSubtract && sum_condition then FLAGS ||| HEX_OF
    else FLAGS &&& not32 HEX_OF
  -- Set 4th bit: PF
  let count_ones := countOnes result
  match divide { s with FLAGS := FLAGS } count_ones 2 with
  | none => none
  | some (_, s) =>
    let FLAGS := if s.HI ≠ 0 then s.FLAGS ||| HEX_PF else s.FLAGS &&& not32 HEX_PF
    -- Set 2th bit: ZF
    let FLAGS := if result = 0 then FLAGS ||| HEX_ZF else FLAGS &&& not32 HEX_ZF
    -- Set 0th bit: CF
    let FLAGS :=
      if result < val1 ∨ result < val2 then FLAGS ||| HEX_CF else FLAGS &&& not32 HEX_CF
    some { s with FLAGS := FLAGS }

/-- The enum `status_flags`. -/
inductive status_flags
  | SF | OF | PF | ZF | CF
  deriving DecidableEq, Repr

/-- The function `getFlagStatusFromFlagsRegister`; the `default:` branch of its `switch` is
unreachable for the five flags of the enum. -/
def getFlagStatusFromFlagsRegister (s : State) (input_flag : status_flags) : Bool :=
  let flag_hex_value :=
    match input_flag with
    | .SF => HEX_SF
    | .OF => HEX_OF
    | .PF => HEX_PF
    | .ZF => HEX_ZF
    | .CF => HEX_CF
  if (s.FLAGS &&& flag_hex_value) ≠ 0 then true else false

/-- The number of one-bits among the 32 bits of a word. -/
def popCount (w : Nat) : Nat := ((List.range 32).filter fun i => w.testBit i).length

/-- A state with every register and memory byte zero, used to run the code on examples. -/
def zeroState : State :=
  { GPRS := fun _ => 0, MEMORY := fun _ => 0, FLAGS := 0, PC := 0, MDR := 0, MAR := 0,
    HI := 0, LO := 0, INSTR_REG := 0, INSTR_MEMORY_PTR := 0, isSubtract := false }

/-! ## Memory (`cpu_constants.h`, `cpu_main.c`)

`MEMORY` is an array of `MEMORY_SIZE` bytes and `GPRS` an array of `MAX_GPRS` words.  An access
outside an array is undefined behaviour in C and is `none` here, like a fatal `exit` and like a
loop that runs out of fuel.  The host is little-endian, so the bytes of a word in memory, seen
through a `data_ptr` or a `SIZE_TYPE *`, are its bytes from the least significant one up. -/

def MAX_GPRS : Nat := 16
def MEMORY_SIZE : Nat := 65536
def NUM_BYTES_IN_WORD : Nat := 4
def BOOTSTRAP_MEMORY_MAX : Nat := 1023
def INSTRUCTION_MEMORY_MAX : Nat := 9215
def INSTRUCTION_MEMORY_MIN : Nat := 1024
def STACK_MEMORY_START : Nat := 65536
def DATA_MEMORY_MIN : Nat := 9216

/-- The four bytes of a word as a `data_ptr` to it sees them. -/
def wordBytes (w : Nat) : List Nat :=
  [w % 256, (w >>> 8) % 256, (w >>> 16) % 256, (w >>> 24) % 256]

/-- The `for` loop of `readFromMemory`: `index` runs down from the last byte while
`index >= start_index`, in unsigned arithmetic.  One unit of fuel per evaluation of the test. -/
def readFromMemoryLoop (s : State) (start_index : Nat) : Nat → Nat → Nat → Option Nat
  | 0, _, _ => none
  | fuel + 1, index, result =>
    if index ≥ start_index then
      if index < MEMORY_SIZE then
        let result := shl32 result 8
        let result := result ||| s.MEMORY index
        readFromMemoryLoop s start_index fuel ((index + 4294967295) % 4294967296) result
      else none
    else some result

/-- The function `readFromMemory`.  The index only moves down, and an index outside the array
ends the run, so the loop test is evaluated at most `MEMORY_SIZE + 1` times. -/
def readFromMemory (s : State) (start_index : Nat) (num_bytes : Int) : Option Nat :=
  readFromMemoryLoop s start_index (MEMORY_SIZE + 2)
    ((start_index + toU32 num_bytes + 4294967295) % 4294967296) 0

/-- The `for` loop of `writeIntoMemory`, from byte `i` on.  The source loop does not compare
`index` with the size of `MEMORY`; a store at an index outside the array is undefined
behaviour in C and is `none` here, so a result `some` means that every byte was written inside
`MEMORY`. -/
def writeIntoMemoryLoop (num_bytes : Int) (data : List Nat) : Nat → Int → Nat → State → Option State
  | 0, _, _, _ => none
  | fuel + 1, i, index, s =>
    if i < num_bytes then
      if index < MEMORY_SIZE then
        match data[i.toNat]? with
        | none => none
        | some b =>
          writeIntoMemoryLoop num_bytes data fuel (i + 1) ((index + 1) % 4294967296)
            { s with MEMORY := Function.update s.MEMORY index b }
      else none
    else some s

/-- The function `writeIntoMemory`; `data` is the object the `data_ptr` points into. -/
def writeIntoMemory (s : State) (start_index : Nat) (num_bytes : Int) (data : List Nat) :
    Option State :=
  writeIntoMemoryLoop num_bytes data (num_bytes.toNat + 1) 0 start_index s

/-- The function `saveInstructionToMemory`. -/
def saveInstructionToMemory (s : State) (opcode : Nat) : Option State :=
  match writeIntoMemory s s.INSTR_MEMORY_PTR NUM_BYTES_IN_WORD (wordBytes opcode) with
  | none => none
  | some s =>
    some { s with INSTR_MEMORY_PTR := (s.INSTR_MEMORY_PTR + NUM_BYTES_IN_WORD) % 4294967296 }

/-- The word whose four bytes, least significant first, are at `addr` .. `addr + 3`. -/
def loadWord (M : Nat → Nat) (addr : Nat) : Nat :=
  M addr + M (addr + 1) * 256 + M (addr + 2) * 65536 + M (addr + 3) * 16777216

/-- The memory after the four bytes of `v`, least significant first, are put at `addr` ..
`addr + 3`. -/
def storeWord (M : Nat → Nat) (addr v : Nat) : Nat → Nat :=
  Function.update
    (Function.update
      (Function.update (Function.update M addr (v % 256)) (addr + 1) ((v >>> 8) % 256))
      (addr + 2) ((v >>> 16) % 256))
    (addr + 3) ((v >>> 24) % 256)

/-- The objects the executors receive a `SIZE_TYPE *` (or `int *`) to: a general-purpose
register `&GPRS[i]`, four bytes of memory `(SIZE_TYPE *) &MEMORY[addr]`, or `&PC`. -/
inductive Loc
  | gpr (i : Int)
  | mem (addr : Nat)
  | pc
  deriving DecidableEq, Repr

/-- Reading through the pointer, `*p`. -/
def readLoc (s : State) : Loc → Option Nat
  | .gpr i => if 0 ≤ i ∧ i < MAX_GPRS then some (s.GPRS i.toNat) else none
  | .mem addr => if addr + 3 < MEMORY_SIZE then some (loadWord s.MEMORY addr) else none
  | .pc => some s.PC

/-- Writing through the pointer, `*p = v`. -/
def writeLoc (s : State) : Loc → Nat → Option State
  | .gpr i, v =>
    if 0 ≤ i ∧ i < MAX_GPRS then some { s with GPRS := Function.update s.GPRS i.toNat v }
    else none
  | .mem addr, v =>
    if addr + 3 < MEMORY_SIZE then some { s with MEMORY := storeWord s.MEMORY addr v } else none
  | .pc, v => some { s with PC := v }

/-- The function `loadRegister`. -/
def loadRegister (s : State) (reg : Loc) (memory_addr : Nat) : Option State :=
  match readFromMemory s memory_addr NUM_BYTES_IN_WORD with
  | none => none
  | some v => writeLoc s reg v

/-- The function `storeRegister`. -/
def storeRegister (s : State) (reg : Loc) (memory_addr : Nat) : Option State :=
  match readLoc s reg with
  | none => none
  | some reg_value => writeIntoMemory s memory_addr NUM_BYTES_IN_WORD (wordBytes reg_value)

/-- The function `checkValidMemoryAccess`: `none` is its `exit`. -/
def checkValidMemoryAccess (memory_address : Nat) : Option Unit :=
  if memory_address ≥ MEMORY_SIZE ∨ memory_address < INSTRUCTION_MEMORY_MAX then none
  else some ()

/-- The function `computeMemoryAddressFromOpcode`. -/
def computeMemoryAddressFromOpcode (s : State) (instr_attr : instruction_attr) : Option Nat :=
  let base_reg := instr_attr.base_register
  let index_reg := instr_attr.index_register
  let scale := instr_attr.scale
  let offset := instr_attr.offset
  match readLoc s (.gpr base_reg), readLoc s (.gpr index_reg) with
  | some b, some i =>
    let address := (b + (i * toU32 scale) % 4294967296 + toU32 offset) % 4294967296
    match checkValidMemoryAccess address with
    | none => none
    | some _ => some address
  | _, _ => none

/-! ## More ALU primitives (`cpu_main.c`) -/

/-- The function `and`. -/
def bitAnd (val1 val2 : Nat) : Nat := val1 &&& val2

/-- The function `or`. -/
def bitOr (val1 val2 : Nat) : Nat := val1 ||| val2

/-- The function `xor`. -/
def bitXor (val1 val2 : Nat) : Nat := val1 ^^^ val2

/-- The function `not`. -/
def bitNot (x : Nat) : Nat := not32 x

/-- The function `nor`. -/
def nor (val1 val2 : Nat) : Nat := bitNot (val1 ||| val2)

/-- The `while (val2 != 0)` loop of `multiply`. -/
def multiplyLoop : Nat → Nat → Nat → Nat → Option Nat
  | 0, _, _, _ => none
  | fuel + 1, val1, val2, result =>
    if val2 ≠ 0 then
      let result := if val2 &&& 0x01 ≠ 0 then (result + val1) % 4294967296 else result
      multiplyLoop fuel (shl32 val1 1) (val2 >>> 1) result
    else some result

/-- The function `multiply`; `val2` loses a bit per pass, so the loop test is evaluated at most
`WORD_SIZE + 1` times. -/
def multiply (val1 val2 : Nat) : Option Nat := multiplyLoop (WORD_SIZE + 1) val1 val2 0

/-- The function `sll`; a shift by the width of the word or more is undefined. -/
def sll (val1 val2 : Nat) : Option Nat :=
  if val1 < WORD_SIZE then some (shl32 val2 val1) else none

/-- The function `srl`; a shift by the width of the word or more is undefined. -/
def srl (val1 val2 : Nat) : Option Nat :=
  if val1 < WORD_SIZE then some (val2 >>> val1) else none

/-- The function `sra`.  Its locals are `int`s, followed as 32-bit patterns; the call
`sll (z, val1)` shifts `val1` by `z`. -/
def sra (val1 val2 : Nat) : Option Nat :=
  let msb_temp := val2 >>> (WORD_SIZE - 1)
  let z := if msb_temp ≠ 0 then not32 0x00 else 0x00
  match srl val1 val2 with
  | none => none
  | some temp =>
    match sll z val1 with
    | none => none
    | some x => some (x ||| temp)

/-! ## Executors of the single instructions (`cpu_main.c`) -/

/-- The function `executeLoad`. -/
def executeLoad (s : State) (reg_to_load : Int) (memory_addr : Nat) : Option State := do
  let s ← loadRegister s (.gpr reg_to_load) memory_addr
  let s := { s with MAR := memory_addr }
  let v ← readLoc s (.gpr reg_to_load)
  some { s with MDR := v }

/-- The function `executeStore`. -/
def executeStore (s : State) (reg_to_store : Int) (memory_addr : Nat) : Option State := do
  let s ← storeRegister s (.gpr reg_to_store) memory_addr
  let s := { s with MAR := memory_addr }
  let v ← readLoc s (.gpr reg_to_store)
  some { s with MDR := v }

/-- The function `executeNOT`. -/
def executeNOT (s : State) (arg1 arg2 : Loc) : Option State := do
  let op1 ← readLoc s arg1
  let op2 ← readLoc s arg2
  let result := bitNot op1
  let s ← writeLoc s arg2 result
  setFlagsRegister s op1 op2 result

/-- The function `executeAND`. -/
def executeAND (s : State) (arg1 arg2 : Loc) : Option State := do
  let op1 ← readLoc s arg1
  let op2 ← readLoc s arg2
  let result := bitAnd op1 op2
  let s ← writeLoc s arg2 result
  setFlagsRegister s op1 op2 result

/-- The function `executeANDI`. -/
def executeANDI (s : State) (constant : Nat) (ptr : Loc) : Option State := do
  let op2 ← readLoc s ptr
  let result := bitAnd constant op2
  let s ← writeLoc s ptr result
  setFlagsRegister s constant op2 result

/-- The function `executeOR`. -/
def executeOR (s : State) (arg1 arg2 : Loc) : Option State := do
  let op1 ← readLoc s arg1
  let op2 ← readLoc s arg2
  let result := bitOr op1 op2
  let s ← writeLoc s arg2 result
  setFlagsRegister s op1 op2 result

/-- The function `executeORI`. -/
def executeORI (s : State) (constant : Nat) (ptr : Loc) : Option State := do
  let op2 ← readLoc s ptr
  let result := bitOr constant op2
  let s ← writeLoc s ptr result
  setFlagsRegister s constant op2 result

/-- The function `executeXOR`. -/
def executeXOR (s : State) (arg1 arg2 : Loc) : Option State := do
  let op1 ← readLoc s arg1
  let op2 ← readLoc s arg2
  let result := bitXor op1 op2
  let s ← writeLoc s arg2 result
  setFlagsRegister s op1 op2 result

/-- The function `executeXORI`. -/
def executeXORI (s : State) (constant : Nat) (ptr : Loc) : Option State := do
  let op2 ← readLoc s ptr
  let result := bitXor constant op2
  let s ← writeLoc s ptr result
  setFlagsRegister s constant op2 result

/-- The function `executeNOR`. -/
def executeNOR (s : State) (arg1 arg2 : Loc) : Option State := do
  let op1 ← readLoc s arg1
  let op2 ← readLoc s arg2
  let result := nor op1 op2
  let s ← writeLoc s arg2 result
  setFlagsRegister s op1 op2 result

/-- The function `executeNORI`. -/
def executeNORI (s : State) (constant : Nat) (ptr : Loc) : Option State := do
  let op2 ← readLoc s ptr
  let result := nor constant op2
  let s ← writeLoc s ptr result
  setFlagsRegister s constant op2 result

/-- The function `executeSLT`: the difference is not stored. -/
def executeSLT (s : State) (arg1 arg2 : Loc) : Option State := do
  let op1 ← readLoc s arg1
  let op2 ← readLoc s arg2
  let (result, s) ← subtract s op1 op2
  setFlagsRegister s op1 op2 result

/-- The function `executeSLTI`: the difference is not stored. -/
def executeSLTI (s : State) (constant : Nat) (ptr : Loc) : Option State := do
  let op2 ← readLoc s ptr
  let (result, s) ← subtract s constant op2
  setFlagsRegister s constant op2 result

/-- The function `executeSLL`. -/
def executeSLL (s : State) (arg1 arg2 : Loc) : Option State := do
  let op1 ← readLoc s arg1
  let op2 ← readLoc s arg2
  let result ← sll op1 op2
  let s ← writeLoc s arg2 result
  setFlagsRegister s op1 op2 result

/-- The function `executeSLLI`. -/
def executeSLLI (s : State) (constant : Nat) (ptr : Loc) : Option State := do
  let op2 ← readLoc s ptr
  let result ← sll constant op2
  let s ← writeLoc s ptr result
  setFlagsRegister s constant op2 result

/-- The function `executeSRL`. -/
def executeSRL (s : State) (arg1 arg2 : Loc) : Option State := do
  let op1 ← readLoc s arg1
  let op2 ← readLoc s arg2
  let result ← srl op1 op2
  let s ← writeLoc s arg2 result
  setFlagsRegister s op1 op2 result

/-- The function `executeSRLI`. -/
def executeSRLI (s : State) (constant : Nat) (ptr : Loc) : Option State := do
  let op2 ← readLoc s ptr
  let result ← srl constant op2
  let s ← writeLoc s ptr result
  setFlagsRegister s constant op2 result

/-- The function `executeSRA`. -/
def executeSRA (s : State) (arg1 arg2 : Loc) : Option State := do
  let op1 ← readLoc s arg1
  let op2 ← readLoc s arg2
  let result ← sra op1 op2
  let s ← writeLoc s arg2 result
  setFlagsRegister s op1 op2 result

/-- The function `executeSRAI`. -/
def executeSRAI (s : State) (constant : Nat) (ptr : Loc) : Option State := do
  let op2 ← readLoc s ptr
  let result ← sra op2 constant
  let s ← writeLoc s ptr result
  setFlagsRegister s constant op2 result

/-- The function `executePush`; `SP` is `GPRS[14]`. -/
def executePush (s : State) (arg1 : Loc) : Option State := do
  let op1 ← readLoc s arg1
  let s := { s with GPRS := Function.update s.GPRS 14 ((s.GPRS 14 + 4294967292) % 4294967296) }
  writeIntoMemory s (s.GPRS 14) NUM_BYTES_IN_WORD (wordBytes op1)

/-- The function `executePop`; `SP` is `GPRS[14]`. -/
def executePop (s : State) (reg : Loc) : Option State := do
  let v ← readFromMemory s (s.GPRS 14) NUM_BYTES_IN_WORD
  let s ← writeLoc s reg v
  some { s with GPRS := Function.update s.GPRS 14 ((s.GPRS 14 + 4) % 4294967296) }

/-- The function `executeAdd`. -/
def executeAdd (s : State) (arg1 arg2 : Loc) : Option State := do
  let op1 ← readLoc s arg1
  let op2 ← readLoc s arg2
  let result ← add op1 op2
  let s ← writeLoc s arg2 result
  setFlagsRegister s op1 op2 result

/-- The function `executeAddI`. -/
def executeAddI (s : State) (constant : Nat) (ptr : Loc) : Option State := do
  let op2 ← readLoc s ptr
  let result ← add constant op2
  let s ← writeLoc s ptr result
  setFlagsRegister s constant op2 result

/-- The function `executeSub`. -/
def executeSub (s : State) (arg1 arg2 : Loc) : Option State := do
  let op1 ← readLoc s arg1
  let op2 ← readLoc s arg2
  let (result, s) ← subtract s op1 op2
  let s ← writeLoc s arg2 result
  setFlagsRegister s op1 op2 result

/-- The function `executeSubI`. -/
def executeSubI (s : State) (constant : Nat) (ptr : Loc) : Option State := do
  let op2 ← readLoc s ptr
  let (result, s) ← subtract s constant op2
  let s ← writeLoc s ptr result
  setFlagsRegister s constant op2 result

/-- The function `executeMul`. -/
def executeMul (s : State) (arg1 arg2 : Loc) : Option State := do
  let op1 ← readLoc s arg1
  let op2 ← readLoc s arg2
  let result ← multiply op1 op2
  let s ← writeLoc s arg2 result
  setFlagsRegister s op1 op2 result

/-- The function `executeMulI`. -/
def executeMulI (s : State) (constant : Nat) (ptr : Loc) : Option State := do
  let op2 ← readLoc s ptr
  let result ← multiply constant op2
  let s ← writeLoc s ptr result
  setFlagsRegister s constant op2 result

/-- The function `executeDiv`. -/
def executeDiv (s : State) (arg1 arg2 : Loc) : Option State := do
  let op1 ← readLoc s arg1
  let op2 ← readLoc s arg2
  let (result, s) ← divide s op1 op2
  let s ← writeLoc s arg2 result
  setFlagsRegister s op1 op2 result

/-- The function `executeDivI`. -/
def executeDivI (s : State) (constant : Nat) (ptr : Loc) : Option State := do
  let op2 ← readLoc s ptr
  let (result, s) ← divide s constant op2
  let s ← writeLoc s ptr result
  setFlagsRegister s constant op2 result

/-- The function `executeMod`. -/
def executeMod (s : State) (arg1 arg2 : Loc) : Option State := do
  let op1 ← readLoc s arg1
  let op2 ← readLoc s arg2
  let (result, s) ← divide s op1 op2
  let s ← writeLoc s arg2 result
  setFlagsRegister s op1 op2 result

/-- The function `executeModI`. -/
def executeModI (s : State) (constant : Nat) (ptr : Loc) : Option State := do
  let op2 ← readLoc s ptr
  let (result, s) ← divide s constant op2
  let s ← writeLoc s ptr result
  setFlagsRegister s constant op2 result

/-- The function `executeMov`: `*op2 = *op1`. -/
def executeMov (s : State) (op1 op2 : Loc) : Option State := do
  let v ← readLoc s op1
  writeLoc s op2 v

/-- The function `executeMovI`. -/
def executeMovI (s : State) (constant : Nat) (ptr : Loc) : Option State :=
  writeLoc s ptr constant

/-- The function `executeLea`. -/
def executeLea (s : State) (addr : Nat) (reg : Int) : Option State :=
  writeLoc s (.gpr reg) addr

/-- The new program counter of a taken jump, `PC + (label_offset * 4)`. -/
def jumpTarget (s : State) (label_offset : Int) : Nat :=
  (s.PC + toU32 (label_offset * 4)) % 4294967296

/-- The function `executeCall`. -/
def executeCall (s : State) (label_offset : Int) : Option State := do
  let s ← executePush s .pc
  some { s with PC := jumpTarget s label_offset }

/-- The function `executeJmp`. -/
def executeJmp (s : State) (label_offset : Int) : Option State :=
  some { s with PC := jumpTarget s label_offset }

/-- The function `executeJE`. -/
def executeJE (s : State) (label_offset : Int) : Option State :=
  let ZeroF := getFlagStatusFromFlagsRegister s .ZF
  if ZeroF then some { s with PC := jumpTarget s label_offset } else some s

/-- The function `executeJNE`. -/
def executeJNE (s : State) (label_offset : Int) : Option State :=
  let ZeroF := getFlagStatusFromFlagsRegister s .ZF
  if !ZeroF then some { s with PC := jumpTarget s label_offset } else some s

/-- The function `executeJS`. -/
def executeJS (s : State) (label_offset : Int) : Option State :=
  let SignedF := getFlagStatusFromFlagsRegister s .SF
  if SignedF then some { s with PC := jumpTarget s label_offset } else some s

/-- The function `executeJNS`. -/
def executeJNS (s : State) (label_offset : Int) : Option State :=
  let SignedF := getFlagStatusFromFlagsRegister s .SF
  if !SignedF then some { s with PC := jumpTarget s label_offset } else some s

/-- The function `executeJG`. -/
def executeJG (s : State) (label_offset : Int) : Option State :=
  let SignedF := getFlagStatusFromFlagsRegister s .SF
  let OverflowF := getFlagStatusFromFlagsRegister s .OF
  let ZeroF := getFlagStatusFromFlagsRegister s .ZF
  if !ZeroF && !(SignedF ^^ OverflowF) then some { s with PC := jumpTarget s label_offset }
  else some s

/-- The function `executeJGE`. -/
def executeJGE (s : State) (label_offset : Int) : Option State :=
  let SignedF := getFlagStatusFromFlagsRegister s .SF
  let OverflowF := getFlagStatusFromFlagsRegister s .OF
  if !(SignedF ^^ OverflowF) then some { s with PC := jumpTarget s label_offset } else some s

/-- The function `executeJL`. -/
def executeJL (s : State) (label_offset : Int) : Option State :=
  let SignedF := getFlagStatusFromFlagsRegister s .SF
  let OverflowF := getFlagStatusFromFlagsRegister s .OF
  if SignedF ^^ OverflowF then some { s with PC := jumpTarget s label_offset } else some s

/-- The function `executeJLE`. -/
def executeJLE (s : State) (label_offset : Int) : Option State :=
  let SignedF := getFlagStatusFromFlagsRegister s .SF
  let OverflowF := getFlagStatusFromFlagsRegister s .OF
  let ZeroF := getFlagStatusFromFlagsRegister s .ZF
  if (SignedF ^^ OverflowF) || ZeroF then some { s with PC := jumpTarget s label_offset }
  else some s

/-- The function `executeRet`. -/
def executeRet (s : State) : Option State := executePop s .pc

/-! ## Dispatch on the decoded instruction (`cpu_main.c`) -/

/-- One `if (strcmp (command, name) == 0) { ... }` of a dispatcher: the executor runs when the
mnemonic is `name`, and the state passes through otherwise. -/
def onCommand (command name : String) (f : State → Option State) (s : State) : Option State :=
  if command = name then f s else some s

/-- The function `executeMemoryTypeInstructions`. -/
def executeMemoryTypeInstructions (s : State) (instr_attr : instruction_attr) : Option State := do
  let command := instr_attr.instruction
  let memory_address ← computeMemoryAddressFromOpcode s instr_attr
  let reg := instr_attr.operand_register
  let s ← onCommand command "load" (fun s => executeLoad s reg memory_address) s
  let s ← onCommand command "store" (fun s => executeStore s reg memory_address) s
  onCommand command "lea" (fun s => executeLea s memory_address reg) s

/-- The function `executeStackInstructions`. -/
def executeStackInstructions (s : State) (instr_attr : instruction_attr) : Option State := do
  let command := instr_attr.instruction
  let address0 ←
    match instr_attr.format with
    | .STACK_REG => some (Loc.gpr instr_attr.operand_register)
    | _ => none
  let s ← onCommand command "push" (fun s => executePush s address0) s
  onCommand command "pop" (fun s => executePop s address0) s

/-- The function `executeRTypeInstructions`. -/
def executeRTypeInstructions (s : State) (instr_attr : instruction_attr) : Option State := do
  let command := instr_attr.instruction
  let (address0, address1) ←
    match instr_attr.format with
    | .REG_REG =>
      some (Loc.gpr instr_attr.operand_register, Loc.gpr instr_attr.base_register)
    | .REG_MEM =>
      (computeMemoryAddressFromOpcode s instr_attr).map fun m =>
        (Loc.gpr instr_attr.operand_register, Loc.mem m)
    | .MEM_REG =>
      (computeMemoryAddressFromOpcode s instr_attr).map fun m =>
        (Loc.mem m, Loc.gpr instr_attr.operand_register)
    | _ => none
  let s ← onCommand command "add" (fun s => executeAdd s address0 address1) s
  let s ← onCommand command "sub" (fun s => executeSub s address0 address1) s
  let s ← onCommand command "mul" (fun s => executeMul s address0 address1) s
  let s ← onCommand command "div" (fun s => executeDiv s address0 address1) s
  let s ← onCommand command "mod" (fun s => executeMod s address0 address1) s
  let s ← onCommand command "and" (fun s => executeAND s address0 address1) s
  let s ← onCommand command "or" (fun s => executeOR s address0 address1) s
  let s ← onCommand command "xor" (fun s => executeXOR s address0 address1) s
  let s ← onCommand command "not" (fun s => executeNOT s address0 address1) s
  let s ← onCommand command "nor" (fun s => executeNOR s address0 address1) s
  let s ← onCommand command "slt" (fun s => executeSLT s address0 address1) s
  let s ← onCommand command "sll" (fun s => executeSLL s address0 address1) s
  let s ← onCommand command "srl" (fun s => executeSRL s address0 address1) s
  onCommand command "sra" (fun s => executeSRA s address0 address1) s

/-- The function `executeITypeInstructions`.  The test in front of `executeANDI` compares the
mnemonic with `AND`, as the source does. -/
def executeITypeInstructions (s : State) (instr_attr : instruction_attr) : Option State := do
  let command := instr_attr.instruction
  let constant := toU32 instr_attr.const_or_label
  let p ←
    match instr_attr.format with
    | .IMM_REG => some (Loc.gpr instr_attr.operand_register)
    | .IMM_MEM => (computeMemoryAddressFromOpcode s instr_attr).map Loc.mem
    | _ => none
  let s ← onCommand command "addi" (fun s => executeAddI s constant p) s
  let s ← onCommand command "subi" (fun s => executeSubI s constant p) s
  let s ← onCommand command "muli" (fun s => executeMulI s constant p) s
  let s ← onCommand command "divi" (fun s => executeDivI s constant p) s
  let s ← onCommand command "modi" (fun s => executeModI s constant p) s
  let s ← onCommand command "and" (fun s => executeANDI s constant p) s
  let s ← onCommand command "ori" (fun s => executeORI s constant p) s
  let s ← onCommand command "xori" (fun s => executeXORI s constant p) s
  let s ← onCommand command "nori" (fun s => executeNORI s constant p) s
  let s ← onCommand command "slti" (fun s => executeSLTI s constant p) s
  let s ← onCommand command "slli" (fun s => executeSLLI s constant p) s
  let s ← onCommand command "srli" (fun s => executeSRLI s constant p) s
  onCommand command "srai" (fun s => executeSRAI s constant p) s

/-- The `for` loop of `displayMemoryInRange`: the `int i` steps down by 4 while
`i >= start_index` in unsigned arithmetic, and every pass reads the word at `i`.  The printed
text is not part of the state. -/
def displayMemoryLoop (s : State) (start_index : Nat) : Nat → Nat → Option Unit
  | 0, _ => none
  | fuel + 1, i =>
    if i ≥ start_index then
      match readFromMemory s i 4 with
      | none => none
      | some _ => displayMemoryLoop s start_index fuel ((i + 4294967292) % 4294967296)
    else some ()

/-- The function `displayMemoryInRange`; a read outside the memory ends the run, so the loop
test is evaluated at most `MEMORY_SIZE` times. -/
def displayMemoryInRange (s : State) (start_index end_index : Nat) : Option Unit :=
  let final_index := if start_index > end_index then start_index else end_index
  displayMemoryLoop s start_index MEMORY_SIZE final_index

/-- The function `executeMemoryDisplayInstructions`. -/
def executeMemoryDisplayInstructions (s : State) (instr_attr : instruction_attr) :
    Option State := do
  let start_addr ← readLoc s (.gpr instr_attr.operand_register)
  let offset := instr_attr.const_or_label
  let end_addr := (start_addr + toU32 offset) % 4294967296
  let (start_addr, end_addr) :=
    if end_addr < start_addr then (end_addr, start_addr) else (start_addr, end_addr)
  let _ ← displayMemoryInRange s start_addr end_addr
  some s

/-- The function `executeControlTransferInstructions`. -/
def executeControlTransferInstructions (s : State) (instr_attr : instruction_attr) :
    Option State := do
  let command := instr_attr.instruction
  let label_offset := instr_attr.const_or_label
  let s ← onCommand command "call" (fun s => executeCall s label_offset) s
  let s ← onCommand command "jmp" (fun s => executeJmp s label_offset) s
  let s ← onCommand command "je" (fun s => executeJE s label_offset) s
  let s ← onCommand command "jne" (fun s => executeJNE s label_offset) s
  let s ← onCommand command "js" (fun s => executeJS s label_offset) s
  let s ← onCommand command "jns" (fun s => executeJNS s label_offset) s
  let s ← onCommand command "jg" (fun s => executeJG s label_offset) s
  let s ← onCommand command "jge" (fun s => executeJGE s label_offset) s
  let s ← onCommand command "jl" (fun s => executeJL s label_offset) s
  onCommand command "jle" (fun s => executeJLE s label_offset) s

/-- The function `executeMovInstructions`. -/
def executeMovInstructions (s : State) (instr_attr : instruction_attr) : Option State := do
  let command := instr_attr.instruction
  let s ← onCommand command "mov"
    (fun s => executeMov s (.gpr instr_attr.base_register) (.gpr instr_attr.operand_register)) s
  onCommand command "movi"
    (fun s => executeMovI s (toU32 instr_attr.const_or_label) (.gpr instr_attr.operand_register)) s

/-- The function `executeNoOperandInstructions`. -/
def executeNoOperandInstructions (s : State) (instr_attr : instruction_attr) : Option State :=
  onCommand instr_attr.instruction "ret" (fun s => executeRet s) s

/-- The `switch (instr_attr.format)` in the loop of `decodeAndExecuteInstructions`: the
executor of the decoded instruction. -/
def executeDecoded (s : State) (instr_attr : instruction_attr) : Option State :=
  match instr_attr.format with
  | .LOAD_STORE => executeMemoryTypeInstructions s instr_attr
  | .REG_REG | .REG_MEM | .MEM_REG => executeRTypeInstructions s instr_attr
  | .IMM_REG | .IMM_MEM => executeITypeInstructions s instr_attr
  | .STACK_REG => executeStackInstructions s instr_attr
  | .MEM_DISPLAY => executeMemoryDisplayInstructions s instr_attr
  | .CONTROL_LABEL => executeControlTransferInstructions s instr_attr
  | .MOV_IMM_REG | .MOV_REG_REG => executeMovInstructions s instr_attr
  | .NO_OPERAND => executeNoOperandInstructions s instr_attr

/-- The fetch of `decodeAndExecuteInstructions`: the word at `PC` is read and `PC` moves on by
4. -/
def fetchInstruction (s : State) : Option (Nat × State) :=
  match readFromMemory s s.PC NUM_BYTES_IN_WORD with
  | none => none
  | some binary_opcode => some (binary_opcode, { s with PC := (s.PC + 4) % 4294967296 })

/-- The body of the `while` loop of `decodeAndExecuteInstructions` up to the next fetch, for a
fetched non-zero word: `isSubtract` is reset, the word is decoded into the local struct
`instr_attr` (whose previous contents are not specified) and the instruction is executed. -/
def executeFetched (s : State) (binary_opcode : Nat) (instr_attr : instruction_attr) :
    Option State :=
  let s := { s with isSubtract := false }
  match decodeInstructionFromBinary binary_opcode instr_attr with
  | none => none
  | some instr_attr => executeDecoded s instr_attr

/-! ## Labels (`cpu_constants.h`, `cpu_utils.c`, `cpu_main.c`) -/

/-- The struct `label_pos`. -/
structure label_pos where
  label : String
  position : Int
  deriving DecidableEq, Repr

def TOTAL_LABELS : Nat := 100

/-- The scan of `getLabelIndex` over the entries from index `i` on. -/
def getLabelIndexLoop (label : String) : List label_pos → Int → Int
  | [], _ => -1
  | e :: rest, i => if label = e.label then i else getLabelIndexLoop label rest (i + 1)

/-- The function `getLabelIndex`; `LABELS` holds the first `LABEL_COUNT` entries of the global
array. -/
def getLabelIndex (LABELS : List label_pos) (label : String) : Int :=
  getLabelIndexLoop label LABELS 0

/-- The function `validateControlTransferInstruction`; `instr_attr` is its local struct before
the three assignments, and `none` is the `exit` for an unknown label. -/
def validateControlTransferInstruction (LABELS : List label_pos) (s : State)
    (instr_number : Int) (command label_arg : String) (instr_attr : instruction_attr) :
    Option State :=
  let label_index := getLabelIndex LABELS label_arg
  if label_index = -1 then none
  else
    match LABELS[label_index.toNat]? with
    | none => none
    | some e =>
      let instr_attr :=
        { instr_attr with
          instruction := command
          const_or_label := e.position - instr_number - 1
          format := .CONTROL_LABEL }
      let binary_opcode := encodeInstructionToBinary instr_attr
      saveInstructionToMemory s binary_opcode

/-- The function `storeLabelInformation`, on the first `LABEL_COUNT` entries of the global
array: the result is the returned `int` and the table afterwards.  The entry at `LABEL_COUNT`
has never been written, so its zero bytes end the copied label; `none` is the write outside
the array for a full table (the source prints a message and goes on) or outside the 50
characters of the `label` field. -/
def storeLabelInformation (LABELS : List label_pos) (label : String) (position : Int) :
    Option (Int × List label_pos) :=
  if getLabelIndex LABELS label ≠ -1 then some (-1, LABELS)
  else if LABELS.length ≥ TOTAL_LABELS then none
  else if label.length ≥ 50 then none
  else some (LABELS.length, LABELS ++ [⟨label, position⟩])

/-! ## The fetch-decode-execute loop (`cpu_main.c`) -/

/-- The `while (binary_opcode != 0)` loop of `decodeAndExecuteInstructions`, entered with the
word just fetched.  The struct `instr_attr` is declared inside the loop body without an
initialiser; `junk instr_count` is what it holds when pass `instr_count` starts.  One unit of
fuel per evaluation of the loop test; `none` is an `exit`, an undefined access or the end of
the fuel. -/
def decodeAndExecuteLoop (junk : Nat → instruction_attr) :
    Nat → Nat → Nat → State → Option State
  | 0, _, _, _ => none
  | fuel + 1, instr_count, binary_opcode, s =>
    if binary_opcode ≠ 0 then
      match executeFetched s binary_opcode (junk instr_count) with
      | none => none
      | some s =>
        match fetchInstruction s with
        | none => none
        | some (binary_opcode, s) =>
          decodeAndExecuteLoop junk fuel (instr_count + 1) binary_opcode s
    else some s

/-- The function `decodeAndExecuteInstructions`, with fuel for the loop tests. -/
def decodeAndExecuteInstructions (junk : Nat → instruction_attr) (fuel : Nat) (s : State) :
    Option State :=
  match fetchInstruction s with
  | none => none
  | some (binary_opcode, s) => decodeAndExecuteLoop junk fuel 1 binary_opcode s

/-! ## C strings and the C library (`<ctype.h>`, `<stdlib.h>`)

A C string is the list of its characters up to the terminating zero. -/

/-- The C library `isspace` in the "C" locale: space, and `\t`, `\n`, `\v`, `\f`, `\r`. -/
def isspace (c : Char) : Bool := c.toNat == 32 || (9 ≤ c.toNat && c.toNat ≤ 13)

/-- The value of a character as a digit of `strtol`: `0`..`9`, then the letters from 10 on. -/
def digitValue (c : Char) : Option Nat :=
  let n := c.toNat
  if 48 ≤ n ∧ n ≤ 57 then some (n - 48)
  else if 97 ≤ n ∧ n ≤ 122 then some (n - 87)
  else if 65 ≤ n ∧ n ≤ 90 then some (n - 55)
  else none

/-- The digits of the subject sequence of `strtol`: the value so far and the number of digits
read. -/
def strtolDigits (base : Nat) : List Char → Nat → Nat → Nat × Nat
  | [], acc, n => (acc, n)
  | c :: cs, acc, n =>
    match digitValue c with
    | some d => if d < base then strtolDigits base cs (acc * base + d) (n + 1) else (acc, n)
    | none => (acc, n)

def LONG_MAX : Int := 9223372036854775807
def LONG_MIN : Int := -9223372036854775808

/-- The C library function `strtol (str, &next, base)` for base 0, 10 or 16, as the C standard
describes it, with a 64-bit `long`: white space is skipped, then come an optional sign, for
base 0 or 16 an optional `0x` in front of a hexadecimal digit, for base 0 a leading `0` for
octal, and the longest run of digits of the base; a value outside `long` is clamped.  The
result is the value and the offset of `next` from `str`, which is 0 when nothing was
converted. -/
def strtol (str : List Char) (base : Nat) : Int × Nat :=
  let ws := (str.takeWhile isspace).length
  let s1 := str.drop ws
  let neg := s1.head? == some '-'
  let sg := if s1.head? == some '-' || s1.head? == some '+' then 1 else 0
  let s2 := s1.drop sg
  let hex :=
    match s2 with
    | z :: x :: h :: _ =>
      z == '0' && (x == 'x' || x == 'X') &&
        (match digitValue h with
         | some d => decide (d < 16)
         | none => false)
    | _ => false
  let b := if (base = 0 ∨ base = 16) ∧ hex = true then 16
           else if base = 0 then (if s2.head? == some '0' then 8 else 10)
           else base
  let pre := if (base = 0 ∨ base = 16) ∧ hex = true then 2 else 0
  let r := strtolDigits b (s2.drop pre) 0 0
  if r.2 = 0 then (0, 0)
  else
    let v : Int := if neg then -(r.1 : Int) else (r.1 : Int)
    let v := if v > LONG_MAX then LONG_MAX else if v < LONG_MIN then LONG_MIN else v
    (v, ws + sg + pre + r.2)

/-- The C cast `(int) x` of a `long`. -/
def longToInt (x : Int) : Int := toS32 (toU32 x)

/-! ## Parsing helpers (`cpu_utils.c`, `cpu_main.c`) -/

/-- The function `isStartsWith`. -/
def isStartsWith : List Char → List Char → Bool
  | _, [] => true
  | [], _ :: _ => false
  | c :: str, p :: pre => if p = c then isStartsWith str pre else false

/-- The function `getLongFromBaseTenOrHexString`. -/
def getLongFromBaseTenOrHexString (str : List Char) : Int :=
  let r := strtol str 0
  if r.2 = 0 ∨ r.2 < str.length then -1 else r.1

/-- The scan of `getIndexOfFirstChar` from index `i` on. -/
def getIndexOfFirstCharLoop (ch : Char) : List Char → Int → Int
  | [], _ => -1
  | c :: str, i => if c = ch then i else getIndexOfFirstCharLoop ch str (i + 1)

/-- The function `getIndexOfFirstChar`, for a character other than the terminator. -/
def getIndexOfFirstChar (str : List Char) (ch : Char) : Int := getIndexOfFirstCharLoop ch str 0

/-- The function `removeWhiteSpacesFromString`. -/
def removeWhiteSpacesFromString (str : List Char) : List Char :=
  str.filter fun c => c ≠ ' ' ∧ c.toNat ≠ 10

def valid_registers : List String :=
  ["r0", "r1", "r2", "r3", "r4", "r5", "r6", "r7", "r8", "r9", "r10", "r11", "r12", "r13",
   "r14", "r15", "mdr", "mar"]

def valid_instructions : List String :=
  ["load", "store", "mem", "lea", "add", "and", "addi", "sub", "subi", "div", "divi", "mul",
   "muli", "mod", "modi", "and", "andi", "or", "ori", "xor", "xori", "nor", "nori", "slt",
   "slti", "sll", "slli", "srl", "srli", "sra", "srai", "sltu", "jmp", "je", "jne", "js", "jns",
   "jg", "jge", "jl", "jle", "ret", "call", "push", "pop", "not", "movi", "mov"]

/-- The function `isValidRegister`. -/
def isValidRegister (reg : List Char) : Bool := IsStringInStringArray (String.mk reg) valid_registers

/-- The expression `(int) strtol (&reg[1], NULL, 10)` that reads the number of a register. -/
def registerNumber (reg : List Char) : Int := longToInt (strtol (reg.drop 1) 10).1

/-- The function `getRegisterSumAddress`: the returned `long` and the struct afterwards.
`none` is the `exit` for an invalid register name, or a name that does not fit `reg[5]`. -/
def getRegisterSumAddress (s : State) (arg : List Char) (S : Int)
    (instr_attr : instruction_attr) : Option (Int × instruction_attr) :=
  let reg := arg.takeWhile fun c => c ≠ '+'
  if reg.length ≥ 5 then none
  else if !isValidRegister reg then none
  else
    let reg_b := registerNumber reg
    match readLoc s (.gpr reg_b) with
    | none => none
    | some R_B =>
      match arg.drop reg.length with
      | [] =>
        some ((R_B : Int) * S, { instr_attr with index_register := reg_b, base_register := 0 })
      | _ :: reg =>
        if reg.length ≥ 5 then none
        else if !isValidRegister reg then none
        else
          let reg_i := registerNumber reg
          match readLoc s (.gpr reg_i) with
          | none => none
          | some R_I =>
            some ((R_I : Int) * S + R_B,
              { instr_attr with base_register := reg_b, index_register := reg_i })

/-- The function `getAddressFromGenericAddressingMode`: the returned `long` and the struct
afterwards.  The test `arg == 0` of the source compares the pointer and never holds.  `none`
is an `exit`, a text that does not fit `temp[100]`, or the step `++arg` over the terminator
when there is no `(`. -/
def getAddressFromGenericAddressingMode (s : State) (arg : List Char)
    (instr_attr : instruction_attr) : Option (Int × instruction_attr) :=
  let temp := arg.takeWhile fun c => c ≠ '('
  if temp.length ≥ 100 then none
  else
    let D : Int := if temp ≠ [] then getLongFromBaseTenOrHexString temp else 0
    if temp ≠ [] ∧ D = -1 then none
    else if D > 255 then none
    else
      match arg.drop temp.length with
      | [] => none
      | _ :: arg =>
        let temp := arg.takeWhile fun c => c ≠ ')'
        if temp.length ≥ 100 then none
        else
          match arg.drop temp.length with
          | [] => none
          | _ :: arg =>
            let S : Int := if arg ≠ [] then getLongFromBaseTenOrHexString arg else 1
            if S ≠ 1 ∧ S ≠ 2 ∧ S ≠ 4 ∧ S ≠ 8 then none
            else
              match getRegisterSumAddress s temp S instr_attr with
              | none => none
              | some (R_SUM, instr_attr) =>
                let D := toChar (toU32 D)
                some (R_SUM + D, { instr_attr with offset := D, scale := S })

/-- The function `getValidMemoryAddress`; the `long` is returned as an `int`. -/
def getValidMemoryAddress (s : State) (arg : List Char) (instr_attr : instruction_attr) :
    Option (Int × instruction_attr) :=
  if getIndexOfFirstChar arg '(' ≠ -1 then
    (getAddressFromGenericAddressingMode s arg instr_attr).map fun r => (longToInt r.1, r.2)
  else none

/-- The function `getConstant`: `none` is its `exit`; the `long` is returned as a
`SIZE_TYPE`. -/
def getConstant (arg : String) : Option Nat :=
  if !isStartsWith arg.data ['$'] then none
  else some (toU32 (getLongFromBaseTenOrHexString (arg.data.drop 1)))

/-! ## Validation and encoding of one instruction (`cpu_main.c`)

Every function declares its `struct instruction_attr instr_attr` without an initialiser; the
parameter `junk` is what the struct holds at that point. -/

/-- The function `validateMemoryTypeInstruction`. -/
def validateMemoryTypeInstruction (s : State) (command arg1 arg2 : String)
    (junk : instruction_attr) : Option State :=
  if !isValidRegister arg1.data then none
  else
    match getValidMemoryAddress s arg2.data junk with
    | none => none
    | some (memory_address, instr_attr) =>
      if toU32 memory_address = 4294967295 then none
      else
        let reg := registerNumber arg1.data
        let instr_attr :=
          { instr_attr with format := .LOAD_STORE, operand_register := reg,
                            instruction := command }
        saveInstructionToMemory s (encodeInstructionToBinary instr_attr)

/-- The `for` loop of `validateRTypeInstruction` from argument `i` on; the locals are
`reg_index`, `mem_index`, `reg_count`, the two entries of `reg_array` and the struct. -/
def validateRTypeLoop (s : State) :
    List String → Int → Int × Int × Int × (Int × Int) × instruction_attr →
    Option (Int × Int × Int × (Int × Int) × instruction_attr)
  | [], _, locals => some locals
  | arg :: args, i, (reg_index, mem_index, reg_count, reg_array, instr_attr) =>
    if isValidRegister arg.data then
      let reg := registerNumber arg.data
      if i = 0 then
        validateRTypeLoop s args (i + 1) (i, mem_index, reg_count + 1, (reg, reg_array.2), instr_attr)
      else if i = 1 then
        validateRTypeLoop s args (i + 1) (i, mem_index, reg_count + 1, (reg_array.1, reg), instr_attr)
      else none
    else
      match getValidMemoryAddress s arg.data instr_attr with
      | none => none
      | some (_, instr_attr) =>
        validateRTypeLoop s args (i + 1) (reg_index, i, reg_count, reg_array, instr_attr)

/-- The function `validateRTypeInstruction`; `junkRegs` is what `reg_array` holds before the
loop, and `none` includes the write to `reg_array[2]`. -/
def validateRTypeInstruction (s : State) (command : String) (args : List String)
    (junk : instruction_attr) (junkRegs : Int × Int) : Option State :=
  match validateRTypeLoop s args 0 (0, 0, 0, junkRegs, junk) with
  | none => none
  | some (reg_index, mem_index, reg_count, reg_array, instr_attr) =>
    let instr_attr := { instr_attr with instruction := command }
    let instr_attr :=
      if reg_count = 2 then
        { instr_attr with format := .REG_REG, operand_register := reg_array.1,
                          base_register := reg_array.2 }
      else if reg_index < mem_index then
        { instr_attr with format := .REG_MEM, operand_register := reg_array.1 }
      else
        { instr_attr with format := .MEM_REG, operand_register := reg_array.2 }
    saveInstructionToMemory s (encodeInstructionToBinary instr_attr)

/-- The function `validateStackInstruction`. -/
def validateStackInstruction (s : State) (command arg1 : String) (junk : instruction_attr) :
    Option State :=
  if isValidRegister arg1.data then
    let reg_index := registerNumber arg1.data
    let instr_attr :=
      { junk with instruction := command, format := .STACK_REG, operand_register := reg_index }
    saveInstructionToMemory s (encodeInstructionToBinary instr_attr)
  else none

/-- The function `validateITypeInstruction`. -/
def validateITypeInstruction (s : State) (command arg1 arg2 : String)
    (junk : instruction_attr) : Option State :=
  match getConstant arg1 with
  | none => none
  | some constant =>
    if isValidRegister arg2.data then
      let reg_index := registerNumber arg2.data
      let instr_attr :=
        { junk with instruction := command, const_or_label := toS32 constant,
                    format := .IMM_REG, operand_register := reg_index }
      saveInstructionToMemory s (encodeInstructionToBinary instr_attr)
    else
      match getValidMemoryAddress s arg2.data junk with
      | none => none
      | some (_, instr_attr) =>
        let instr_attr :=
          { instr_attr with instruction := command, const_or_label := toS32 constant,
                            format := .IMM_MEM }
        saveInstructionToMemory s (encodeInstructionToBinary instr_attr)

/-- The function `validateMemoryDisplayInstruction`; the format it stores is `IMM_REG`. -/
def validateMemoryDisplayInstruction (s : State) (command arg1 arg2 : String)
    (junk : instruction_attr) : Option State :=
  match getConstant arg1 with
  | none => none
  | some constant =>
    if isValidRegister arg2.data then
      let reg_index := registerNumber arg2.data
      let instr_attr :=
        { junk with instruction := command, const_or_label := toS32 constant,
                    format := .IMM_REG, operand_register := reg_index }
      saveInstructionToMemory s (encodeInstructionToBinary instr_attr)
    else none

/-- The function `validateMovTypeInstruction`. -/
def validateMovTypeInstruction (s : State) (command arg1 arg2 : String)
    (junk : instruction_attr) : Option State :=
  if isStartsWith arg1.data ['$'] then
    match getConstant arg1 with
    | none => none
    | some constant =>
      if isValidRegister arg2.data then
        let dest_reg_index := registerNumber arg2.data
        let instr_attr :=
          { junk with instruction := command, operand_register := dest_reg_index,
                      const_or_label := toS32 constant, format := .MOV_IMM_REG }
        saveInstructionToMemory s (encodeInstructionToBinary instr_attr)
      else none
  else
    if isValidRegister arg2.data then
      let src_reg_index := registerNumber arg1.data
      let dest_reg_index := registerNumber arg2.data
      let instr_attr :=
        { junk with instruction := command, operand_register := dest_reg_index,
                    base_register := src_reg_index, format := .MOV_REG_REG }
      saveInstructionToMemory s (encodeInstructionToBinary instr_attr)
    else none

/-- The function `validateNoOperandInstruction`. -/
def validateNoOperandInstruction (s : State) (command : String) (junk : instruction_attr) :
    Option State :=
  saveInstructionToMemory s
    (encodeInstructionToBinary { junk with instruction := command, format := .NO_OPERAND })

/-- The function `validateEncodeAndSaveInstruction`; `args` are the first `arg_count`
entries of the array. -/
def validateEncodeAndSaveInstruction (LABELS : List label_pos) (s : State) (instr_number : Int)
    (command : String) (args : List String) (junk : instruction_attr) (junkRegs : Int × Int) :
    Option State :=
  let args := args.map fun a => String.mk (removeWhiteSpacesFromString a.data)
  let arg_count := args.length
  if IsStringInStringArray command MEM_INSTR then
    match args with
    | [arg0, arg1] => validateMemoryTypeInstruction s command arg0 arg1 junk
    | _ => none
  else if IsStringInStringArray command R_INSTR then
    if arg_count < 1 ∨ arg_count > 3 then none
    else validateRTypeInstruction s command args junk junkRegs
  else if IsStringInStringArray command I_INSTR then
    match args with
    | [arg0, arg1] => validateITypeInstruction s command arg0 arg1 junk
    | _ => none
  else if IsStringInStringArray command STACK_INSTR then
    match args with
    | [arg0] => validateStackInstruction s command arg0 junk
    | _ => none
  else if IsStringInStringArray command MEM_DISPLAY_INSTR then
    match args with
    | [arg0, arg1] => validateMemoryDisplayInstruction s command arg0 arg1 junk
    | _ => none
  else if IsStringInStringArray command CONTROL_INSTR then
    match args with
    | [arg0] => validateControlTransferInstruction LABELS s instr_number command arg0 junk
    | _ => none
  else if IsStringInStringArray command MOV_INSTR then
    match args with
    | [arg0, arg1] => validateMovTypeInstruction s command arg0 arg1 junk
    | _ => none
  else if IsStringInStringArray command NO_OPERAND_INSTR then
    match args with
    | [] => validateNoOperandInstruction s command junk
    | _ => none
  else some s

/-! ## The program text and `main` (`cpu_main.c`)

The input file is the list of its lines as `getline` returns them, each with its newline. -/

/-- The function `initializeRegistersAndMemory`. -/
def initializeRegistersAndMemory (s : State) : Option State := do
  let s := { s with PC := INSTRUCTION_MEMORY_MIN, INSTR_MEMORY_PTR := INSTRUCTION_MEMORY_MIN }
  let s := { s with GPRS := Function.update s.GPRS 14 (STACK_MEMORY_START - 1) }
  let s := { s with GPRS := Function.update s.GPRS 15 (STACK_MEMORY_START - 1) }
  let s := { s with GPRS := Function.update s.GPRS 0 0x0 }
  let s := { s with GPRS := Function.update s.GPRS 1 0x4567 }
  let s := { s with GPRS := Function.update s.GPRS 2 0x66 }
  let s := { s with GPRS := Function.update s.GPRS 3 0x8234 }
  let s := { s with GPRS := Function.update s.GPRS 5 9400 }
  let s := { s with GPRS := Function.update s.GPRS 6 0x2 }
  let s := { s with GPRS := Function.update s.GPRS 7 0x3 }
  let s ← writeIntoMemory s 4096 NUM_BYTES_IN_WORD (wordBytes (s.GPRS 1))
  let s ← writeIntoMemory s 4100 NUM_BYTES_IN_WORD (wordBytes (s.GPRS 2))
  loadRegister s (.gpr 4) 4100

/-- The tokens of `strtok (input, ",")`: the maximal runs without a comma. -/
def strtokLoop : List Char → List Char → List (List Char)
  | [], cur => if cur = [] then [] else [cur.reverse]
  | c :: cs, cur =>
    if c = ',' then (if cur = [] then strtokLoop cs [] else cur.reverse :: strtokLoop cs [])
    else strtokLoop cs (c :: cur)

/-- The first `while` loop of `main`: the positions of the labels. -/
def firstPass : List String → Int → List label_pos → Option (List label_pos)
  | [], _, LABELS => some LABELS
  | input :: rest, instruction_position, LABELS =>
    if input.data.length < 3 then firstPass rest instruction_position LABELS
    else
      let colon_index := getIndexOfFirstChar input.data ':'
      let space_index := getIndexOfFirstChar input.data ' '
      if colon_index ≠ -1 then
        if space_index ≠ -1 ∧ space_index < colon_index then
          firstPass rest instruction_position LABELS
        else
          let label := String.mk (input.data.take colon_index.toNat)
          match storeLabelInformation LABELS label instruction_position with
          | none => none
          | some (r, LABELS) =>
            if r = -1 then none else firstPass rest (instruction_position + 1) LABELS
      else firstPass rest (instruction_position + 1) LABELS

/-- The body of the second `while` loop of `main` up to the call that validates: the label
is dropped, then the line is split into the command (a `char[10]`) and the comma-separated
arguments (at most 10).  `none` is the `exit` for an unknown command, or a text that does not
fit one of the two arrays. -/
def splitLine (line : List Char) : Option (String × List String) :=
  let colon_index := getIndexOfFirstChar line ':'
  let input := line.drop (colon_index + 1).toNat
  let input := input.dropWhile isspace
  let index_of_first_space := getIndexOfFirstChar input ' '
  let command :=
    if index_of_first_space = -1 then input.take (input.length - 1)
    else input.take index_of_first_space.toNat
  if command.length ≥ 10 ∨ input = [] then none
  else if !IsStringInStringArray (String.mk command) valid_instructions then none
  else
    let input := input.drop (index_of_first_space + 1).toNat
    let args := strtokLoop input []
    if args.length > 10 then none
    else
      let args := if index_of_first_space = -1 then [] else args
      some (String.mk command, args.map String.mk)

/-- The second `while` loop of `main`: every line of three characters or more is split,
validated, encoded and saved; `instr_count` is the counter after the line. -/
def secondPass (LABELS : List label_pos) (junk : Int → instruction_attr)
    (junkRegs : Int → Int × Int) : List String → Int → State → Option State
  | [], _, s => some s
  | line :: rest, instr_count, s =>
    if line.data.length < 3 then secondPass LABELS junk junkRegs rest instr_count s
    else
      let instr_count := instr_count + 1
      match splitLine line.data with
      | none => none
      | some (command, args) =>
        match validateEncodeAndSaveInstruction LABELS s (instr_count - 2) command args
            (junk (instr_count - 2)) (junkRegs (instr_count - 2)) with
        | none => none
        | some s => secondPass LABELS junk junkRegs rest instr_count s

/-- The part of `main` after `initializeRegistersAndMemory`: the two passes assemble the
program and `decodeAndExecuteInstructions` runs it. -/
def assembleAndRun (junk : Int → instruction_attr) (junkRegs : Int → Int × Int)
    (junkRun : Nat → instruction_attr) (lines : List String) (fuel : Nat) (s : State) :
    Option State := do
  let LABELS ← firstPass lines 0 []
  let s ← secondPass LABELS junk junkRegs lines 1 s
  decodeAndExecuteInstructions junkRun fuel s

/-- The function `main` on the lines of the input file: the globals start as zero, the
registers and the memory are seeded, and the program is assembled and run. -/
def main (junk : Int → instruction_attr) (junkRegs : Int → Int × Int)
    (junkRun : Nat → instruction_attr) (lines : List String) (fuel : Nat) : Option State := do
  let s ← initializeRegistersAndMemory zeroState
  assembleAndRun junk junkRegs junkRun lines fuel s

/-! ## Vocabulary of the codec statements -/

/-- A register number that fits the four-bit register fields. -/
def isRegister (r : Int) : Prop := 0 ≤ r ∧ r ≤ 15

instance (r : Int) : Decidable (isRegister r) := by unfold isRegister; infer_instance

/-- The legal attrs of the formats that carry no memory operand: the mnemonic belongs to the
category of the format and has an opcode, and every field the format uses is in range. -/
def legalNoMemoryAttr (a : instruction_attr) : Prop :=
  match a.format with
  | .REG_REG =>
    a.instruction ∈ R_INSTR ∧ getOpcodeFromInstruction a.instruction ≠ -1 ∧
      isRegister a.operand_register ∧ isRegister a.base_register
  | .IMM_REG =>
    a.instruction ∈ I_INSTR ∧ isRegister a.operand_register ∧
      -128 ≤ a.const_or_label ∧ a.const_or_label ≤ 127
  | .MEM_DISPLAY =>
    a.instruction ∈ MEM_DISPLAY_INSTR ∧ isRegister a.operand_register ∧
      -128 ≤ a.const_or_label ∧ a.const_or_label ≤ 127
  | .STACK_REG => a.instruction ∈ STACK_INSTR ∧ isRegister a.operand_register
  | .CONTROL_LABEL =>
    a.instruction ∈ CONTROL_INSTR ∧ -32768 ≤ a.const_or_label ∧ a.const_or_label ≤ 32767
  | .MOV_REG_REG =>
    a.instruction = "mov" ∧ isRegister a.operand_register ∧ isRegister a.base_register
  | .MOV_IMM_REG =>
    a.instruction = "movi" ∧ isRegister a.operand_register ∧
      -32768 ≤ a.const_or_label ∧ a.const_or_label ≤ 32767
  | .NO_OPERAND => a.instruction ∈ NO_OPERAND_INSTR
  | .LOAD_STORE | .REG_MEM | .MEM_REG | .IMM_MEM => False

/-- The fields that the format of `a` populates have the same value in `d`. -/
def populatedFieldsAgree (a d : instruction_attr) : Prop :=
  match a.format with
  | .REG_REG | .MOV_REG_REG =>
    d.operand_register = a.operand_register ∧ d.base_register = a.base_register
  | .IMM_REG | .MEM_DISPLAY | .MOV_IMM_REG =>
    d.operand_register = a.operand_register ∧ d.const_or_label = a.const_or_label
  | .STACK_REG => d.operand_register = a.operand_register
  | .CONTROL_LABEL => d.const_or_label = a.const_or_label
  | .NO_OPERAND => True
  | .LOAD_STORE | .REG_MEM | .MEM_REG =>
    d.operand_register = a.operand_register ∧ d.base_register = a.base_register ∧
      d.index_register = a.index_register ∧ d.scale = a.scale ∧ d.offset = a.offset
  | .IMM_MEM =>
    d.base_register = a.base_register ∧ d.index_register = a.index_register ∧
      d.scale = a.scale ∧ d.offset = a.offset ∧ d.const_or_label = a.const_or_label

/-! ## Vocabulary of the execution statements -/

/-- The effective address of a memory operand,
`(GPR[base] + GPR[index] * scale + offset) mod 2^32`. -/
def effectiveAddress (s : State) (a : instruction_attr) : Nat :=
  (((s.GPRS a.base_register.toNat : Int) + (s.GPRS a.index_register.toNat : Int) * a.scale
    + a.offset) % 4294967296).toNat

/-- The nine jump mnemonics (the control instructions other than `call`). -/
def jumpMnemonics : List String := ["jmp", "je", "jne", "js", "jns", "jg", "jge", "jl", "jle"]

/-- The condition under which a jump is taken, as a function of `FLAGS`: ZF is bit 2, OF bit 6
and SF bit 7. -/
def jumpTaken (m : String) (F : Nat) : Bool :=
  let ZF := F.testBit 2
  let OF := F.testBit 6
  let SF := F.testBit 7
  if m = "jmp" then true
  else if m = "je" then ZF
  else if m = "jne" then !ZF
  else if m = "js" then SF
  else if m = "jns" then !SF
  else if m = "jg" then !ZF && !(SF ^^ OF)
  else if m = "jge" then !(SF ^^ OF)
  else if m = "jl" then SF ^^ OF
  else if m = "jle" then (SF ^^ OF) || ZF
  else false

/-- The mnemonics that are not arithmetic or logic instructions. -/
def nonArithmeticMnemonics : List String :=
  ["load", "store", "lea", "mov", "movi", "push", "pop", "jmp", "je", "jne", "js", "jns", "jg",
   "jge", "jl", "jle", "call", "ret"]

/-- A state for examples: every register and byte is zero except the listed registers. -/
def exampleState (regs : List (Nat × Nat)) : State :=
  { zeroState with GPRS := fun i => (regs.lookup i).getD 0 }

/-- The attr of `push r` or `pop r`. -/
def stackInstr (m : String) (r : Int) : instruction_attr :=
  { format := .STACK_REG, instruction := m, base_register := 0, index_register := 0,
    offset := 0, scale := 1, operand_register := r, const_or_label := 0 }

/-- The attr of a control instruction with relative offset `k`. -/
def controlInstr (m : String) (k : Int) : instruction_attr :=
  { format := .CONTROL_LABEL, instruction := m, base_register := 0, index_register := 0,
    offset := 0, scale := 1, operand_register := 0, const_or_label := k }

/-- The attr of `ret`. -/
def retInstr : instruction_attr :=
  { format := .NO_OPERAND, instruction := "ret", base_register := 0, index_register := 0,
    offset := 0, scale := 1, operand_register := 0, const_or_label := 0 }

/-- The attr of a load, store or lea `m r, D(Rb+Ri)S`. -/
def memoryInstr (m : String) (r b i : Int) (S D : Int) : instruction_attr :=
  { format := .LOAD_STORE, instruction := m, base_register := b, index_register := i,
    offset := D, scale := S, operand_register := r, const_or_label := 0 }

/-- The first `n` passes of the loop of `decodeAndExecuteInstructions`: the pass counter, the
word fetched last and the state when the loop test is reached for the time `n + 1`; `none`
when the loop ends earlier (a zero word) or a pass does not return. -/
def decodeAndExecutePasses (junk : Nat → instruction_attr) :
    Nat → Nat → Nat → State → Option (Nat × Nat × State)
  | 0, instr_count, binary_opcode, s => some (instr_count, binary_opcode, s)
  | n + 1, instr_count, binary_opcode, s =>
    if binary_opcode ≠ 0 then
      match executeFetched s binary_opcode (junk instr_count) with
      | none => none
      | some s =>
        match fetchInstruction s with
        | none => none
        | some (binary_opcode, s) =>
          decodeAndExecutePasses junk n (instr_count + 1) binary_opcode s
    else none

/-- The state in which `decodeAndExecuteInstructions` starts: the state `s` after the two
passes of `main` over the program. -/
def assembled (junk : Int → instruction_attr) (junkRegs : Int → Int × Int)
    (lines : List String) (s : State) : Option State :=
  match firstPass lines 0 [] with
  | none => none
  | some LABELS => secondPass LABELS junk junkRegs lines 1 s

/-- The seeded initial state. -/
def seededState : Option State := initializeRegistersAndMemory zeroState

/-- The mnemonic belongs to one of the eight categories of the decoder. -/
def inSomeCategory (command : String) : Bool :=
  IsStringInStringArray command MEM_INSTR || IsStringInStringArray command R_INSTR ||
  IsStringInStringArray command I_INSTR || IsStringInStringArray command CONTROL_INSTR ||
  IsStringInStringArray command STACK_INSTR || IsStringInStringArray command NO_OPERAND_INSTR ||
  IsStringInStringArray command MEM_DISPLAY_INSTR || IsStringInStringArray command MOV_INSTR

/-- A word whose execution reads a field that the decoder leaves unwritten: a `movi` that
decodes in the register format, or a mnemonic of no category (the format is then unwritten). -/
def junkSensitive (w : Nat) : Bool :=
  match decodeInstructionFromBinary w retInstr with
  | none => false
  | some d =>
    (d.format == .MOV_REG_REG && d.instruction == "movi") || !inSomeCategory d.instruction

/-- None of the first `n` passes of the loop, from the fetched word `w` in state `s`, executes
a word that reads an unwritten field. -/
def junkFreePasses : Nat → Nat → State → Bool
  | 0, _, _ => true
  | n + 1, w, s =>
    if w ≠ 0 then
      !junkSensitive w &&
        (match executeFetched s w retInstr with
         | none => true
         | some s =>
           match fetchInstruction s with
           | none => true
           | some (w, s) => junkFreePasses n w s)
    else true

/-- No line of the program is an arithmetic instruction in register or memory format, the
only lines whose validation can read an unwritten local. -/
def junkFreeLines (lines : List String) : Bool :=
  lines.all fun line =>
    match splitLine line.data with
    | none => true
    | some (command, _) => !IsStringInStringArray command R_INSTR

/-- The registers and the fields of the state that the scenarios look at: the sixteen
general-purpose registers, then PC, FLAGS, MAR and MDR. -/
def observe (s : State) : List Nat × Nat × Nat × Nat × Nat :=
  ((List.range 16).map s.GPRS, s.PC, s.FLAGS, s.MAR, s.MDR)

/-- The program of scenario S4. -/
def programS4 : List String :=
  ["movi $0, r10\n", "L: addi $1, r10\n", "slti $5, r10\n", "jl L\n"]

/-- The program of scenario S5. -/
def programS5 : List String :=
  ["call F\n", "jmp END\n", "F: addi $7, r0\n", "ret\n", "END: ret\n"]

/-- The program of scenario S6. -/
def programS6 : List String :=
  ["movi $0xDEADBEEF, r1\n", "store r1, 0(r0+r0)1\n", "load r2, 0(r0+r0)1\n"]

/-- Contents for the unwritten locals, used to run the code on examples. -/
def exampleJunk : Int → instruction_attr := fun _ => retInstr

/-- Contents for the unwritten array `reg_array`, used to run the code on examples. -/
def exampleJunkRegs : Int → Int × Int := fun _ => (0, 0)

/-- Contents for the unwritten struct of the loop, used to run the code on examples. -/
def exampleJunkRun : Nat → instruction_attr := fun _ => retInstr

/-- The lines of the program, its assembly from state `s` and the first `fuel` passes of its
run read no unwritten local or field. -/
def junkFreeProgram (lines : List String) (fuel : Nat) (s : State) : Bool :=
  junkFreeLines lines &&
    (match assembled exampleJunk exampleJunkRegs lines s with
     | none => true
     | some s =>
       match fetchInstruction s with
       | none => true
       | some (w, s) => junkFreePasses fuel w s)

/-- The seeded initial state with one register changed afterwards. -/
def seededWith (r v : Nat) : Option State :=
  seededState.map fun s => { s with GPRS := Function.update s.GPRS r v }

/-- The displacement `D` of a memory operand `D(Rb+Ri)S` as
`getAddressFromGenericAddressingMode` reads it: the number in front of the `(`, and 0 when
nothing stands there. -/
def displacementOf (arg : List Char) : Int :=
  let temp := arg.takeWhile fun c => c ≠ '('
  if temp ≠ [] then getLongFromBaseTenOrHexString temp else 0

/-- None of the first `n` passes of the loop, from pass counter `instr_count`, fetched word
`w` and state `s`, executes a word that the decoder reads as a `ret`. -/
def retFreePasses (junk : Nat → instruction_attr) : Nat → Nat → Nat → State → Bool
  | 0, _, _, _ => true
  | n + 1, instr_count, w, s =>
    if w ≠ 0 then
      (match decodeInstructionFromBinary w (junk instr_count) with
       | none => true
       | some d => d.instruction != "ret") &&
        (match executeFetched s w (junk instr_count) with
         | none => true
         | some s =>
           match fetchInstruction s with
           | none => true
           | some (w, s) => retFreePasses junk n (instr_count + 1) w s)
    else true

/-- A program that returns to the seeded value of `R1`. -/
def programPushRet : List String := ["push r1\n", "ret\n"]

/-- The attr of the register form `m rs, rd`: `validateRTypeInstruction` puts the first
register in `operand_register` and the second, the destination, in `base_register`. -/
def registerForm (m : String) (rs rd : Int) : instruction_attr :=
  { format := .REG_REG, instruction := m, base_register := rd, index_register := 0,
    offset := 0, scale := 1, operand_register := rs, const_or_label := 0 }

/-- The attr of the immediate form `m $c, r`. -/
def immediateForm (m : String) (c r : Int) : instruction_attr :=
  { format := .IMM_REG, instruction := m, base_register := 0, index_register := 0,
    offset := 0, scale := 1, operand_register := r, const_or_label := c }

/-- The arithmetic right shift of a 32-bit `v` by `n`: the logical shift with the top `n` bits
filled with copies of bit 31 of `v`. -/
def arithmeticShiftRight (n v : Nat) : Nat :=
  (v >>> n) ||| (if v.testBit 31 then 4294967295 - (4294967295 >>> n) else 0)

/-- The pairs of an immediate mnemonic and its register counterpart. -/
def immediatePairs : List (String × String) :=
  [("addi", "add"), ("subi", "sub"), ("muli", "mul"), ("divi", "div"), ("modi", "mod"),
   ("andi", "and"), ("ori", "or"), ("xori", "xor"), ("nori", "nor"), ("slti", "slt"),
   ("slli", "sll"), ("srli", "srl"), ("srai", "sra")]

/-! ## Arithmetic of the bit fields -/

theorem or_eq_add_of_low (k a b : Nat) (ha : a % 2 ^ k = 0) (hb : b < 2 ^ k) :
    a ||| b = a + b := by
  have h := Nat.mul_add_lt_is_or hb (a / 2 ^ k)
  have h2 : 2 ^ k * (a / 2 ^ k) = a := by
    have := Nat.div_add_mod a (2 ^ k)
    omega
  rw [h2] at h
  exact h.symm

theorem and_1 (x : Nat) : x &&& 1 = x % 2 := Nat.and_pow_two_sub_one_eq_mod x 1
theorem and_3 (x : Nat) : x &&& 3 = x % 4 := Nat.and_pow_two_sub_one_eq_mod x 2
theorem and_15 (x : Nat) : x &&& 15 = x % 16 := Nat.and_pow_two_sub_one_eq_mod x 4
theorem and_63 (x : Nat) : x &&& 63 = x % 64 := Nat.and_pow_two_sub_one_eq_mod x 6
theorem and_255 (x : Nat) : x &&& 255 = x % 256 := Nat.and_pow_two_sub_one_eq_mod x 8
theorem and_65535 (x : Nat) : x &&& 65535 = x % 65536 := Nat.and_pow_two_sub_one_eq_mod x 16

theorem toU32_natCast (n : Nat) (h : n < 4294967296) : toU32 (n : Int) = n := by
  unfold toU32; omega

theorem toChar_eq_of_mod (n : Nat) (c : Int) (h1 : -128 ≤ c) (h2 : c ≤ 127)
    (h : n % 256 = toU32 c % 256) : toChar n = c := by
  unfold toU32 at h
  unfold toChar
  split_ifs <;> omega

theorem toShort_eq_of_mod (n : Nat) (c : Int) (h1 : -32768 ≤ c) (h2 : c ≤ 32767)
    (h : n % 65536 = toU32 c % 65536) : toShort n = c := by
  unfold toU32 at h
  unfold toShort
  split_ifs <;> omega

/-- The word `opcode | op_reg | base_reg | t` as a sum, for a tail `t` below bit 18. -/
theorem word_op_reg_base (o r b t : Nat) (ho : o < 64) (hr : r < 16) (hb : b < 16)
    (ht : t < 262144) :
    shl32 o 26 ||| shl32 r 22 ||| shl32 b 18 ||| t
      = o * 67108864 + r * 4194304 + b * 262144 + t := by
  unfold shl32
  have e1 : (o <<< 26) % 4294967296 = o * 67108864 := by omega
  have e2 : (r <<< 22) % 4294967296 = r * 4194304 := by omega
  have e3 : (b <<< 18) % 4294967296 = b * 262144 := by omega
  have h1 : o * 67108864 ||| r * 4194304 = o * 67108864 + r * 4194304 :=
    or_eq_add_of_low 26 _ _ (by omega) (by omega)
  have h2 : o * 67108864 + r * 4194304 ||| b * 262144
      = o * 67108864 + r * 4194304 + b * 262144 :=
    or_eq_add_of_low 22 _ _ (by omega) (by omega)
  rw [e1, e2, e3, h1, h2]
  exact or_eq_add_of_low 18 _ _ (by omega) (by omega)

/-- The word `opcode | op_reg | t` as a sum, for a tail `t` below bit 22. -/
theorem word_op_reg (o r t : Nat) (ho : o < 64) (hr : r < 16) (ht : t < 4194304) :
    shl32 o 26 ||| shl32 r 22 ||| t = o * 67108864 + r * 4194304 + t := by
  unfold shl32
  have e1 : (o <<< 26) % 4294967296 = o * 67108864 := by omega
  have e2 : (r <<< 22) % 4294967296 = r * 4194304 := by omega
  have h1 : o * 67108864 ||| r * 4194304 = o * 67108864 + r * 4194304 :=
    or_eq_add_of_low 26 _ _ (by omega) (by omega)
  rw [e1, e2, h1]
  exact or_eq_add_of_low 22 _ _ (by omega) (by omega)

/-- The word `opcode | t` as a sum, for a tail `t` below bit 26. -/
theorem word_op (o t : Nat) (ho : o < 64) (ht : t < 67108864) :
    shl32 o 26 ||| t = o * 67108864 + t := by
  unfold shl32
  have e1 : (o <<< 26) % 4294967296 = o * 67108864 := by omega
  rw [e1]
  exact or_eq_add_of_low 26 _ _ (by omega) (by omega)

/-! ## What the decoder needs to know about each category -/

theorem R_INSTR_table : ∀ m ∈ R_INSTR, getOpcodeFromInstruction m ≠ -1 →
    0 ≤ getOpcodeFromInstruction m ∧ getOpcodeFromInstruction m < 64 ∧
    getInstructionFromOpcode (getOpcodeFromInstruction m) = some m ∧
    IsStringInStringArray m MEM_INSTR = false ∧ IsStringInStringArray m R_INSTR = true := by
  decide

theorem I_INSTR_table : ∀ m ∈ I_INSTR,
    0 ≤ getOpcodeFromInstruction m ∧ getOpcodeFromInstruction m < 64 ∧
    getInstructionFromOpcode (getOpcodeFromInstruction m) = some m ∧
    IsStringInStringArray m MEM_INSTR = false ∧ IsStringInStringArray m R_INSTR = false ∧
    IsStringInStringArray m I_INSTR = true := by
  decide

theorem CONTROL_INSTR_table : ∀ m ∈ CONTROL_INSTR,
    0 ≤ getOpcodeFromInstruction m ∧ getOpcodeFromInstruction m < 64 ∧
    getInstructionFromOpcode (getOpcodeFromInstruction m) = some m ∧
    IsStringInStringArray m MEM_INSTR = false ∧ IsStringInStringArray m R_INSTR = false ∧
    IsStringInStringArray m I_INSTR = false ∧ IsStringInStringArray m CONTROL_INSTR = true := by
  decide

theorem STACK_INSTR_table : ∀ m ∈ STACK_INSTR,
    0 ≤ getOpcodeFromInstruction m ∧ getOpcodeFromInstruction m < 64 ∧
    getInstructionFromOpcode (getOpcodeFromInstruction m) = some m ∧
    IsStringInStringArray m MEM_INSTR = false ∧ IsStringInStringArray m R_INSTR = false ∧
    IsStringInStringArray m I_INSTR = false ∧ IsStringInStringArray m CONTROL_INSTR = false ∧
    IsStringInStringArray m STACK_INSTR = true := by
  decide

theorem NO_OPERAND_INSTR_table : ∀ m ∈ NO_OPERAND_INSTR,
    0 ≤ getOpcodeFromInstruction m ∧ getOpcodeFromInstruction m < 64 ∧
    getInstructionFromOpcode (getOpcodeFromInstruction m) = some m ∧
    IsStringInStringArray m MEM_INSTR = false ∧ IsStringInStringArray m R_INSTR = false ∧
    IsStringInStringArray m I_INSTR = false ∧ IsStringInStringArray m CONTROL_INSTR = false ∧
    IsStringInStringArray m STACK_INSTR = false ∧
    IsStringInStringArray m NO_OPERAND_INSTR = true := by
  decide

theorem MEM_DISPLAY_INSTR_table : ∀ m ∈ MEM_DISPLAY_INSTR,
    0 ≤ getOpcodeFromInstruction m ∧ getOpcodeFromInstruction m < 64 ∧
    getInstructionFromOpcode (getOpcodeFromInstruction m) = some m ∧
    IsStringInStringArray m MEM_INSTR = false ∧ IsStringInStringArray m R_INSTR = false ∧
    IsStringInStringArray m I_INSTR = false ∧ IsStringInStringArray m CONTROL_INSTR = false ∧
    IsStringInStringArray m STACK_INSTR = false ∧
    IsStringInStringArray m NO_OPERAND_INSTR = false ∧
    IsStringInStringArray m MEM_DISPLAY_INSTR = true := by
  decide

theorem MOV_INSTR_table : ∀ m ∈ MOV_INSTR,
    0 ≤ getOpcodeFromInstruction m ∧ getOpcodeFromInstruction m < 64 ∧
    getInstructionFromOpcode (getOpcodeFromInstruction m) = some m ∧
    IsStringInStringArray m MEM_INSTR = false ∧ IsStringInStringArray m R_INSTR = false ∧
    IsStringInStringArray m I_INSTR = false ∧ IsStringInStringArray m CONTROL_INSTR = false ∧
    IsStringInStringArray m STACK_INSTR = false ∧
    IsStringInStringArray m NO_OPERAND_INSTR = false ∧
    IsStringInStringArray m MEM_DISPLAY_INSTR = false ∧
    IsStringInStringArray m MOV_INSTR = true := by
  decide

/-! ## Round trip, format by format -/

theorem roundtrip_REG_REG (a prev : instruction_attr) (hf : a.format = .REG_REG)
    (hm : a.instruction ∈ R_INSTR) (ho : getOpcodeFromInstruction a.instruction ≠ -1)
    (hr : isRegister a.operand_register) (hb : isRegister a.base_register) :
    ∃ d, decodeInstructionFromBinary (encodeInstructionToBinary a) prev = some d ∧
      d.instruction = a.instruction ∧ d.format = .REG_REG ∧
      d.operand_register = a.operand_register ∧ d.base_register = a.base_register := by
  obtain ⟨h0, h64, hget, hmem, hR⟩ := R_INSTR_table _ hm ho
  obtain ⟨o, hoe⟩ := Int.eq_ofNat_of_zero_le h0
  obtain ⟨r, hre⟩ := Int.eq_ofNat_of_zero_le hr.1
  obtain ⟨b, hbe⟩ := Int.eq_ofNat_of_zero_le hb.1
  have hr2 := hr.2
  have hb2 := hb.2
  rw [hoe] at h64 hget
  rw [hre] at hr2
  rw [hbe] at hb2
  have hw : encodeInstructionToBinary a = o * 67108864 + r * 4194304 + b * 262144 + 4 := by
    unfold encodeInstructionToBinary
    simp only [hf, hoe, hre, hbe]
    rw [toU32_natCast o (by omega), toU32_natCast r (by omega), toU32_natCast b (by omega)]
    have e : shl32 REG_REG_IND 2 = 4 := by decide
    rw [e]
    exact word_op_reg_base o r b 4 (by omega) (by omega) (by omega) (by omega)
  generalize encodeInstructionToBinary a = w at hw
  have h26 : (w >>> 26) &&& 0x3f = o := by rw [and_63]; omega
  have h22 : (w >>> 22) &&& 0x0f = r := by rw [and_15]; omega
  have h18 : (w >>> 18) &&& 0x0f = b := by rw [and_15]; omega
  have h2 : (w >>> 2) &&& 0x03 = 1 := by rw [and_3]; omega
  unfold decodeInstructionFromBinary
  simp [h26, h22, h18, h2, hget, hmem, hR, formatOfInt, hre, hbe]

theorem roundtrip_IMM_REG (a prev : instruction_attr) (hf : a.format = .IMM_REG)
    (hm : a.instruction ∈ I_INSTR) (hr : isRegister a.operand_register)
    (hc1 : -128 ≤ a.const_or_label) (hc2 : a.const_or_label ≤ 127) :
    ∃ d, decodeInstructionFromBinary (encodeInstructionToBinary a) prev = some d ∧
      d.instruction = a.instruction ∧ d.format = .IMM_REG ∧
      d.operand_register = a.operand_register ∧ d.const_or_label = a.const_or_label := by
  obtain ⟨h0, h64, hget, hmem, hR, hI⟩ := I_INSTR_table _ hm
  obtain ⟨o, hoe⟩ := Int.eq_ofNat_of_zero_le h0
  obtain ⟨r, hre⟩ := Int.eq_ofNat_of_zero_le hr.1
  have hr2 := hr.2
  rw [hoe] at h64 hget
  rw [hre] at hr2
  have hw : encodeInstructionToBinary a
      = o * 67108864 + r * 4194304 + toU32 a.const_or_label % 256 := by
    unfold encodeInstructionToBinary
    simp only [hf, hoe, hre]
    rw [toU32_natCast o (by omega), toU32_natCast r (by omega), and_255]
    exact word_op_reg o r _ (by omega) (by omega) (by omega)
  generalize encodeInstructionToBinary a = w at hw
  have h26 : (w >>> 26) &&& 0x3f = o := by rw [and_63]; omega
  have h22 : (w >>> 22) &&& 0x0f = r := by rw [and_15]; omega
  have h18 : (w >>> 18) &&& 0x0f = 0 := by rw [and_15]; omega
  have hc : toChar (w &&& 0xff) = a.const_or_label :=
    toChar_eq_of_mod _ _ hc1 hc2 (by rw [and_255]; omega)
  unfold decodeInstructionFromBinary
  simp [h26, h22, h18, hc, hget, hmem, hR, hI, hre]

theorem roundtrip_MEM_DISPLAY (a prev : instruction_attr) (hf : a.format = .MEM_DISPLAY)
    (hm : a.instruction ∈ MEM_DISPLAY_INSTR) (hr : isRegister a.operand_register)
    (hc1 : -128 ≤ a.const_or_label) (hc2 : a.const_or_label ≤ 127) :
    ∃ d, decodeInstructionFromBinary (encodeInstructionToBinary a) prev = some d ∧
      d.instruction = a.instruction ∧ d.format = .MEM_DISPLAY ∧
      d.operand_register = a.operand_register ∧ d.const_or_label = a.const_or_label := by
  obtain ⟨h0, h64, hget, hmem, hR, hI, hC, hS, hN, hD⟩ := MEM_DISPLAY_INSTR_table _ hm
  obtain ⟨o, hoe⟩ := Int.eq_ofNat_of_zero_le h0
  obtain ⟨r, hre⟩ := Int.eq_ofNat_of_zero_le hr.1
  have hr2 := hr.2
  rw [hoe] at h64 hget
  rw [hre] at hr2
  have hw : encodeInstructionToBinary a
      = o * 67108864 + r * 4194304 + toU32 a.const_or_label % 256 := by
    unfold encodeInstructionToBinary
    simp only [hf, hoe, hre]
    rw [toU32_natCast o (by omega), toU32_natCast r (by omega), and_255]
    exact word_op_reg o r _ (by omega) (by omega) (by omega)
  generalize encodeInstructionToBinary a = w at hw
  have h26 : (w >>> 26) &&& 0x3f = o := by rw [and_63]; omega
  have h22 : (w >>> 22) &&& 0x0f = r := by rw [and_15]; omega
  have hc : toChar (w &&& 0xff) = a.const_or_label :=
    toChar_eq_of_mod _ _ hc1 hc2 (by rw [and_255]; omega)
  unfold decodeInstructionFromBinary
  simp [h26, h22, hc, hget, hmem, hR, hI, hC, hS, hN, hD, hre]

theorem roundtrip_STACK_REG (a prev : instruction_attr) (hf : a.format = .STACK_REG)
    (hm : a.instruction ∈ STACK_INSTR) (hr : isRegister a.operand_register) :
    ∃ d, decodeInstructionFromBinary (encodeInstructionToBinary a) prev = some d ∧
      d.instruction = a.instruction ∧ d.format = .STACK_REG ∧
      d.operand_register = a.operand_register := by
  obtain ⟨h0, h64, hget, hmem, hR, hI, hC, hS⟩ := STACK_INSTR_table _ hm
  obtain ⟨o, hoe⟩ := Int.eq_ofNat_of_zero_le h0
  obtain ⟨r, hre⟩ := Int.eq_ofNat_of_zero_le hr.1
  have hr2 := hr.2
  rw [hoe] at h64 hget
  rw [hre] at hr2
  have hw : encodeInstructionToBinary a = o * 67108864 + r * 4194304 := by
    unfold encodeInstructionToBinary
    simp only [hf, hoe, hre]
    rw [toU32_natCast o (by omega), toU32_natCast r (by omega)]
    have h := word_op_reg o r 0 (by omega) (by omega) (by omega)
    simpa using h
  generalize encodeInstructionToBinary a = w at hw
  have h26 : (w >>> 26) &&& 0x3f = o := by rw [and_63]; omega
  have h22 : (w >>> 22) &&& 0x0f = r := by rw [and_15]; omega
  unfold decodeInstructionFromBinary
  simp [h26, h22, hget, hmem, hR, hI, hC, hS, hre]

theorem roundtrip_CONTROL_LABEL (a prev : instruction_attr) (hf : a.format = .CONTROL_LABEL)
    (hm : a.instruction ∈ CONTROL_INSTR)
    (hc1 : -32768 ≤ a.const_or_label) (hc2 : a.const_or_label ≤ 32767) :
    ∃ d, decodeInstructionFromBinary (encodeInstructionToBinary a) prev = some d ∧
      d.instruction = a.instruction ∧ d.format = .CONTROL_LABEL ∧
      d.const_or_label = a.const_or_label := by
  obtain ⟨h0, h64, hget, hmem, hR, hI, hC⟩ := CONTROL_INSTR_table _ hm
  obtain ⟨o, hoe⟩ := Int.eq_ofNat_of_zero_le h0
  rw [hoe] at h64 hget
  have hw : encodeInstructionToBinary a = o * 67108864 + toU32 a.const_or_label % 65536 := by
    unfold encodeInstructionToBinary
    simp only [hf, hoe]
    rw [toU32_natCast o (by omega), and_65535]
    exact word_op o _ (by omega) (by omega)
  generalize encodeInstructionToBinary a = w at hw
  have h26 : (w >>> 26) &&& 0x3f = o := by rw [and_63]; omega
  have hc : toShort (w &&& 0xffff) = a.const_or_label :=
    toShort_eq_of_mod _ _ hc1 hc2 (by rw [and_65535]; omega)
  unfold decodeInstructionFromBinary
  simp [h26, hc, hget, hmem, hR, hI, hC]

theorem roundtrip_NO_OPERAND (a prev : instruction_attr) (hf : a.format = .NO_OPERAND)
    (hm : a.instruction ∈ NO_OPERAND_INSTR) :
    ∃ d, decodeInstructionFromBinary (encodeInstructionToBinary a) prev = some d ∧
      d.instruction = a.instruction ∧ d.format = .NO_OPERAND := by
  obtain ⟨h0, h64, hget, hmem, hR, hI, hC, hS, hN⟩ := NO_OPERAND_INSTR_table _ hm
  obtain ⟨o, hoe⟩ := Int.eq_ofNat_of_zero_le h0
  rw [hoe] at h64 hget
  have hw : encodeInstructionToBinary a = o * 67108864 := by
    unfold encodeInstructionToBinary
    simp only [hf, hoe]
    rw [toU32_natCast o (by omega)]
    unfold shl32
    omega
  generalize encodeInstructionToBinary a = w at hw
  have h26 : (w >>> 26) &&& 0x3f = o := by rw [and_63]; omega
  unfold decodeInstructionFromBinary
  simp [h26, hget, hmem, hR, hI, hC, hS, hN]

theorem roundtrip_MOV_REG_REG (a prev : instruction_attr) (hf : a.format = .MOV_REG_REG)
    (hm : a.instruction = "mov")
    (hr : isRegister a.operand_register) (hb : isRegister a.base_register) :
    ∃ d, decodeInstructionFromBinary (encodeInstructionToBinary a) prev = some d ∧
      d.instruction = a.instruction ∧ d.format = .MOV_REG_REG ∧
      d.operand_register = a.operand_register ∧ d.base_register = a.base_register := by
  obtain ⟨h0, h64, hget, hmem, hR, hI, hC, hS, hN, hD, hM⟩ :=
    MOV_INSTR_table a.instruction (by rw [hm]; decide)
  obtain ⟨o, hoe⟩ := Int.eq_ofNat_of_zero_le h0
  obtain ⟨r, hre⟩ := Int.eq_ofNat_of_zero_le hr.1
  obtain ⟨b, hbe⟩ := Int.eq_ofNat_of_zero_le hb.1
  have hr2 := hr.2
  have hb2 := hb.2
  rw [hoe] at h64 hget
  rw [hre] at hr2
  rw [hbe] at hb2
  have hw : encodeInstructionToBinary a = o * 67108864 + r * 4194304 + b * 262144 := by
    unfold encodeInstructionToBinary
    simp only [hf, hoe, hre, hbe]
    rw [toU32_natCast o (by omega), toU32_natCast r (by omega), toU32_natCast b (by omega)]
    have e : shl32 MOV_REG_REG_IND 16 = 0 := by decide
    rw [e]
    have h := word_op_reg_base o r b 0 (by omega) (by omega) (by omega) (by omega)
    rw [Nat.add_zero] at h
    exact h
  generalize encodeInstructionToBinary a = w at hw
  have h26 : (w >>> 26) &&& 0x3f = o := by rw [and_63]; omega
  have h22 : (w >>> 22) &&& 0x0f = r := by rw [and_15]; omega
  have h18 : (w >>> 18) &&& 0x0f = b := by rw [and_15]; omega
  have h16 : (w >>> 16) &&& 0x01 = 0 := by rw [and_1]; omega
  unfold decodeInstructionFromBinary
  simp [h26, h22, h18, h16, hget, hmem, hR, hI, hC, hS, hN, hD, hM, hre, hbe]

theorem roundtrip_MOV_IMM_REG (a prev : instruction_attr) (hf : a.format = .MOV_IMM_REG)
    (hm : a.instruction = "movi") (hr : isRegister a.operand_register)
    (hc1 : -32768 ≤ a.const_or_label) (hc2 : a.const_or_label ≤ 32767) :
    ∃ d, decodeInstructionFromBinary (encodeInstructionToBinary a) prev = some d ∧
      d.instruction = a.instruction ∧ d.format = .MOV_IMM_REG ∧
      d.operand_register = a.operand_register ∧ d.const_or_label = a.const_or_label := by
  obtain ⟨h0, h64, hget, hmem, hR, hI, hC, hS, hN, hD, hM⟩ :=
    MOV_INSTR_table a.instruction (by rw [hm]; decide)
  obtain ⟨o, hoe⟩ := Int.eq_ofNat_of_zero_le h0
  obtain ⟨r, hre⟩ := Int.eq_ofNat_of_zero_le hr.1
  have hr2 := hr.2
  rw [hoe] at h64 hget
  rw [hre] at hr2
  have hw : encodeInstructionToBinary a
      = o * 67108864 + r * 4194304 + (65536 + toU32 a.const_or_label % 65536) := by
    unfold encodeInstructionToBinary
    simp only [hf, hoe, hre]
    rw [toU32_natCast o (by omega), toU32_natCast r (by omega), and_65535, Nat.or_assoc]
    have e : shl32 MOV_IMM_REG_IND 16 = 65536 := by decide
    have ht : 65536 ||| toU32 a.const_or_label % 65536
        = 65536 + toU32 a.const_or_label % 65536 :=
      or_eq_add_of_low 16 _ _ (by omega) (by omega)
    rw [e, ht]
    exact word_op_reg o r _ (by omega) (by omega) (by omega)
  generalize encodeInstructionToBinary a = w at hw
  have h26 : (w >>> 26) &&& 0x3f = o := by rw [and_63]; omega
  have h22 : (w >>> 22) &&& 0x0f = r := by rw [and_15]; omega
  have h16 : (w >>> 16) &&& 0x01 = 1 := by rw [and_1]; omega
  have hc : toShort (w &&& 0xffff) = a.const_or_label :=
    toShort_eq_of_mod _ _ hc1 hc2 (by rw [and_65535]; omega)
  unfold decodeInstructionFromBinary
  simp [h26, h22, h16, hc, hget, hmem, hR, hI, hC, hS, hN, hD, hM, hre]

theorem MEM_INSTR_table : ∀ m ∈ MEM_INSTR,
    0 ≤ getOpcodeFromInstruction m ∧ getOpcodeFromInstruction m < 64 ∧
    getInstructionFromOpcode (getOpcodeFromInstruction m) = some m ∧
    IsStringInStringArray m MEM_INSTR = true := by
  decide

/-- The word `opcode | op_reg | base_reg | index_reg | scale | offset | t` as a sum, for a tail
`t` below bit 4. -/
theorem word_memory (o r b i sc f t : Nat) (ho : o < 64) (hr : r < 16) (hb : b < 16)
    (hi : i < 16) (hsc : sc < 4) (hf : f < 256) (ht : t < 16) :
    shl32 o 26 ||| shl32 r 22 ||| shl32 b 18 ||| shl32 i 14 ||| shl32 sc 12 ||| shl32 f 4 ||| t
      = o * 67108864 + r * 4194304 + b * 262144 + i * 16384 + sc * 4096 + f * 16 + t := by
  have e4 : shl32 i 14 = i * 16384 := by unfold shl32; omega
  have e5 : shl32 sc 12 = sc * 4096 := by unfold shl32; omega
  have e6 : shl32 f 4 = f * 16 := by unfold shl32; omega
  have h4 := word_op_reg_base o r b (i * 16384) ho hr hb (by omega)
  rw [e4, e5, e6, h4]
  have h5 : o * 67108864 + r * 4194304 + b * 262144 + i * 16384 ||| sc * 4096
      = o * 67108864 + r * 4194304 + b * 262144 + i * 16384 + sc * 4096 :=
    or_eq_add_of_low 14 _ _ (by omega) (by omega)
  have h6 : o * 67108864 + r * 4194304 + b * 262144 + i * 16384 + sc * 4096 ||| f * 16
      = o * 67108864 + r * 4194304 + b * 262144 + i * 16384 + sc * 4096 + f * 16 :=
    or_eq_add_of_low 12 _ _ (by omega) (by omega)
  rw [h5, h6]
  exact or_eq_add_of_low 4 _ _ (by omega) (by omega)

/-- The fields of a memory-format word, read back by the shifts and masks of the decoder. -/
theorem fields_memory (w o r b i sc f t : Nat) (ho : o < 64) (hr : r < 16) (hb : b < 16)
    (hi : i < 16) (hsc : sc < 4) (hf : f < 256) (ht : t < 16)
    (hw : w = o * 67108864 + r * 4194304 + b * 262144 + i * 16384 + sc * 4096 + f * 16 + t) :
    (w >>> 26) &&& 0x3f = o ∧ (w >>> 22) &&& 0x0f = r ∧ (w >>> 18) &&& 0x0f = b ∧
    (w >>> 14) &&& 0x0f = i ∧ (w >>> 12) &&& 0x03 = sc ∧ (w >>> 4) &&& 0xff = f ∧
    (w >>> 2) &&& 0x03 = t / 4 := by
  rw [and_63, and_15, and_15, and_15, and_3, and_255, and_3]
  refine ⟨?_, ?_, ?_, ?_, ?_, ?_, ?_⟩ <;> omega

/-- The encoder's word for the three formats with a full memory operand, for a scale of 1, 2
or 4 (where `scale / 2` is the logarithm of the scale). -/
theorem encode_memory_word (a : instruction_attr) (o r b i : Nat) (t : Nat)
    (hfmt : (a.format = .LOAD_STORE ∧ t = 0) ∨ (a.format = .REG_MEM ∧ t = 8) ∨
      (a.format = .MEM_REG ∧ t = 12))
    (hoe : getOpcodeFromInstruction a.instruction = (o : Int)) (ho : o < 64)
    (hre : a.operand_register = (r : Int)) (hr : r < 16)
    (hbe : a.base_register = (b : Int)) (hb : b < 16)
    (hie : a.index_register = (i : Int)) (hi : i < 16)
    (sc : Nat) (hsc : sc < 4) (hse : toU32 (Int.tdiv a.scale 2) = sc) :
    encodeInstructionToBinary a
      = o * 67108864 + r * 4194304 + b * 262144 + i * 16384 + sc * 4096
        + (toU32 a.offset % 256) * 16 + t := by
  have hf : toU32 a.offset % 256 < 256 := Nat.mod_lt _ (by decide)
  unfold encodeInstructionToBinary
  rcases hfmt with ⟨hfm, rfl⟩ | ⟨hfm, rfl⟩ | ⟨hfm, rfl⟩
  · simp only [hfm, hoe, hre, hbe, hie, hse]
    rw [toU32_natCast o (by omega), toU32_natCast r (by omega), toU32_natCast b (by omega),
      toU32_natCast i (by omega), and_255]
    have h := word_memory o r b i sc (toU32 a.offset % 256) 0 ho hr hb hi hsc hf (by omega)
    rw [Nat.or_zero] at h
    exact h
  · simp only [hfm, hoe, hre, hbe, hie, hse]
    rw [toU32_natCast o (by omega), toU32_natCast r (by omega), toU32_natCast b (by omega),
      toU32_natCast i (by omega), and_255]
    have e : shl32 REG_MEM_IND 2 = 8 := by decide
    rw [e]
    exact word_memory o r b i sc (toU32 a.offset % 256) 8 ho hr hb hi hsc hf (by omega)
  · simp only [hfm, hoe, hre, hbe, hie, hse]
    rw [toU32_natCast o (by omega), toU32_natCast r (by omega), toU32_natCast b (by omega),
      toU32_natCast i (by omega), and_255]
    have e : shl32 MEM_REG_IND 2 = 12 := by decide
    rw [e]
    exact word_memory o r b i sc (toU32 a.offset % 256) 12 ho hr hb hi hsc hf (by omega)

theorem scale_field (x : Int) (h : x = 1 ∨ x = 2 ∨ x = 4) :
    ∃ sc : Nat, sc < 4 ∧ toU32 (Int.tdiv x 2) = sc ∧ ((shl32 1 sc : Nat) : Int) = x := by
  rcases h with rfl | rfl | rfl
  · exact ⟨0, by decide, by decide, by decide⟩
  · exact ⟨1, by decide, by decide, by decide⟩
  · exact ⟨2, by decide, by decide, by decide⟩

/-- The part of the round trip of the memory-bearing formats that the code achieves: for
`LOAD_STORE`, `REG_MEM` and `MEM_REG` attrs with registers in 0..15, offset in [-128, 127] and
a scale of 1, 2 or 4, decoding the encoded word returns the same mnemonic, format, registers,
scale and offset. -/
theorem roundtrip_memory_scale_le_four (a prev : instruction_attr)
    (hcat : (a.format = .LOAD_STORE ∧ a.instruction ∈ MEM_INSTR) ∨
      ((a.format = .REG_MEM ∨ a.format = .MEM_REG) ∧ a.instruction ∈ R_INSTR ∧
        getOpcodeFromInstruction a.instruction ≠ -1))
    (hr : isRegister a.operand_register) (hb : isRegister a.base_register)
    (hi : isRegister a.index_register)
    (hs : a.scale = 1 ∨ a.scale = 2 ∨ a.scale = 4)
    (hf1 : -128 ≤ a.offset) (hf2 : a.offset ≤ 127) :
    ∃ d, decodeInstructionFromBinary (encodeInstructionToBinary a) prev = some d ∧
      d.instruction = a.instruction ∧ d.format = a.format ∧ populatedFieldsAgree a d := by
  obtain ⟨r, hre⟩ := Int.eq_ofNat_of_zero_le hr.1
  obtain ⟨b, hbe⟩ := Int.eq_ofNat_of_zero_le hb.1
  obtain ⟨i, hie⟩ := Int.eq_ofNat_of_zero_le hi.1
  have hr2 := hr.2
  have hb2 := hb.2
  have hi2 := hi.2
  rw [hre] at hr2
  rw [hbe] at hb2
  rw [hie] at hi2
  obtain ⟨sc, hsc, hse, hsd⟩ := scale_field a.scale hs
  have hfl : toU32 a.offset % 256 < 256 := Nat.mod_lt _ (by decide)
  unfold populatedFieldsAgree
  rcases hcat with ⟨hfm, hm⟩ | ⟨hfm, hm, hop⟩
  · obtain ⟨h0, h64, hget, hmem⟩ := MEM_INSTR_table _ hm
    obtain ⟨o, hoe⟩ := Int.eq_ofNat_of_zero_le h0
    rw [hoe] at h64 hget
    have hw := encode_memory_word a o r b i 0 (Or.inl ⟨hfm, rfl⟩) hoe (by omega) hre (by omega)
      hbe (by omega) hie (by omega) sc hsc hse
    generalize encodeInstructionToBinary a = w at hw
    obtain ⟨h26, h22, h18, h14, h12, h4, -⟩ :=
      fields_memory w o r b i sc _ 0 (by omega) (by omega) (by omega) (by omega) hsc hfl
        (by omega) hw
    have hoff : toChar ((w >>> 4) &&& 0xff) = a.offset :=
      toChar_eq_of_mod _ _ hf1 hf2 (by rw [h4]; omega)
    unfold decodeInstructionFromBinary
    simp [h26, h22, h18, h14, h12, hoff, hget, hmem, hfm, hre, hbe, hie, hsd]
  · obtain ⟨h0, h64, hget, hmem, hR⟩ := R_INSTR_table _ hm hop
    obtain ⟨o, hoe⟩ := Int.eq_ofNat_of_zero_le h0
    rw [hoe] at h64 hget
    rcases hfm with hfm | hfm
    · have hw := encode_memory_word a o r b i 8 (Or.inr (Or.inl ⟨hfm, rfl⟩)) hoe (by omega) hre
        (by omega) hbe (by omega) hie (by omega) sc hsc hse
      generalize encodeInstructionToBinary a = w at hw
      obtain ⟨h26, h22, h18, h14, h12, h4, h2⟩ :=
        fields_memory w o r b i sc _ 8 (by omega) (by omega) (by omega) (by omega) hsc hfl
          (by omega) hw
      have hoff : toChar ((w >>> 4) &&& 0xff) = a.offset :=
        toChar_eq_of_mod _ _ hf1 hf2 (by rw [h4]; omega)
      unfold decodeInstructionFromBinary
      simp [h26, h22, h18, h14, h12, h2, hoff, hget, hmem, hR, hfm, hre, hbe, hie, hsd,
        formatOfInt]
    · have hw := encode_memory_word a o r b i 12 (Or.inr (Or.inr ⟨hfm, rfl⟩)) hoe (by omega) hre
        (by omega) hbe (by omega) hie (by omega) sc hsc hse
      generalize encodeInstructionToBinary a = w at hw
      obtain ⟨h26, h22, h18, h14, h12, h4, h2⟩ :=
        fields_memory w o r b i sc _ 12 (by omega) (by omega) (by omega) (by omega) hsc hfl
          (by omega) hw
      have hoff : toChar ((w >>> 4) &&& 0xff) = a.offset :=
        toChar_eq_of_mod _ _ hf1 hf2 (by rw [h4]; omega)
      unfold decodeInstructionFromBinary
      simp [h26, h22, h18, h14, h12, h2, hoff, hget, hmem, hR, hfm, hre, hbe, hie, hsd,
        formatOfInt]

/-- C3: for every legal attr of a format without a memory operand (`REG_REG`, `IMM_REG`,
`MEM_DISPLAY`, `STACK_REG`, `CONTROL_LABEL`, `MOV_REG_REG`, `MOV_IMM_REG`, `NO_OPERAND`),
decoding the encoded word succeeds and returns the same mnemonic, the same format and the same
value of every field the format populates, whatever the struct held before. -/
theorem C3_roundtrip_no_memory_formats (a prev : instruction_attr)
    (h : legalNoMemoryAttr a) :
    ∃ d, decodeInstructionFromBinary (encodeInstructionToBinary a) prev = some d ∧
      d.instruction = a.instruction ∧ d.format = a.format ∧ populatedFieldsAgree a d := by
  unfold legalNoMemoryAttr at h
  unfold populatedFieldsAgree
  cases hf : a.format <;> simp only [hf] at h ⊢
  · exact roundtrip_REG_REG a prev hf h.1 h.2.1 h.2.2.1 h.2.2.2
  · exact roundtrip_IMM_REG a prev hf h.1 h.2.1 h.2.2.1 h.2.2.2
  · exact roundtrip_MEM_DISPLAY a prev hf h.1 h.2.1 h.2.2.1 h.2.2.2
  · exact roundtrip_CONTROL_LABEL a prev hf h.1 h.2.1 h.2.2
  · exact roundtrip_STACK_REG a prev hf h.1 h.2
  · obtain ⟨d, h1, h2, h3⟩ := roundtrip_NO_OPERAND a prev hf h
    exact ⟨d, h1, h2, h3, trivial⟩
  · exact roundtrip_MOV_REG_REG a prev hf h.1 h.2.1 h.2.2
  · exact roundtrip_MOV_IMM_REG a prev hf h.1 h.2.1 h.2.2.1 h.2.2.2

/-- C3 at the attr of `movi $-3, r8`, decoded into a struct that held other values. -/
theorem C3_roundtrip_no_memory_formats_witness :
    legalNoMemoryAttr
      { format := .MOV_IMM_REG, instruction := "movi", base_register := 0, index_register := 0,
        offset := 0, scale := 1, operand_register := 8, const_or_label := -3 } ∧
    ∃ d, decodeInstructionFromBinary
        (encodeInstructionToBinary
          { format := .MOV_IMM_REG, instruction := "movi", base_register := 0,
            index_register := 0, offset := 0, scale := 1, operand_register := 8,
            const_or_label := -3 })
        { format := .LOAD_STORE, instruction := "", base_register := 7, index_register := 7,
          offset := 7, scale := 7, operand_register := 7, const_or_label := 7 } = some d ∧
      d.instruction = "movi" ∧ d.format = .MOV_IMM_REG ∧
      populatedFieldsAgree
        { format := .MOV_IMM_REG, instruction := "movi", base_register := 0,
          index_register := 0, offset := 0, scale := 1, operand_register := 8,
          const_or_label := -3 } d :=
  ⟨by unfold legalNoMemoryAttr isRegister; decide,
   C3_roundtrip_no_memory_formats _ _ (by unfold legalNoMemoryAttr isRegister; decide)⟩

/-! ## The flags unit -/

theorem divideLoop_by_two : ∀ c, c ≤ 32 → divideLoop (c + 1) c 2 0 = some (c % 2, c / 2) := by
  decide

theorem divide_by_two (s : State) (c : Nat) (hc : c ≤ 32) :
    divide s c 2 = some (c / 2, { s with HI := c % 2, LO := c / 2 }) := by
  unfold divide
  simp [divideLoop_by_two c hc]

theorem shiftRight_and_one (w i : Nat) : (w >>> i) &&& 1 = if w.testBit i then 1 else 0 := by
  rw [Nat.and_one_is_mod, Nat.shiftRight_eq_div_pow, Nat.testBit_to_div_mod]
  rcases Nat.mod_two_eq_zero_or_one (w / 2 ^ i) with h | h <;> simp [h]

theorem countOnes_foldl (w : Nat) : ∀ (l : List Nat) (acc : Nat), acc + l.length < 4294967296 →
    l.foldl (fun count_ones i => (count_ones + ((w >>> i) &&& 0x01)) % 4294967296) acc
      = acc + (l.filter fun i => w.testBit i).length := by
  intro l
  induction l with
  | nil => intro acc _; simp
  | cons i l ih =>
    intro acc h
    simp only [List.length_cons] at h
    simp only [List.foldl_cons, List.filter_cons]
    rw [shiftRight_and_one]
    by_cases hb : w.testBit i = true
    · rw [if_pos hb, if_pos hb, Nat.mod_eq_of_lt (by omega), ih _ (by omega), List.length_cons]
      omega
    · rw [if_neg hb, if_neg hb, Nat.add_zero, Nat.mod_eq_of_lt (by omega), ih _ (by omega)]

theorem countOnes_eq_popCount (w : Nat) : countOnes w = popCount w := by
  unfold countOnes popCount WORD_SIZE
  have h := countOnes_foldl w (List.range 32) 0 (by simp)
  simpa using h

theorem popCount_le (w : Nat) : popCount w ≤ 32 := by
  unfold popCount
  have h := List.length_filter_le (fun i => w.testBit i) (List.range 32)
  simpa using h

theorem HEX_SF_eq : HEX_SF = 2 ^ 7 := by decide
theorem HEX_OF_eq : HEX_OF = 2 ^ 6 := by decide
theorem HEX_PF_eq : HEX_PF = 2 ^ 4 := by decide
theorem HEX_ZF_eq : HEX_ZF = 2 ^ 2 := by decide
theorem HEX_CF_eq : HEX_CF = 2 ^ 0 := by decide

theorem testBit_not32_two_pow (k i : Nat) (hk : k < 32) (hi : i < 32) :
    (not32 (2 ^ k)).testBit i = !decide (k = i) := by
  unfold not32
  have h1 : 2 ^ k % 4294967296 = 2 ^ k :=
    Nat.mod_eq_of_lt (by
      have := Nat.pow_lt_pow_right (a := 2) (by decide) hk
      simpa using this)
  have h2 : (4294967295 : Nat) = 2 ^ 32 - 1 := by decide
  rw [h1, h2, Nat.testBit_xor, Nat.testBit_two_pow_sub_one, Nat.testBit_two_pow]
  simp [hi]

/-- One read-modify-write step on `FLAGS`: the bit of the mask becomes the condition and the
other bits keep their value. -/
theorem testBit_flag_step (F k i : Nat) (c : Prop) [Decidable c] (hk : k < 32) (hi : i < 32) :
    (if c then F ||| 2 ^ k else F &&& not32 (2 ^ k)).testBit i
      = if k = i then decide c else F.testBit i := by
  by_cases h1 : c
  · rw [if_pos h1, Nat.testBit_or, Nat.testBit_two_pow]
    by_cases h2 : k = i <;> simp [h1, h2]
  · rw [if_neg h1, Nat.testBit_and, testBit_not32_two_pow k i hk hi]
    by_cases h2 : k = i <;> simp [h1, h2]

theorem ite_ite_same {α : Type} (c1 c2 : Prop) [Decidable c1] [Decidable c2] (x y : α) :
    (if c1 then x else if c2 then x else y) = if c1 ∨ c2 then x else y := by
  split_ifs <;> simp_all

/-- What `setFlagsRegister` does to the state: it always returns, every bit of `FLAGS` below
bit 32 is either one of the five flags, set from the condition the code tests, or keeps its
value; `HI` and `LO` receive the remainder and quotient of the one-bit count by 2; nothing else
changes. -/
theorem setFlagsRegister_spec (s : State) (a b result : Nat) :
    ∃ s', setFlagsRegister s a b result = some s' ∧
      (∀ i, i < 32 → s'.FLAGS.testBit i =
        if 0 = i then decide (result < a ∨ result < b)
        else if 2 = i then decide (result = 0)
        else if 4 = i then decide (popCount result % 2 ≠ 0)
        else if 6 = i then
          decide
            ((s.isSubtract &&
                (decide (toS32 b > 0) && decide (toS32 a < 0) && decide (toS32 result < 0) ||
                  decide (toS32 b < 0) && decide (toS32 a > 0) && decide (toS32 result > 0)))
              = true ∨
             (!s.isSubtract &&
                (decide (toS32 a > 0) && decide (toS32 b > 0) && decide (toS32 result ≤ 0) ||
                  decide (toS32 a < 0) && decide (toS32 b < 0) && decide (toS32 result ≥ 0)))
              = true)
        else if 7 = i then decide ((result >>> (WORD_SIZE - 1)) &&& 1 ≠ 0)
        else s.FLAGS.testBit i) ∧
      s'.HI = popCount result % 2 ∧ s'.LO = popCount result / 2 ∧
      s'.GPRS = s.GPRS ∧ s'.MEMORY = s.MEMORY ∧ s'.PC = s.PC ∧ s'.MDR = s.MDR ∧
      s'.MAR = s.MAR ∧ s'.INSTR_REG = s.INSTR_REG ∧
      s'.INSTR_MEMORY_PTR = s.INSTR_MEMORY_PTR ∧ s'.isSubtract = s.isSubtract := by
  unfold setFlagsRegister
  rw [countOnes_eq_popCount]
  simp only [divide_by_two _ _ (popCount_le result), ite_ite_same, HEX_SF_eq, HEX_OF_eq,
    HEX_PF_eq, HEX_ZF_eq, HEX_CF_eq]
  refine ⟨_, rfl, ?_, rfl, rfl, rfl, rfl, rfl, rfl, rfl, rfl, rfl, rfl⟩
  intro i hi
  simp only []
  rw [testBit_flag_step _ _ _ _ (by decide) hi, testBit_flag_step _ _ _ _ (by decide) hi,
    testBit_flag_step _ _ _ _ (by decide) hi, testBit_flag_step _ _ _ _ (by decide) hi,
    testBit_flag_step _ _ _ _ (by decide) hi]

theorem testBit_31_iff (w : Nat) (hw : w < 4294967296) :
    w.testBit 31 = true ↔ 2147483648 ≤ w := by
  rw [Nat.testBit_to_div_mod]
  simp only [decide_eq_true_eq]
  omega

theorem msb_ne_zero_iff (w : Nat) : ((w >>> (WORD_SIZE - 1)) &&& 1 ≠ 0) ↔ w.testBit 31 = true := by
  show ((w >>> 31) &&& 1 ≠ 0) ↔ _
  rw [shiftRight_and_one]
  by_cases h : w.testBit 31 = true <;> simp [h]

/-- C7: for every `a`, `b`, `result` and every previous state (so every previous `FLAGS`),
`setFlagsRegister` returns, and afterwards SF (bit 7) equals bit 31 of `result`, ZF (bit 2) is
set iff `result = 0`, and PF (bit 4) is set iff the number of one-bits of `result` is odd. The
three bits depend on `result` alone: two calls with the same `result`, whatever their operands
and previous states, agree on them. -/
theorem C7_SF_ZF_PF_from_result (result : Nat) :
    (∀ (s : State) (a b : Nat), ∃ s', setFlagsRegister s a b result = some s' ∧
      s'.FLAGS.testBit 7 = result.testBit 31 ∧
      (s'.FLAGS.testBit 2 = true ↔ result = 0) ∧
      (s'.FLAGS.testBit 4 = true ↔ popCount result % 2 = 1)) ∧
    (∀ (s₁ s₂ : State) (a₁ b₁ a₂ b₂ : Nat), ∃ t₁ t₂,
      setFlagsRegister s₁ a₁ b₁ result = some t₁ ∧
      setFlagsRegister s₂ a₂ b₂ result = some t₂ ∧
      t₁.FLAGS.testBit 7 = t₂.FLAGS.testBit 7 ∧
      t₁.FLAGS.testBit 2 = t₂.FLAGS.testBit 2 ∧
      t₁.FLAGS.testBit 4 = t₂.FLAGS.testBit 4) := by
  constructor
  · intro s a b
    obtain ⟨s', hs, hbits, -⟩ := setFlagsRegister_spec s a b result
    refine ⟨s', hs, ?_, ?_, ?_⟩
    · rw [hbits 7 (by decide)]
      simp only [show (0 : Nat) = 7 ↔ False by decide, show (2 : Nat) = 7 ↔ False by decide,
        show (4 : Nat) = 7 ↔ False by decide, show (6 : Nat) = 7 ↔ False by decide, if_false,
        if_true]
      by_cases h : result.testBit 31 = true
      · rw [h, decide_eq_true_eq]
        exact (msb_ne_zero_iff result).2 h
      · have h' : ¬ ((result >>> (WORD_SIZE - 1)) &&& 1 ≠ 0) := fun hc =>
          h ((msb_ne_zero_iff result).1 hc)
        rw [Bool.not_eq_true] at h
        rw [h, decide_eq_false_iff_not]
        exact h'
    · rw [hbits 2 (by decide)]
      simp
    · rw [hbits 4 (by decide)]
      simp
  · intro s₁ s₂ a₁ b₁ a₂ b₂
    obtain ⟨t₁, h1, hb1, -⟩ := setFlagsRegister_spec s₁ a₁ b₁ result
    obtain ⟨t₂, h2, hb2, -⟩ := setFlagsRegister_spec s₂ a₂ b₂ result
    refine ⟨t₁, t₂, h1, h2, ?_, ?_, ?_⟩
    · rw [hb1 7 (by decide), hb2 7 (by decide)]; simp
    · rw [hb1 2 (by decide), hb2 2 (by decide)]; simp
    · rw [hb1 4 (by decide), hb2 4 (by decide)]; simp

/-- C8: for all 32-bit operands `a` and `b`, after `setFlagsRegister (a, b, (a + b) mod 2^32)`,
the call made by `add` and `addi`, CF (bit 0) is set iff the unsigned sum carries out of bit
31, that is iff `a + b ≥ 2^32`. -/
theorem C8_CF_is_carry_on_add (s : State) (a b : Nat)
    (ha : a < 4294967296) (hb : b < 4294967296) :
    ∃ s', setFlagsRegister s a b ((a + b) % 4294967296) = some s' ∧
      (s'.FLAGS.testBit 0 = true ↔ 4294967296 ≤ a + b) := by
  obtain ⟨s', hs, hbits, -⟩ := setFlagsRegister_spec s a b ((a + b) % 4294967296)
  refine ⟨s', hs, ?_⟩
  rw [hbits 0 (by decide)]
  simp only [if_true, decide_eq_true_eq]
  omega

/-- C8 at `0xFFFFFFFF + 1`, the smallest sum that carries. -/
theorem C8_CF_is_carry_on_add_witness :
    (4294967295 : Nat) < 4294967296 ∧ (1 : Nat) < 4294967296 ∧
    ∃ s', setFlagsRegister zeroState 4294967295 1 ((4294967295 + 1) % 4294967296) = some s' ∧
      (s'.FLAGS.testBit 0 = true ↔ 4294967296 ≤ 4294967295 + 1) :=
  ⟨by decide, by decide, C8_CF_is_carry_on_add zeroState 4294967295 1 (by decide) (by decide)⟩

theorem testBit_31_eq_iff (x y : Nat) (hx : x < 4294967296) (hy : y < 4294967296) :
    x.testBit 31 = y.testBit 31 ↔ (2147483648 ≤ x ↔ 2147483648 ≤ y) := by
  rw [Bool.eq_iff_iff, testBit_31_iff x hx, testBit_31_iff y hy]

/-- C9: for all 32-bit operands `a` and `b`, after `setFlagsRegister (a, b, (a + b) mod 2^32)`
with `isSubtract` false, OF (bit 6) is set iff `a` and `b` have the same sign bit and the sign
bit of the result differs from it, which is the case iff the signed 32-bit sum overflows. -/
theorem C9_OF_is_signed_overflow_on_add (s : State) (a b : Nat)
    (ha : a < 4294967296) (hb : b < 4294967296) (hsub : s.isSubtract = false) :
    ∃ s', setFlagsRegister s a b ((a + b) % 4294967296) = some s' ∧
      (s'.FLAGS.testBit 6 = true ↔
        (a.testBit 31 = b.testBit 31 ∧ ((a + b) % 4294967296).testBit 31 ≠ a.testBit 31)) ∧
      (s'.FLAGS.testBit 6 = true ↔
        (toS32 a + toS32 b < -2147483648 ∨ 2147483647 < toS32 a + toS32 b)) := by
  obtain ⟨s', hs, hbits, -⟩ := setFlagsRegister_spec s a b ((a + b) % 4294967296)
  have hr : (a + b) % 4294967296 < 4294967296 := Nat.mod_lt _ (by decide)
  have key : s'.FLAGS.testBit 6 = true ↔
      ((toS32 a > 0 ∧ toS32 b > 0 ∧ toS32 ((a + b) % 4294967296) ≤ 0) ∨
       (toS32 a < 0 ∧ toS32 b < 0 ∧ toS32 ((a + b) % 4294967296) ≥ 0)) := by
    rw [hbits 6 (by decide)]
    simp [hsub, and_assoc]
  refine ⟨s', hs, ?_, ?_⟩
  · rw [key, Ne, testBit_31_eq_iff _ _ ha hb, testBit_31_eq_iff _ _ hr ha]
    unfold toS32
    split_ifs <;> omega
  · rw [key]
    unfold toS32
    split_ifs <;> omega

/-- C9 at `0x7FFFFFFF + 1`, the smallest positive sum that overflows. -/
theorem C9_OF_is_signed_overflow_on_add_witness :
    (2147483647 : Nat) < 4294967296 ∧ (1 : Nat) < 4294967296 ∧ zeroState.isSubtract = false ∧
    ∃ s', setFlagsRegister zeroState 2147483647 1 ((2147483647 + 1) % 4294967296) = some s' ∧
      (s'.FLAGS.testBit 6 = true ↔
        (Nat.testBit 2147483647 31 = Nat.testBit 1 31 ∧
          ((2147483647 + 1) % 4294967296).testBit 31 ≠ Nat.testBit 2147483647 31)) ∧
      (s'.FLAGS.testBit 6 = true ↔
        (toS32 2147483647 + toS32 1 < -2147483648 ∨ 2147483647 < toS32 2147483647 + toS32 1)) :=
  ⟨by decide, by decide, rfl,
    C9_OF_is_signed_overflow_on_add zeroState 2147483647 1 (by decide) (by decide) rfl⟩

/-- What the code computes for OF after a subtraction `val2 - val1`: the flag is set iff the
signed difference overflows, except that the overflow of `0 - (-2^31)` is missed. -/
theorem OF_on_subtract (s : State) (val1 val2 : Nat)
    (h1 : val1 < 4294967296) (h2 : val2 < 4294967296) (hsub : s.isSubtract = true) :
    ∃ s', setFlagsRegister s val1 val2 ((val2 + 4294967296 - val1) % 4294967296) = some s' ∧
      (s'.FLAGS.testBit 6 = true ↔
        ((toS32 val2 - toS32 val1 < -2147483648 ∨ 2147483647 < toS32 val2 - toS32 val1) ∧
          ¬ (val2 = 0 ∧ val1 = 2147483648))) := by
  obtain ⟨s', hs, hbits, -⟩ :=
    setFlagsRegister_spec s val1 val2 ((val2 + 4294967296 - val1) % 4294967296)
  refine ⟨s', hs, ?_⟩
  rw [hbits 6 (by decide)]
  simp only [hsub]
  simp
  unfold toS32
  split_ifs <;> omega

/-- C10 (failing input): `sub` with minuend `val2 = 0` and subtrahend `val1 = 0x80000000`.
`subtract` returns `0x80000000`; the operands have different sign bits and the sign bit of the
result differs from that of the minuend, the signed difference `0 - (-2^31)` overflows, and yet
`setFlagsRegister` leaves OF (bit 6) clear, because its test `val2_signed > 0` excludes a zero
minuend. -/
theorem C10_OF_clear_on_zero_minus_int_min (s : State) :
    ∃ s₁ s₂, subtract s 2147483648 0 = some (2147483648, s₁) ∧
      setFlagsRegister s₁ 2147483648 0 2147483648 = some s₂ ∧
      s₂.FLAGS.testBit 6 = false ∧
      (Nat.testBit 0 31 ≠ Nat.testBit 2147483648 31 ∧
        Nat.testBit 2147483648 31 ≠ Nat.testBit 0 31) ∧
      2147483647 < toS32 0 - toS32 2147483648 := by
  have hl : subtractLoop (WORD_SIZE + 1) 2147483648 0 = some 2147483648 := by decide
  obtain ⟨s₂, hs, hbits, -⟩ :=
    setFlagsRegister_spec { s with isSubtract := true } 2147483648 0 2147483648
  refine ⟨{ s with isSubtract := true }, s₂, ?_, hs, ?_, by decide, by decide⟩
  · unfold subtract
    rw [hl]
    rfl
  · rw [hbits 6 (by decide)]
    simp [toS32]

/-! ## The opcode table -/

/-- C4: the 46 entries of `opcode_map` have pairwise distinct mnemonics and pairwise distinct
opcodes, and the two lookups are mutually inverse on the table: looking up the opcode of a table
mnemonic and then the mnemonic of that opcode gives the mnemonic back, and looking up the
mnemonic of a table opcode and then its opcode gives the opcode back. -/
theorem C4_opcode_map_lookups_inverse :
    opcode_map.length = TOTAL_ASSEMBLY_OPCODES ∧
    (opcode_map.map Prod.fst).Nodup ∧
    (opcode_map.map Prod.snd).Nodup ∧
    (∀ e ∈ opcode_map, getInstructionFromOpcode (getOpcodeFromInstruction e.1) = some e.1) ∧
    (∀ e ∈ opcode_map,
      (getInstructionFromOpcode e.2).map getOpcodeFromInstruction = some e.2) := by
  refine ⟨by decide, by decide, by decide, by decide, by decide⟩

/-- C5 (failing input): `not` is an entry of the category array `R_INSTR`, the assembler
accepts it, and `getOpcodeFromInstruction` returns `-1` for it because `opcode_map` has no
entry for `not`; every other category mnemonic has a table opcode. -/
theorem C5_not_has_no_opcode :
    "not" ∈ R_INSTR ∧ getOpcodeFromInstruction "not" = -1 ∧
    (∀ m ∈ MEM_INSTR ++ MEM_DISPLAY_INSTR ++ R_INSTR ++ I_INSTR ++ STACK_INSTR ++
        CONTROL_INSTR ++ MOV_INSTR ++ NO_OPERAND_INSTR,
      m ≠ "not" → getOpcodeFromInstruction m ∈ opcode_map.map Prod.snd) := by
  refine ⟨by decide, by decide, by decide⟩

/-! ## The codec at the inputs where it loses information -/

/-- C6 (failing input): the attr of `load r0, 0(r0+r0)1` (format `LOAD_STORE`, every register
0, offset 0, scale 1) is encoded as the all-zero word, the word on which the execution loop
halts. -/
theorem C6_load_r0_encodes_to_zero :
    encodeInstructionToBinary
      { format := .LOAD_STORE, instruction := "load", base_register := 0, index_register := 0,
        offset := 0, scale := 1, operand_register := 0, const_or_label := 0 } = 0 := by
  decide

/-- C1 (failing input): the attr of `load r1, 0(r2+r4)8` does not survive the round trip. The
encoder stores `scale / 2 = 4` in the two-bit scale field, so the bit lands in bit 14, the
lowest bit of the index register: the decoder returns scale 1 and index register 5. -/
theorem C1_scale_eight_not_round_trip :
    ∀ prev : instruction_attr,
      decodeInstructionFromBinary
        (encodeInstructionToBinary
          { format := .LOAD_STORE, instruction := "load", base_register := 2,
            index_register := 4, offset := 0, scale := 8, operand_register := 1,
            const_or_label := 0 }) prev =
      some { format := .LOAD_STORE, instruction := "load", base_register := 2,
             index_register := 5, offset := 0, scale := 1, operand_register := 1,
             const_or_label := prev.const_or_label } := by
  intro prev
  rfl

/-- C2 (failing input): the attr of `addi $5, 0(r1+r1)1` (format `IMM_MEM`) is encoded as
`0xC0000005`: the encoder shifts the already shifted base register, index register, scale and
offset a second time, so both registers leave the word. The decoder reads the word as the
`IMM_REG` instruction `addi $5, r0`. -/
theorem C2_imm_mem_registers_lost :
    encodeInstructionToBinary
      { format := .IMM_MEM, instruction := "addi", base_register := 1, index_register := 1,
        offset := 0, scale := 1, operand_register := 0, const_or_label := 5 } = 0xC0000005 ∧
    ∀ prev : instruction_attr,
      decodeInstructionFromBinary 0xC0000005 prev =
        some { format := .IMM_REG, instruction := "addi", base_register := 0,
               index_register := 0, offset := 0, scale := 1, operand_register := 0,
               const_or_label := 5 } := by
  refine ⟨by decide, fun prev => rfl⟩

/-! ## Memory access -/

theorem shl8_or_byte (r b : Nat) (hr : r < 16777216) (hb : b < 256) :
    shl32 r 8 ||| b = r * 256 + b := by
  unfold shl32
  have e : (r <<< 8) % 4294967296 = r * 256 := by omega
  rw [e]
  exact or_eq_add_of_low 8 _ _ (by omega) (by omega)

/-- The loop of `readFromMemory` on four bytes at an address that is not 0. -/
theorem readFromMemoryLoop_word (s : State) (A fuel : Nat) (hA1 : 1 ≤ A)
    (hA : A + 3 < 65536) (hfuel : 5 ≤ fuel)
    (hb : ∀ i, i < 4 → s.MEMORY (A + i) < 256) :
    readFromMemoryLoop s A fuel (A + 3) 0 = some (loadWord s.MEMORY A) := by
  obtain ⟨f, rfl⟩ : ∃ f, fuel = f + 5 := ⟨fuel - 5, by omega⟩
  have h0 := hb 0 (by decide)
  have h1 := hb 1 (by decide)
  have h2 := hb 2 (by decide)
  have h3 := hb 3 (by decide)
  rw [Nat.add_zero] at h0
  have e3 : (A + 3 + 4294967295) % 4294967296 = A + 2 := by omega
  have e2 : (A + 2 + 4294967295) % 4294967296 = A + 1 := by omega
  have e1 : (A + 1 + 4294967295) % 4294967296 = A := by omega
  have e0 : (A + 4294967295) % 4294967296 = A - 1 := by omega
  have c3 : A + 3 < MEMORY_SIZE := hA
  have c2 : A + 2 < MEMORY_SIZE := by unfold MEMORY_SIZE; omega
  have c1 : A + 1 < MEMORY_SIZE := by unfold MEMORY_SIZE; omega
  have c0 : A < MEMORY_SIZE := by unfold MEMORY_SIZE; omega
  have n : ¬ (A - 1 ≥ A) := by omega
  have r3 : shl32 0 8 ||| s.MEMORY (A + 3) = s.MEMORY (A + 3) := by
    rw [shl8_or_byte 0 _ (by decide) h3]; omega
  have r2 := shl8_or_byte (s.MEMORY (A + 3)) (s.MEMORY (A + 2)) (by omega) h2
  have r1 := shl8_or_byte (s.MEMORY (A + 3) * 256 + s.MEMORY (A + 2)) (s.MEMORY (A + 1))
    (by omega) h1
  have r0 := shl8_or_byte
    ((s.MEMORY (A + 3) * 256 + s.MEMORY (A + 2)) * 256 + s.MEMORY (A + 1)) (s.MEMORY A)
    (by omega) h0
  rw [readFromMemoryLoop, if_pos (by omega), if_pos c3]
  dsimp only
  rw [e3, r3, readFromMemoryLoop, if_pos (by omega), if_pos c2]
  dsimp only
  rw [e2, r2, readFromMemoryLoop, if_pos (by omega), if_pos c1]
  dsimp only
  rw [e1, r1, readFromMemoryLoop, if_pos (by omega), if_pos c0]
  dsimp only
  rw [e0, r0, readFromMemoryLoop, if_neg n]
  unfold loadWord
  rw [Option.some.injEq]
  omega

theorem readFromMemory_word (s : State) (A : Nat) (hA1 : 1 ≤ A) (hA : A + 3 < 65536)
    (hb : ∀ i, i < 4 → s.MEMORY (A + i) < 256) :
    readFromMemory s A NUM_BYTES_IN_WORD = some (loadWord s.MEMORY A) := by
  unfold readFromMemory
  have e : (A + toU32 (NUM_BYTES_IN_WORD : Nat) + 4294967295) % 4294967296 = A + 3 := by
    have : toU32 (NUM_BYTES_IN_WORD : Nat) = 4 := by decide
    rw [this]; omega
  rw [e]
  exact readFromMemoryLoop_word s A _ hA1 hA (by unfold MEMORY_SIZE; omega) hb

/-- The function `writeIntoMemory` on the four bytes of a word. -/
theorem writeIntoMemory_word (s : State) (A w : Nat) (hA : A + 3 < 65536) :
    writeIntoMemory s A NUM_BYTES_IN_WORD (wordBytes w)
      = some { s with MEMORY := storeWord s.MEMORY A w } := by
  have c3 : A + 3 < MEMORY_SIZE := hA
  have c2 : A + 2 < MEMORY_SIZE := by unfold MEMORY_SIZE; omega
  have c1 : A + 1 < MEMORY_SIZE := by unfold MEMORY_SIZE; omega
  have c0 : A < MEMORY_SIZE := by unfold MEMORY_SIZE; omega
  have e1 : (A + 1) % 4294967296 = A + 1 := by omega
  have e2 : (A + 1 + 1) % 4294967296 = A + 2 := by omega
  have e3 : (A + 2 + 1) % 4294967296 = A + 3 := by omega
  unfold writeIntoMemory
  show writeIntoMemoryLoop 4 (wordBytes w) 5 0 A s = _
  simp only [writeIntoMemoryLoop, wordBytes]
  simp [c0, c1, c2, c3, e1, e2, e3, storeWord]

theorem storeWord_bytes (M : Nat → Nat) (A w : Nat) :
    storeWord M A w A = w % 256 ∧ storeWord M A w (A + 1) = (w >>> 8) % 256 ∧
    storeWord M A w (A + 2) = (w >>> 16) % 256 ∧ storeWord M A w (A + 3) = (w >>> 24) % 256 := by
  unfold storeWord
  refine ⟨?_, ?_, ?_, ?_⟩ <;> simp [Function.update]

theorem storeWord_other (M : Nat → Nat) (A w a : Nat) (h : a < A ∨ A + 3 < a) :
    storeWord M A w a = M a := by
  unfold storeWord
  have h0 : a ≠ A := by omega
  have h1 : a ≠ A + 1 := by omega
  have h2 : a ≠ A + 2 := by omega
  have h3 : a ≠ A + 3 := by omega
  simp [Function.update, h0, h1, h2, h3]

theorem storeWord_lt (M : Nat → Nat) (A w : Nat) :
    ∀ i, i < 4 → storeWord M A w (A + i) < 256 := by
  obtain ⟨h0, h1, h2, h3⟩ := storeWord_bytes M A w
  intro i hi
  have : i = 0 ∨ i = 1 ∨ i = 2 ∨ i = 3 := by omega
  rcases this with rfl | rfl | rfl | rfl
  · rw [Nat.add_zero, h0]; omega
  · rw [h1]; omega
  · rw [h2]; omega
  · rw [h3]; omega

theorem loadWord_storeWord (M : Nat → Nat) (A w : Nat) (hw : w < 4294967296) :
    loadWord (storeWord M A w) A = w := by
  obtain ⟨h0, h1, h2, h3⟩ := storeWord_bytes M A w
  unfold loadWord
  rw [h0, h1, h2, h3]
  omega

/-- The word at `A` only depends on the four bytes at `A` .. `A + 3`. -/
theorem loadWord_congr (M N : Nat → Nat) (A : Nat) (h : ∀ i, i < 4 → N (A + i) = M (A + i)) :
    loadWord N A = loadWord M A := by
  have h0 := h 0 (by decide)
  rw [Nat.add_zero] at h0
  unfold loadWord
  rw [h0, h 1 (by decide), h 2 (by decide), h 3 (by decide)]

/-- C19: for every address `A` with `A + 3 < 65536` and every 32-bit word `w`, writing `w` at
`A` with `writeIntoMemory` (4 bytes), and so with `storeRegister` from a register that holds
`w`, returns and sets `MEMORY[A + i]` to byte `i` of `w` for `i = 0..3`, least significant byte
first, leaving every other byte of memory (and every register) unchanged. -/
theorem C19_little_endian_store (s : State) (A w : Nat) (hA : A + 3 < 65536)
    (hw : w < 4294967296) :
    ∃ s', writeIntoMemory s A NUM_BYTES_IN_WORD (wordBytes w) = some s' ∧
      (∀ r : Int, isRegister r → s.GPRS r.toNat = w → storeRegister s (.gpr r) A = some s') ∧
      s'.MEMORY A = w % 256 ∧ s'.MEMORY (A + 1) = w / 256 % 256 ∧
      s'.MEMORY (A + 2) = w / 65536 % 256 ∧ s'.MEMORY (A + 3) = w / 16777216 ∧
      (∀ a, a < A ∨ A + 3 < a → s'.MEMORY a = s.MEMORY a) ∧
      s'.GPRS = s.GPRS ∧ s'.PC = s.PC ∧ s'.FLAGS = s.FLAGS := by
  obtain ⟨h0, h1, h2, h3⟩ := storeWord_bytes s.MEMORY A w
  refine ⟨_, writeIntoMemory_word s A w hA, ?_, ?_, ?_, ?_, ?_, ?_, rfl, rfl, rfl⟩
  · intro r hr hv
    unfold storeRegister readLoc
    have hr' : 0 ≤ r ∧ r < (MAX_GPRS : Int) := ⟨hr.1, by have := hr.2; unfold MAX_GPRS; omega⟩
    simp only [hr', and_self, if_true, hv]
    exact writeIntoMemory_word s A w hA
  · exact h0
  · show storeWord s.MEMORY A w (A + 1) = _
    rw [h1]; omega
  · show storeWord s.MEMORY A w (A + 2) = _
    rw [h2]; omega
  · show storeWord s.MEMORY A w (A + 3) = _
    rw [h3]; omega
  · intro a ha
    exact storeWord_other s.MEMORY A w a ha

/-- C19 at the word `0x12345678` and the address 10240: the bytes are `78 56 34 12`. -/
theorem C19_little_endian_store_witness :
    (10240 : Nat) + 3 < 65536 ∧ (0x12345678 : Nat) < 4294967296 ∧
    ∃ s', writeIntoMemory zeroState 10240 NUM_BYTES_IN_WORD (wordBytes 0x12345678) = some s' ∧
      s'.MEMORY 10240 = 0x78 ∧ s'.MEMORY 10241 = 0x56 ∧ s'.MEMORY 10242 = 0x34 ∧
      s'.MEMORY 10243 = 0x12 := by
  refine ⟨by decide, by decide, ?_⟩
  obtain ⟨s', h, -, h0, h1, h2, h3, -⟩ :=
    C19_little_endian_store zeroState 10240 0x12345678 (by decide) (by decide)
  exact ⟨s', h, h0, h1, h2, h3⟩

/-! ## The stack -/

theorem executePush_eq (s : State) (arg1 : Loc) (v : Nat) (hv : readLoc s arg1 = some v)
    (h4 : 4 ≤ s.GPRS 14) (hSP : s.GPRS 14 ≤ 65536) :
    executePush s arg1 =
      some { s with GPRS := Function.update s.GPRS 14 (s.GPRS 14 - 4)
                    MEMORY := storeWord s.MEMORY (s.GPRS 14 - 4) v } := by
  have e : (s.GPRS 14 + 4294967292) % 4294967296 = s.GPRS 14 - 4 := by omega
  unfold executePush
  simp only [hv, Option.bind_eq_bind, Option.some_bind, e, Function.update_same]
  rw [writeIntoMemory_word _ _ _ (by show s.GPRS 14 - 4 + 3 < 65536; omega)]

theorem executePop_eq (s s1 : State) (reg : Loc) (h1 : 1 ≤ s.GPRS 14)
    (hSP : s.GPRS 14 + 3 < 65536) (hb : ∀ i, i < 4 → s.MEMORY (s.GPRS 14 + i) < 256)
    (hw : writeLoc s reg (loadWord s.MEMORY (s.GPRS 14)) = some s1) :
    executePop s reg =
      some { s1 with GPRS := Function.update s1.GPRS 14 ((s1.GPRS 14 + 4) % 4294967296) } := by
  unfold executePop
  simp only [readFromMemory_word s _ h1 hSP hb, Option.bind_eq_bind, Option.some_bind, hw]

theorem readLoc_gpr (s : State) (r : Int) (hr : isRegister r) :
    readLoc s (.gpr r) = some (s.GPRS r.toNat) := by
  have hr' : 0 ≤ r ∧ r < (MAX_GPRS : Int) := ⟨hr.1, by have := hr.2; unfold MAX_GPRS; omega⟩
  simp only [readLoc]
  rw [if_pos hr']

theorem writeLoc_gpr (s : State) (r : Int) (v : Nat) (hr : isRegister r) :
    writeLoc s (.gpr r) v = some { s with GPRS := Function.update s.GPRS r.toNat v } := by
  have hr' : 0 ≤ r ∧ r < (MAX_GPRS : Int) := ⟨hr.1, by have := hr.2; unfold MAX_GPRS; omega⟩
  simp only [writeLoc]
  rw [if_pos hr']

/-- What `push r` does, whatever the region of the target address. -/
theorem executeStackInstructions_push (s : State) (a : instruction_attr)
    (hf : a.format = .STACK_REG) (hm : a.instruction = "push")
    (hr : isRegister a.operand_register) (h4 : 4 ≤ s.GPRS 14) (hSP : s.GPRS 14 ≤ 65536) :
    executeStackInstructions s a =
      some { s with GPRS := Function.update s.GPRS 14 (s.GPRS 14 - 4)
                    MEMORY := storeWord s.MEMORY (s.GPRS 14 - 4)
                      (s.GPRS a.operand_register.toNat) } := by
  unfold executeStackInstructions
  simp only [hf, hm, onCommand, Option.bind_eq_bind, Option.some_bind, if_true,
    executePush_eq s _ _ (readLoc_gpr s _ hr) h4 hSP]
  rfl

/-- What `pop r` does for a register other than R14, whatever the region of the source
address. -/
theorem executeStackInstructions_pop (s : State) (a : instruction_attr)
    (hf : a.format = .STACK_REG) (hm : a.instruction = "pop")
    (hr : isRegister a.operand_register) (h14 : a.operand_register ≠ 14)
    (h1 : 1 ≤ s.GPRS 14) (hSP : s.GPRS 14 + 3 < 65536)
    (hb : ∀ i, i < 4 → s.MEMORY (s.GPRS 14 + i) < 256) :
    executeStackInstructions s a =
      some { s with GPRS := Function.update
                      (Function.update s.GPRS a.operand_register.toNat
                        (loadWord s.MEMORY (s.GPRS 14)))
                      14 (s.GPRS 14 + 4) } := by
  have hne : (14 : Nat) ≠ a.operand_register.toNat := by
    have := hr.1
    omega
  have e : (s.GPRS 14 + 4) % 4294967296 = s.GPRS 14 + 4 := by omega
  unfold executeStackInstructions
  have hp := executePop_eq s _ (.gpr a.operand_register) h1 hSP hb (writeLoc_gpr s _ _ hr)
  have hn : ("pop" = "push") = False := eq_false (by decide)
  simp only [hf, hm, onCommand, Option.bind_eq_bind, Option.some_bind, if_true, if_false, hn, hp]
  simp [Function.update_noteq hne, e]

theorem jumpTarget_eq (s : State) (k : Int) :
    jumpTarget s k = (((s.PC : Int) + 4 * k) % 4294967296).toNat := by
  unfold jumpTarget toU32
  omega

theorem executeCall_eq (s : State) (k : Int) (h4 : 4 ≤ s.GPRS 14) (hSP : s.GPRS 14 ≤ 65536) :
    executeCall s k =
      some { s with GPRS := Function.update s.GPRS 14 (s.GPRS 14 - 4)
                    MEMORY := storeWord s.MEMORY (s.GPRS 14 - 4) s.PC
                    PC := jumpTarget s k } := by
  unfold executeCall
  have hv : readLoc s .pc = some s.PC := rfl
  simp only [executePush_eq s _ _ hv h4 hSP, Option.bind_eq_bind, Option.some_bind]
  rfl

/-- C14: `call` and `ret` are inverse on PC and SP. For every state with `5 ≤ SP ≤ 65536` and
every offset `k`, `call` executes, decrements SP by 4, stores the (post-increment) PC at the
new SP and sets PC to `(PC + 4 * k) mod 2^32`; a `ret` executed in any later state with the same
SP and the same four bytes at SP (no stack change in between) returns PC to the address after
the call and SP to its value before the call. PC is a 32-bit word. -/
theorem C14_call_ret_inverse (s : State) (callAttr retAttr : instruction_attr)
    (hc : callAttr.instruction = "call") (hr : retAttr.instruction = "ret")
    (h5 : 5 ≤ s.GPRS 14) (hSP : s.GPRS 14 ≤ 65536) (hPC : s.PC < 4294967296) :
    ∃ s1, executeControlTransferInstructions s callAttr = some s1 ∧
      s1.GPRS 14 = s.GPRS 14 - 4 ∧
      loadWord s1.MEMORY (s1.GPRS 14) = s.PC ∧
      s1.PC = (((s.PC : Int) + 4 * callAttr.const_or_label) % 4294967296).toNat ∧
      ∀ t : State, t.GPRS 14 = s1.GPRS 14 →
        (∀ i, i < 4 → t.MEMORY (s1.GPRS 14 + i) = s1.MEMORY (s1.GPRS 14 + i)) →
        ∃ s2, executeNoOperandInstructions t retAttr = some s2 ∧
          s2.PC = s.PC ∧ s2.GPRS 14 = s.GPRS 14 := by
  have e1 : executeControlTransferInstructions s callAttr =
      some { s with GPRS := Function.update s.GPRS 14 (s.GPRS 14 - 4)
                    MEMORY := storeWord s.MEMORY (s.GPRS 14 - 4) s.PC
                    PC := jumpTarget s callAttr.const_or_label } := by
    unfold executeControlTransferInstructions
    simp [onCommand, hc, executeCall_eq s _ (by omega : 4 ≤ s.GPRS 14) hSP]
  refine ⟨_, e1, ?_, ?_, ?_, ?_⟩
  · simp
  · simp only [Function.update_same]
    exact loadWord_storeWord _ _ _ hPC
  · exact jumpTarget_eq s _
  · intro t hsp hmem
    simp only [Function.update_same] at hsp hmem
    have hb : ∀ i, i < 4 → t.MEMORY (t.GPRS 14 + i) < 256 := by
      intro i hi
      rw [hsp, hmem i hi]
      exact storeWord_lt _ _ _ i hi
    have hw : writeLoc t .pc (loadWord t.MEMORY (t.GPRS 14)) =
        some { t with PC := loadWord t.MEMORY (t.GPRS 14) } := rfl
    have hp := executePop_eq t _ .pc (by omega) (by omega) hb hw
    have hl : loadWord t.MEMORY (t.GPRS 14) = s.PC := by
      rw [hsp, loadWord_congr _ _ _ hmem]
      exact loadWord_storeWord _ _ _ hPC
    have hfun : executeNoOperandInstructions t retAttr = executePop t .pc := by
      unfold executeNoOperandInstructions onCommand executeRet
      rw [if_pos hr]
    rw [← hfun] at hp
    refine ⟨_, hp, ?_, ?_⟩
    · exact hl
    · dsimp only
      rw [Function.update_same]
      omega

/-- C15: stack LIFO. For every state with `9 ≤ SP ≤ 65536`, source registers `x`, `y` other
than R14 and distinct destination registers `a`, `b` other than R14, the four instructions
`push x; push y; pop a; pop b` all execute, and afterwards `GPR[a]` is the old `GPR[y]`,
`GPR[b]` is the old `GPR[x]` and SP has its original value. The registers hold 32-bit words. -/
theorem C15_stack_lifo (s : State) (px py pa pb : instruction_attr)
    (hfx : px.format = .STACK_REG) (hmx : px.instruction = "push")
    (hfy : py.format = .STACK_REG) (hmy : py.instruction = "push")
    (hfa : pa.format = .STACK_REG) (hma : pa.instruction = "pop")
    (hfb : pb.format = .STACK_REG) (hmb : pb.instruction = "pop")
    (hx : isRegister px.operand_register) (hy : isRegister py.operand_register)
    (ha : isRegister pa.operand_register) (hb : isRegister pb.operand_register)
    (hx14 : px.operand_register ≠ 14) (hy14 : py.operand_register ≠ 14)
    (ha14 : pa.operand_register ≠ 14) (hb14 : pb.operand_register ≠ 14)
    (hab : pa.operand_register ≠ pb.operand_register)
    (h9 : 9 ≤ s.GPRS 14) (hSP : s.GPRS 14 ≤ 65536)
    (hvx : s.GPRS px.operand_register.toNat < 4294967296)
    (hvy : s.GPRS py.operand_register.toNat < 4294967296) :
    ∃ s1 s2 s3 s4,
      executeStackInstructions s px = some s1 ∧ executeStackInstructions s1 py = some s2 ∧
      executeStackInstructions s2 pa = some s3 ∧ executeStackInstructions s3 pb = some s4 ∧
      s4.GPRS pa.operand_register.toNat = s.GPRS py.operand_register.toNat ∧
      s4.GPRS pb.operand_register.toNat = s.GPRS px.operand_register.toNat ∧
      s4.GPRS 14 = s.GPRS 14 := by
  have nx : px.operand_register.toNat ≠ 14 := by have := hx.1; omega
  have ny : py.operand_register.toNat ≠ 14 := by have := hy.1; omega
  have na : pa.operand_register.toNat ≠ 14 := by have := ha.1; omega
  have nb : pb.operand_register.toNat ≠ 14 := by have := hb.1; omega
  have nab : pa.operand_register.toNat ≠ pb.operand_register.toNat := by
    have := ha.1
    have := hb.1
    omega
  -- push x
  have e1 := executeStackInstructions_push s px hfx hmx hx (by omega) hSP
  generalize hs1 : ({ s with GPRS := Function.update s.GPRS 14 (s.GPRS 14 - 4)
                             MEMORY := storeWord s.MEMORY (s.GPRS 14 - 4)
                               (s.GPRS px.operand_register.toNat) } : State) = s1 at e1
  have g1 : s1.GPRS = Function.update s.GPRS 14 (s.GPRS 14 - 4) := by rw [← hs1]
  have m1 : s1.MEMORY = storeWord s.MEMORY (s.GPRS 14 - 4) (s.GPRS px.operand_register.toNat) := by
    rw [← hs1]
  have sp1 : s1.GPRS 14 = s.GPRS 14 - 4 := by rw [g1, Function.update_same]
  -- push y
  have e2 := executeStackInstructions_push s1 py hfy hmy hy (by omega) (by omega)
  generalize hs2 : ({ s1 with GPRS := Function.update s1.GPRS 14 (s1.GPRS 14 - 4)
                              MEMORY := storeWord s1.MEMORY (s1.GPRS 14 - 4)
                                (s1.GPRS py.operand_register.toNat) } : State) = s2 at e2
  have g2 : s2.GPRS = Function.update s1.GPRS 14 (s1.GPRS 14 - 4) := by rw [← hs2]
  have m2 : s2.MEMORY = storeWord s1.MEMORY (s1.GPRS 14 - 4) (s1.GPRS py.operand_register.toNat) := by
    rw [← hs2]
  have vy1 : s1.GPRS py.operand_register.toNat = s.GPRS py.operand_register.toNat := by
    rw [g1, Function.update_noteq ny]
  have sp2 : s2.GPRS 14 = s.GPRS 14 - 8 := by rw [g2, Function.update_same, sp1]; omega
  rw [vy1, sp1] at m2
  -- the two words on the stack
  have top2 : loadWord s2.MEMORY (s2.GPRS 14) = s.GPRS py.operand_register.toNat := by
    rw [m2, sp2]
    have : s.GPRS 14 - 4 - 4 = s.GPRS 14 - 8 := by omega
    rw [this]
    exact loadWord_storeWord _ _ _ hvy
  have below2 : ∀ i, i < 4 → s2.MEMORY (s.GPRS 14 - 4 + i) = s1.MEMORY (s.GPRS 14 - 4 + i) := by
    intro i hi
    rw [m2]
    exact storeWord_other _ _ _ _ (by omega)
  have next2 : loadWord s2.MEMORY (s.GPRS 14 - 4) = s.GPRS px.operand_register.toNat := by
    rw [loadWord_congr _ _ _ below2, m1]
    exact loadWord_storeWord _ _ _ hvx
  have b2 : ∀ i, i < 4 → s2.MEMORY (s2.GPRS 14 + i) < 256 := by
    intro i hi
    rw [m2, sp2]
    have : s.GPRS 14 - 4 - 4 = s.GPRS 14 - 8 := by omega
    rw [this]
    exact storeWord_lt _ _ _ i hi
  -- pop a
  have e3 := executeStackInstructions_pop s2 pa hfa hma ha ha14 (by omega) (by omega) b2
  rw [top2] at e3
  generalize hs3 : ({ s2 with GPRS := (Function.update
                      (Function.update s2.GPRS pa.operand_register.toNat
                        (s.GPRS py.operand_register.toNat)) 14 (s2.GPRS 14 + 4)) } : State)
    = s3 at e3
  have g3 : s3.GPRS = Function.update
      (Function.update s2.GPRS pa.operand_register.toNat (s.GPRS py.operand_register.toNat))
      14 (s2.GPRS 14 + 4) := by rw [← hs3]
  have m3 : s3.MEMORY = s2.MEMORY := by rw [← hs3]
  have sp3 : s3.GPRS 14 = s.GPRS 14 - 4 := by rw [g3, Function.update_same, sp2]; omega
  have b3 : ∀ i, i < 4 → s3.MEMORY (s3.GPRS 14 + i) < 256 := by
    intro i hi
    rw [m3, sp3, below2 i hi, m1]
    exact storeWord_lt _ _ _ i hi
  -- pop b
  have e4 := executeStackInstructions_pop s3 pb hfb hmb hb hb14 (by omega) (by omega) b3
  have top3 : loadWord s3.MEMORY (s3.GPRS 14) = s.GPRS px.operand_register.toNat := by
    rw [m3, sp3, next2]
  rw [top3] at e4
  refine ⟨s1, s2, s3, _, e1, e2, e3, e4, ?_, ?_, ?_⟩
  · show Function.update (Function.update s3.GPRS _ _) 14 _ _ = _
    rw [Function.update_noteq na, Function.update_noteq nab, g3, Function.update_noteq na,
      Function.update_same]
  · show Function.update (Function.update s3.GPRS _ _) 14 _ _ = _
    rw [Function.update_noteq nb, Function.update_same]
  · dsimp only
    rw [Function.update_same, sp3]
    omega

/-! ## Jumps -/

theorem and_two_pow_ne_zero (F k : Nat) : (F &&& 2 ^ k ≠ 0) ↔ F.testBit k = true := by
  constructor
  · intro h
    by_contra hb
    apply h
    apply Nat.eq_of_testBit_eq
    intro i
    rw [Nat.testBit_and, Nat.testBit_two_pow, Nat.zero_testBit]
    by_cases hki : k = i
    · subst hki
      simp [hb]
    · simp [hki]
  · intro hb h
    have := congrArg (fun x => x.testBit k) h
    simp [Nat.testBit_and, Nat.testBit_two_pow, hb] at this

theorem getFlagStatus_ZF (s : State) :
    getFlagStatusFromFlagsRegister s .ZF = s.FLAGS.testBit 2 := by
  unfold getFlagStatusFromFlagsRegister
  simp only [HEX_ZF_eq]
  by_cases h : s.FLAGS.testBit 2 = true
  · rw [if_pos ((and_two_pow_ne_zero _ 2).2 h), h]
  · rw [if_neg (fun hc => h ((and_two_pow_ne_zero _ 2).1 hc))]
    simpa using h

theorem getFlagStatus_SF (s : State) :
    getFlagStatusFromFlagsRegister s .SF = s.FLAGS.testBit 7 := by
  unfold getFlagStatusFromFlagsRegister
  simp only [HEX_SF_eq]
  by_cases h : s.FLAGS.testBit 7 = true
  · rw [if_pos ((and_two_pow_ne_zero _ 7).2 h), h]
  · rw [if_neg (fun hc => h ((and_two_pow_ne_zero _ 7).1 hc))]
    simpa using h

theorem getFlagStatus_OF (s : State) :
    getFlagStatusFromFlagsRegister s .OF = s.FLAGS.testBit 6 := by
  unfold getFlagStatusFromFlagsRegister
  simp only [HEX_OF_eq]
  by_cases h : s.FLAGS.testBit 6 = true
  · rw [if_pos ((and_two_pow_ne_zero _ 6).2 h), h]
  · rw [if_neg (fun hc => h ((and_two_pow_ne_zero _ 6).1 hc))]
    simpa using h

/-- What the dispatcher of the control instructions does for a jump: `PC` moves to the target
when the condition of the mnemonic holds, and nothing else changes. -/
theorem executeControlTransfer_jump (s : State) (a : instruction_attr)
    (hm : a.instruction ∈ jumpMnemonics) :
    executeControlTransferInstructions s a =
      some (if jumpTaken a.instruction s.FLAGS = true then
              { s with PC := jumpTarget s a.const_or_label }
            else s) := by
  unfold executeControlTransferInstructions
  simp only [jumpMnemonics, List.mem_cons, List.mem_singleton, List.not_mem_nil, or_false] at hm
  rcases hm with h | h | h | h | h | h | h | h | h <;>
    simp [h, onCommand, jumpTaken, executeJmp, executeJE, executeJNE, executeJS, executeJNS,
      executeJG, executeJGE, executeJL, executeJLE, getFlagStatus_ZF, getFlagStatus_SF,
      getFlagStatus_OF] <;>
    (split_ifs <;> rfl)

/-- C13: for every jump mnemonic, every decoded offset `k` and every state (so every `FLAGS`
value), the dispatcher of the control instructions returns; `PC` becomes
`(PC + 4 * k) mod 2^32` exactly when the condition of the mnemonic holds (jmp always; je ZF;
jne not ZF; js SF; jns not SF; jg not ZF and not (SF xor OF); jge not (SF xor OF); jl SF xor OF;
jle (SF xor OF) or ZF) and keeps its value otherwise; the general-purpose registers and the
memory are unchanged in both cases. -/
theorem C13_jump_conditions (s : State) (a : instruction_attr)
    (hm : a.instruction ∈ jumpMnemonics) :
    ∃ s', executeControlTransferInstructions s a = some s' ∧
      s'.PC = (if jumpTaken a.instruction s.FLAGS = true then
                (((s.PC : Int) + 4 * a.const_or_label) % 4294967296).toNat
               else s.PC) ∧
      s'.GPRS = s.GPRS ∧ s'.MEMORY = s.MEMORY ∧
      (jumpTaken "jmp" s.FLAGS = true) ∧
      (jumpTaken "je" s.FLAGS = s.FLAGS.testBit 2) ∧
      (jumpTaken "jne" s.FLAGS = !s.FLAGS.testBit 2) ∧
      (jumpTaken "js" s.FLAGS = s.FLAGS.testBit 7) ∧
      (jumpTaken "jns" s.FLAGS = !s.FLAGS.testBit 7) ∧
      (jumpTaken "jg" s.FLAGS =
        (!s.FLAGS.testBit 2 && !(s.FLAGS.testBit 7 ^^ s.FLAGS.testBit 6))) ∧
      (jumpTaken "jge" s.FLAGS = !(s.FLAGS.testBit 7 ^^ s.FLAGS.testBit 6)) ∧
      (jumpTaken "jl" s.FLAGS = (s.FLAGS.testBit 7 ^^ s.FLAGS.testBit 6)) ∧
      (jumpTaken "jle" s.FLAGS =
        ((s.FLAGS.testBit 7 ^^ s.FLAGS.testBit 6) || s.FLAGS.testBit 2)) := by
  refine ⟨_, executeControlTransfer_jump s a hm, ?_, ?_, ?_, rfl, rfl, rfl, rfl, rfl, rfl, rfl,
    rfl, rfl⟩
  · by_cases h : jumpTaken a.instruction s.FLAGS = true
    · rw [if_pos h, if_pos h]
      exact jumpTarget_eq s _
    · rw [if_neg h, if_neg h]
  · split_ifs <;> rfl
  · split_ifs <;> rfl

/-- C13 at `jl` with offset -2 in a state where SF is set and OF is clear: the jump is taken. -/
theorem C13_jump_conditions_witness :
    "jl" ∈ jumpMnemonics ∧
    ∃ s', executeControlTransferInstructions
        { zeroState with FLAGS := 0x80, PC := 1036 } (controlInstr "jl" (-2)) = some s' ∧
      s'.PC = 1028 := by
  refine ⟨by decide, ?_⟩
  obtain ⟨s', h, hpc, -⟩ := C13_jump_conditions { zeroState with FLAGS := 0x80, PC := 1036 }
    (controlInstr "jl" (-2)) (by decide)
  refine ⟨s', h, ?_⟩
  rw [hpc]
  decide

/-! ## Instructions that leave `FLAGS` alone -/

theorem writeLoc_FLAGS (s s' : State) (l : Loc) (v : Nat) (h : writeLoc s l v = some s') :
    s'.FLAGS = s.FLAGS := by
  cases l <;> simp only [writeLoc] at h
  · split_ifs at h
    cases h
    rfl
  · split_ifs at h
    cases h
    rfl
  · cases h
    rfl

theorem writeIntoMemoryLoop_FLAGS (num_bytes : Int) (data : List Nat) :
    ∀ (fuel : Nat) (i : Int) (index : Nat) (s s' : State),
      writeIntoMemoryLoop num_bytes data fuel i index s = some s' → s'.FLAGS = s.FLAGS := by
  intro fuel
  induction fuel with
  | zero => intro i index s s' h; simp [writeIntoMemoryLoop] at h
  | succ fuel ih =>
    intro i index s s' h
    rw [writeIntoMemoryLoop] at h
    split_ifs at h with h1 h2
    · split at h
      · cases h
      · have e := ih _ _ _ _ h
        exact e
    · cases h
      rfl

theorem writeIntoMemory_FLAGS (s s' : State) (A : Nat) (n : Int) (data : List Nat)
    (h : writeIntoMemory s A n data = some s') : s'.FLAGS = s.FLAGS :=
  writeIntoMemoryLoop_FLAGS n data _ _ _ _ _ h

theorem onCommand_FLAGS (command name : String) (f : State → Option State) (s s' : State)
    (hf : ∀ t t', f t = some t' → t'.FLAGS = t.FLAGS)
    (h : onCommand command name f s = some s') : s'.FLAGS = s.FLAGS := by
  unfold onCommand at h
  split_ifs at h
  · exact hf _ _ h
  · cases h
    rfl

theorem executeLoad_FLAGS (s s' : State) (r : Int) (A : Nat)
    (h : executeLoad s r A = some s') : s'.FLAGS = s.FLAGS := by
  unfold executeLoad loadRegister at h
  simp only [Option.bind_eq_bind, Option.bind_eq_some] at h
  obtain ⟨s1, h1, v, -, h3⟩ := h
  cases h3
  split at h1
  · cases h1
  · have e := writeLoc_FLAGS _ _ _ _ h1
    exact e

theorem executeStore_FLAGS (s s' : State) (r : Int) (A : Nat)
    (h : executeStore s r A = some s') : s'.FLAGS = s.FLAGS := by
  unfold executeStore storeRegister at h
  simp only [Option.bind_eq_bind, Option.bind_eq_some] at h
  obtain ⟨s1, h1, v, -, h3⟩ := h
  cases h3
  split at h1
  · cases h1
  · have e := writeIntoMemory_FLAGS _ _ _ _ _ h1
    exact e

theorem executePush_FLAGS (s s' : State) (l : Loc)
    (h : executePush s l = some s') : s'.FLAGS = s.FLAGS := by
  unfold executePush at h
  rw [Option.bind_eq_bind, Option.bind_eq_some] at h
  obtain ⟨v, -, h2⟩ := h
  have e := writeIntoMemory_FLAGS _ _ _ _ _ h2
  exact e

theorem executePop_FLAGS (s s' : State) (l : Loc)
    (h : executePop s l = some s') : s'.FLAGS = s.FLAGS := by
  unfold executePop at h
  simp only [Option.bind_eq_bind, Option.bind_eq_some] at h
  obtain ⟨v, -, s1, h2, h3⟩ := h
  cases h3
  have e := writeLoc_FLAGS _ _ _ _ h2
  exact e

theorem executeMemoryTypeInstructions_FLAGS (s s' : State) (a : instruction_attr)
    (h : executeMemoryTypeInstructions s a = some s') : s'.FLAGS = s.FLAGS := by
  unfold executeMemoryTypeInstructions at h
  simp only [Option.bind_eq_bind, Option.bind_eq_some] at h
  obtain ⟨A, -, s1, h1, s2, h2, h3⟩ := h
  have e1 := onCommand_FLAGS _ _ _ _ _ (fun t t' ht => executeLoad_FLAGS t t' _ _ ht) h1
  have e2 := onCommand_FLAGS _ _ _ _ _ (fun t t' ht => executeStore_FLAGS t t' _ _ ht) h2
  have e3 := onCommand_FLAGS _ _ _ _ _
    (fun t t' ht => writeLoc_FLAGS t t' _ _ (by unfold executeLea at ht; exact ht)) h3
  rw [e3, e2, e1]

theorem executeStackInstructions_FLAGS (s s' : State) (a : instruction_attr)
    (h : executeStackInstructions s a = some s') : s'.FLAGS = s.FLAGS := by
  unfold executeStackInstructions at h
  split at h
  swap
  · simp at h
  simp only [Option.bind_eq_bind, Option.bind_eq_some, Option.some_bind] at h
  obtain ⟨s1, h1, h2⟩ := h
  have e1 := onCommand_FLAGS _ _ _ _ _ (fun t t' ht => executePush_FLAGS t t' _ ht) h1
  have e2 := onCommand_FLAGS _ _ _ _ _ (fun t t' ht => executePop_FLAGS t t' _ ht) h2
  rw [e2, e1]

theorem executeMovInstructions_FLAGS (s s' : State) (a : instruction_attr)
    (h : executeMovInstructions s a = some s') : s'.FLAGS = s.FLAGS := by
  unfold executeMovInstructions at h
  simp only [Option.bind_eq_bind, Option.bind_eq_some] at h
  obtain ⟨s1, h1, h2⟩ := h
  have e1 := onCommand_FLAGS _ _ _ _ _
    (fun t t' ht => by
      unfold executeMov at ht
      simp only [Option.bind_eq_bind, Option.bind_eq_some] at ht
      obtain ⟨v, -, hw⟩ := ht
      exact writeLoc_FLAGS t t' _ _ hw) h1
  have e2 := onCommand_FLAGS _ _ _ _ _
    (fun t t' ht => writeLoc_FLAGS t t' _ _ (by unfold executeMovI at ht; exact ht)) h2
  rw [e2, e1]

theorem executeNoOperandInstructions_FLAGS (s s' : State) (a : instruction_attr)
    (h : executeNoOperandInstructions s a = some s') : s'.FLAGS = s.FLAGS := by
  unfold executeNoOperandInstructions at h
  exact onCommand_FLAGS _ _ _ _ _
    (fun t t' ht => executePop_FLAGS t t' _ (by unfold executeRet at ht; exact ht)) h

theorem jump_FLAGS (c : Bool) (t t' : State) (k : Int)
    (ht : (if c = true then some { t with PC := jumpTarget t k } else some t) = some t') :
    t'.FLAGS = t.FLAGS := by
  split_ifs at ht <;> cases ht <;> rfl

theorem executeControlTransferInstructions_FLAGS (s s' : State) (a : instruction_attr)
    (h : executeControlTransferInstructions s a = some s') : s'.FLAGS = s.FLAGS := by
  unfold executeControlTransferInstructions at h
  simp only [Option.bind_eq_bind, Option.bind_eq_some] at h
  obtain ⟨s0, h0, s1, h1, s2, h2, s3, h3, s4, h4, s5, h5, s6, h6, s7, h7, s8, h8, h9⟩ := h
  have e0 := onCommand_FLAGS _ _ _ _ _
    (fun t t' ht => by
      unfold executeCall at ht
      simp only [Option.bind_eq_bind, Option.bind_eq_some] at ht
      obtain ⟨u, hu, hv⟩ := ht
      cases hv
      exact executePush_FLAGS t u _ hu) h0
  have e1 := onCommand_FLAGS _ _ _ _ _
    (fun t t' ht => by unfold executeJmp at ht; cases ht; rfl) h1
  have e2 := onCommand_FLAGS _ _ _ _ _
    (fun t t' ht => by unfold executeJE at ht; exact jump_FLAGS _ t t' _ ht) h2
  have e3 := onCommand_FLAGS _ _ _ _ _
    (fun t t' ht => by unfold executeJNE at ht; exact jump_FLAGS _ t t' _ ht) h3
  have e4 := onCommand_FLAGS _ _ _ _ _
    (fun t t' ht => by unfold executeJS at ht; exact jump_FLAGS _ t t' _ ht) h4
  have e5 := onCommand_FLAGS _ _ _ _ _
    (fun t t' ht => by unfold executeJNS at ht; exact jump_FLAGS _ t t' _ ht) h5
  have e6 := onCommand_FLAGS _ _ _ _ _
    (fun t t' ht => by unfold executeJG at ht; exact jump_FLAGS _ t t' _ ht) h6
  have e7 := onCommand_FLAGS _ _ _ _ _
    (fun t t' ht => by unfold executeJGE at ht; exact jump_FLAGS _ t t' _ ht) h7
  have e8 := onCommand_FLAGS _ _ _ _ _
    (fun t t' ht => by unfold executeJL at ht; exact jump_FLAGS _ t t' _ ht) h8
  have e9 := onCommand_FLAGS _ _ _ _ _
    (fun t t' ht => by unfold executeJLE at ht; exact jump_FLAGS _ t t' _ ht) h9
  rw [e9, e8, e7, e6, e5, e4, e3, e2, e1, e0]

theorem nonArithmetic_categories : ∀ m ∈ nonArithmeticMnemonics,
    IsStringInStringArray m R_INSTR = false ∧ IsStringInStringArray m I_INSTR = false ∧
    IsStringInStringArray m MEM_DISPLAY_INSTR = false ∧
    (IsStringInStringArray m MEM_INSTR = true ∨ IsStringInStringArray m CONTROL_INSTR = true ∨
      IsStringInStringArray m STACK_INSTR = true ∨
      IsStringInStringArray m NO_OPERAND_INSTR = true ∨
      IsStringInStringArray m MOV_INSTR = true) := by
  decide

set_option maxHeartbeats 1000000 in
/-- The decoder gives a non-arithmetic mnemonic one of the formats whose executors never call
`setFlagsRegister`. -/
theorem decode_nonArithmetic_format (w : Nat) (prev a : instruction_attr)
    (hd : decodeInstructionFromBinary w prev = some a)
    (hm : a.instruction ∈ nonArithmeticMnemonics) :
    a.format = .LOAD_STORE ∨ a.format = .CONTROL_LABEL ∨ a.format = .STACK_REG ∨
    a.format = .NO_OPERAND ∨ a.format = .MOV_IMM_REG ∨ a.format = .MOV_REG_REG := by
  have hcat := nonArithmetic_categories _ hm
  unfold decodeInstructionFromBinary at hd
  simp only [] at hd
  split at hd
  · cases hd
  · rename_i command hc
    split_ifs at hd with h1 h2 h3 h4 h5 h6 h7 h8
    · have ha := Option.some.inj hd
      rw [← ha]
      simp
    · rw [Option.map_eq_some'] at hd
      obtain ⟨f, -, ha⟩ := hd
      rw [← ha] at hcat
      simp only [] at hcat
      rw [h2] at hcat
      cases hcat.1
    · have ha := Option.some.inj hd
      rw [← ha] at hcat
      simp only [] at hcat
      rw [h3] at hcat
      cases hcat.2.1
    · have ha := Option.some.inj hd
      rw [← ha] at hcat
      simp only [] at hcat
      rw [h3] at hcat
      cases hcat.2.1
    · have ha := Option.some.inj hd
      rw [← ha]
      simp
    · have ha := Option.some.inj hd
      rw [← ha]
      simp
    · have ha := Option.some.inj hd
      rw [← ha]
      simp
    · have ha := Option.some.inj hd
      rw [← ha] at hcat
      simp only [] at hcat
      rw [h8] at hcat
      cases hcat.2.2.1
    · have ha := Option.some.inj hd
      rw [← ha]
      simp
    · have ha := Option.some.inj hd
      rw [← ha]
      simp
    · have ha := Option.some.inj hd
      rw [← ha] at hcat
      simp only [] at hcat
      simp_all

/-- C12 (amended): non-arithmetic instructions leave `FLAGS` unchanged as long as they stay
inside the memory. For every fetched word that the decoder reads as a load, store, lea, mov,
movi, push, pop, jmp, je, jne, js, jns, jg, jge, jl, jle, call or ret, whenever the
instruction executes without a fatal fault and with every byte it reads or writes inside
`MEMORY` (and every register inside `GPRS`), `FLAGS` after the step equals `FLAGS` before
it. -/
theorem C12_non_arithmetic_keep_FLAGS (s s' : State) (w : Nat) (prev a : instruction_attr)
    (hd : decodeInstructionFromBinary w prev = some a)
    (hm : a.instruction ∈ nonArithmeticMnemonics)
    (h : executeFetched s w prev = some s') : s'.FLAGS = s.FLAGS := by
  have hfmt := decode_nonArithmetic_format w prev a hd hm
  unfold executeFetched at h
  simp only [hd] at h
  unfold executeDecoded at h
  rcases hfmt with hf | hf | hf | hf | hf | hf <;> simp only [hf] at h
  · have e := executeMemoryTypeInstructions_FLAGS _ _ _ h
    exact e
  · have e := executeControlTransferInstructions_FLAGS _ _ _ h
    exact e
  · have e := executeStackInstructions_FLAGS _ _ _ h
    exact e
  · have e := executeNoOperandInstructions_FLAGS _ _ _ h
    exact e
  · have e := executeMovInstructions_FLAGS _ _ _ h
    exact e
  · have e := executeMovInstructions_FLAGS _ _ _ h
    exact e

set_option maxRecDepth 100000 in
/-- C12 (amended) at the word of `store r3, 0(r5+r0)1` with `R5 = 9400`, executed in a state
where SF and ZF are set: the four bytes are written at 9400..9403, inside the memory, and
`FLAGS` is as before. -/
theorem C12_non_arithmetic_keep_FLAGS_witness :
    ∃ s', executeFetched { exampleState [(3, 0xDEADBEEF), (5, 9400)] with FLAGS := 0x84 }
        (encodeInstructionToBinary (memoryInstr "store" 3 5 0 1 0)) retInstr = some s' ∧
      loadWord s'.MEMORY 9400 = 0xDEADBEEF ∧ s'.FLAGS = 0x84 := by
  have hd : (decodeInstructionFromBinary
      (encodeInstructionToBinary (memoryInstr "store" 3 5 0 1 0)) retInstr).map
      (fun d => d.instruction) = some "store" := by decide
  rw [Option.map_eq_some'] at hd
  obtain ⟨a, ha, hm⟩ := hd
  have hv : (executeFetched { exampleState [(3, 0xDEADBEEF), (5, 9400)] with FLAGS := 0x84 }
      (encodeInstructionToBinary (memoryInstr "store" 3 5 0 1 0)) retInstr).map
      (fun s => loadWord s.MEMORY 9400) = some 0xDEADBEEF := by decide
  rw [Option.map_eq_some'] at hv
  obtain ⟨s', hs, hw⟩ := hv
  exact ⟨s', hs, hw,
    C12_non_arithmetic_keep_FLAGS _ s' _ retInstr a ha (by rw [hm]; decide) hs⟩

/-! ## Writes that run past the end of `MEMORY` -/

/-- A word written at an address whose last byte is not inside `MEMORY` leaves the array. -/
theorem writeIntoMemory_word_outside (s : State) (A w : Nat) (hA : 65536 ≤ A + 3) :
    writeIntoMemory s A NUM_BYTES_IN_WORD (wordBytes w) = none := by
  by_cases h : A < 65536
  · have h3 : A = 65533 ∨ A = 65534 ∨ A = 65535 := by omega
    rcases h3 with rfl | rfl | rfl <;>
      simp [writeIntoMemory, writeIntoMemoryLoop, NUM_BYTES_IN_WORD, wordBytes, MEMORY_SIZE]
  · simp [writeIntoMemory, writeIntoMemoryLoop, NUM_BYTES_IN_WORD, MEMORY_SIZE, h]

/-- The check of a load or store looks at the first byte of the word only: the addresses
65533, 65534 and 65535 pass it, and the word written there runs past the end of `MEMORY`. -/
theorem checkValidMemoryAccess_passes_write_outside (s : State) (A w : Nat)
    (h1 : 65533 ≤ A) (h2 : A ≤ 65535) :
    checkValidMemoryAccess A = some () ∧
    writeIntoMemory s A NUM_BYTES_IN_WORD (wordBytes w) = none := by
  refine ⟨?_, writeIntoMemory_word_outside s A w (by omega)⟩
  unfold checkValidMemoryAccess MEMORY_SIZE INSTRUCTION_MEMORY_MAX
  rw [if_neg (by omega)]

set_option maxRecDepth 100000 in
/-- C12 (counterexample): the one-line program `store r3, (r14)` from the seeded initial state,
where `SP = R14 = 65535`. The word decodes as a `store` with the address 65535, which passes
`checkValidMemoryAccess` (the test looks at the first byte only), so there is no fatal fault;
`writeIntoMemory` then stores the four bytes of `R3` at 65535..65538 without any test of the
index: the first byte is the last one of `MEMORY`, the other three lie outside the array, and
the step yields no state in which `FLAGS` is what it was. The stack instructions have no check
at all: after `addi $3, r14` the `push r14` writes at 65534..65537 in the same way. -/
theorem C12_store_at_65535_writes_outside_memory :
    (do let s ← seededState
        let s ← assembled exampleJunk exampleJunkRegs ["store r3, (r14)\n"] s
        let (w, s) ← fetchInstruction s
        let d ← decodeInstructionFromBinary w retInstr
        let A ← computeMemoryAddressFromOpcode s d
        pure ((d.instruction, [w, A, s.GPRS 14, s.GPRS 3]),
          [decide (d.instruction ∈ nonArithmeticMnemonics),
           (checkValidMemoryAccess A).isSome,
           (writeIntoMemory s A 1 (wordBytes (s.GPRS 3))).isSome,
           (writeIntoMemory s A 2 (wordBytes (s.GPRS 3))).isSome,
           (writeIntoMemory s A NUM_BYTES_IN_WORD (wordBytes (s.GPRS 3))).isSome,
           (executeFetched s w retInstr).isSome]))
      = some (("store", [0x4C38000, 65535, 65535, 0x8234]),
          [true, true, true, false, false, false]) ∧
    (main exampleJunk exampleJunkRegs exampleJunkRun ["store r3, (r14)\n"] 10).isSome
      = false ∧
    (do let s ← seededState
        let s ← assembled exampleJunk exampleJunkRegs ["addi $3, r14\n", "push r14\n"] s
        let (w, s) ← fetchInstruction s
        let (_, w, s) ← decodeAndExecutePasses exampleJunkRun 1 1 w s
        let d ← decodeInstructionFromBinary w retInstr
        pure ((d.instruction, [s.GPRS 14]),
          [decide (d.instruction ∈ nonArithmeticMnemonics),
           (writeIntoMemory s 65534 2 (wordBytes (s.GPRS 14))).isSome,
           (writeIntoMemory s 65534 NUM_BYTES_IN_WORD (wordBytes (s.GPRS 14))).isSome,
           (executeFetched s w retInstr).isSome]))
      = some (("push", [65538]), [true, true, false, false]) := by
  decide

/-! ## Arithmetic instructions without an executor -/

/-- C11 (failing inputs): `executeITypeInstructions` tests the mnemonic against `"and"` in
front of `executeANDI`, so for `andi` no executor runs, and `executeRTypeInstructions` has no
test for `sltu`: both return the state unchanged, `FLAGS` included. For `andi $0, r` with
`GPR[r] = 0` the result of the instruction is 0, for which `setFlagsRegister` sets ZF; in the
zero state ZF stays clear. -/
theorem C11_andi_and_sltu_skip_setFlagsRegister (s : State) (c r b : Int) :
    executeITypeInstructions s
      { format := .IMM_REG, instruction := "andi", base_register := 0, index_register := 0,
        offset := 0, scale := 1, operand_register := r, const_or_label := c } = some s ∧
    executeRTypeInstructions s
      { format := .REG_REG, instruction := "sltu", base_register := b, index_register := 0,
        offset := 0, scale := 1, operand_register := r, const_or_label := 0 } = some s ∧
    (∃ s', setFlagsRegister zeroState (toU32 0) (zeroState.GPRS 1)
        (bitAnd (toU32 0) (zeroState.GPRS 1)) = some s' ∧
      s'.FLAGS.testBit 2 = true ∧ zeroState.FLAGS.testBit 2 = false) := by
  refine ⟨?_, ?_, ?_⟩
  · simp [executeITypeInstructions, onCommand]
  · simp [executeRTypeInstructions, onCommand]
  · obtain ⟨s', hs, hbits, -⟩ := setFlagsRegister_spec zeroState (toU32 0) (zeroState.GPRS 1)
      (bitAnd (toU32 0) (zeroState.GPRS 1))
    refine ⟨s', hs, ?_, by decide⟩
    rw [hbits 2 (by decide)]
    decide

/-! ## Loads, stores and the access check -/

theorem checkValidMemoryAccess_eq_none (addr : Nat) :
    checkValidMemoryAccess addr = none ↔ (addr < 9215 ∨ 65536 ≤ addr) := by
  unfold checkValidMemoryAccess MEMORY_SIZE INSTRUCTION_MEMORY_MAX
  split_ifs with h
  · simp only [true_iff]
    omega
  · simp only [reduceCtorEq, false_iff]
    omega

theorem checkValidMemoryAccess_eq_some (addr : Nat) :
    checkValidMemoryAccess addr = some () ↔ (9215 ≤ addr ∧ addr < 65536) := by
  unfold checkValidMemoryAccess MEMORY_SIZE INSTRUCTION_MEMORY_MAX
  split_ifs with h
  · simp only [reduceCtorEq, false_iff]
    omega
  · simp only [true_iff]
    omega

/-- The address arithmetic of `computeMemoryAddressFromOpcode`, in unsigned 32-bit words, is the
effective address of the operand. -/
theorem address_arithmetic (b i : Nat) (scale offset : Int) :
    (b + (i * toU32 scale) % 4294967296 + toU32 offset) % 4294967296
      = ((((b : Int) + (i : Int) * scale + offset) % 4294967296).toNat) := by
  unfold toU32
  have h1 : ((i * (scale % 4294967296).toNat : Nat) : Int) % 4294967296
      = ((i : Int) * scale) % 4294967296 := by
    have hs : (((scale % 4294967296).toNat : Nat) : Int) = scale % 4294967296 :=
      Int.toNat_of_nonneg (Int.emod_nonneg _ (by decide))
    push_cast
    rw [hs, Int.mul_emod, Int.emod_emod_of_dvd _ (dvd_refl _), ← Int.mul_emod]
  generalize (i : Int) * scale = p at h1 ⊢
  generalize i * (scale % 4294967296).toNat = q at h1 ⊢
  omega

theorem computeMemoryAddress_eq (s : State) (a : instruction_attr)
    (hb : isRegister a.base_register) (hi : isRegister a.index_register) :
    computeMemoryAddressFromOpcode s a =
      (checkValidMemoryAccess (effectiveAddress s a)).map fun _ => effectiveAddress s a := by
  unfold computeMemoryAddressFromOpcode
  simp only [readLoc_gpr s _ hb, readLoc_gpr s _ hi, address_arithmetic]
  unfold effectiveAddress
  cases checkValidMemoryAccess
      (((s.GPRS a.base_register.toNat : Int) + (s.GPRS a.index_register.toNat : Int) * a.scale
        + a.offset) % 4294967296).toNat <;> rfl

theorem executeLoad_eq (s : State) (r : Int) (E : Nat) (hr : isRegister r) (h1 : 1 ≤ E)
    (hE : E + 3 < 65536) (hb : ∀ i, i < 4 → s.MEMORY (E + i) < 256) :
    executeLoad s r E =
      some { s with GPRS := Function.update s.GPRS r.toNat (loadWord s.MEMORY E)
                    MAR := E
                    MDR := loadWord s.MEMORY E } := by
  unfold executeLoad loadRegister
  simp only [readFromMemory_word s E h1 hE hb, writeLoc_gpr s r _ hr, Option.bind_eq_bind,
    Option.some_bind]
  rw [readLoc_gpr _ _ hr]
  simp

theorem executeStore_eq (s : State) (r : Int) (E : Nat) (hr : isRegister r)
    (hE : E + 3 < 65536) :
    executeStore s r E =
      some { s with MEMORY := storeWord s.MEMORY E (s.GPRS r.toNat)
                    MAR := E
                    MDR := s.GPRS r.toNat } := by
  unfold executeStore storeRegister
  simp only [readLoc_gpr s r hr, writeIntoMemory_word s E _ hE, Option.bind_eq_bind,
    Option.some_bind]
  rw [readLoc_gpr _ _ hr]
  rfl

/-- C16: for every load or store with registers in 0..15 whose effective address
`E = (GPR[base] + GPR[index] * scale + offset) mod 2^32` passes the access check and has
`E + 3 < 65536` (memory bytes are below 256), the instruction executes. A load sets `GPR[r]`
to the little-endian word at bytes `E..E+3`, then `MAR = E` and `MDR` = the new `GPR[r]`, and
leaves the memory and the other registers unchanged. A store writes `GPR[r]` little-endian to
bytes `E..E+3`, sets `MAR = E` and `MDR = GPR[r]`, and leaves every other byte and every
register unchanged. -/
theorem C16_load_and_store (s : State) (a : instruction_attr)
    (hr : isRegister a.operand_register) (hb : isRegister a.base_register)
    (hi : isRegister a.index_register)
    (hchk : checkValidMemoryAccess (effectiveAddress s a) = some ())
    (hE : effectiveAddress s a + 3 < 65536)
    (hbytes : ∀ i, i < 4 → s.MEMORY (effectiveAddress s a + i) < 256) :
    (a.instruction = "load" →
      ∃ s', executeMemoryTypeInstructions s a = some s' ∧
        s'.GPRS a.operand_register.toNat = loadWord s.MEMORY (effectiveAddress s a) ∧
        s'.MAR = effectiveAddress s a ∧ s'.MDR = s'.GPRS a.operand_register.toNat ∧
        s'.MEMORY = s.MEMORY ∧
        (∀ j, j ≠ a.operand_register.toNat → s'.GPRS j = s.GPRS j)) ∧
    (a.instruction = "store" →
      ∃ s', executeMemoryTypeInstructions s a = some s' ∧
        s'.MEMORY (effectiveAddress s a) = s.GPRS a.operand_register.toNat % 256 ∧
        s'.MEMORY (effectiveAddress s a + 1) = s.GPRS a.operand_register.toNat / 256 % 256 ∧
        s'.MEMORY (effectiveAddress s a + 2) = s.GPRS a.operand_register.toNat / 65536 % 256 ∧
        s'.MEMORY (effectiveAddress s a + 3)
          = s.GPRS a.operand_register.toNat / 16777216 % 256 ∧
        (∀ x, x < effectiveAddress s a ∨ effectiveAddress s a + 3 < x →
          s'.MEMORY x = s.MEMORY x) ∧
        s'.MAR = effectiveAddress s a ∧ s'.MDR = s.GPRS a.operand_register.toNat ∧
        s'.GPRS = s.GPRS) := by
  have hc := computeMemoryAddress_eq s a hb hi
  rw [hchk] at hc
  have h9215 := (checkValidMemoryAccess_eq_some _).1 hchk
  constructor
  · intro hm
    have e : executeMemoryTypeInstructions s a =
        some { s with GPRS := Function.update s.GPRS a.operand_register.toNat
                        (loadWord s.MEMORY (effectiveAddress s a))
                      MAR := effectiveAddress s a
                      MDR := loadWord s.MEMORY (effectiveAddress s a) } := by
      unfold executeMemoryTypeInstructions
      have hn1 : ("load" = "store") = False := eq_false (by decide)
      have hn2 : ("load" = "lea") = False := eq_false (by decide)
      simp only [hc, Option.map_some', Option.bind_eq_bind, Option.some_bind, hm, onCommand,
        if_true, if_false, hn1, hn2, executeLoad_eq s _ _ hr (by omega) hE hbytes]
    refine ⟨_, e, ?_, rfl, ?_, rfl, ?_⟩
    · simp
    · simp
    · intro j hj
      simp [Function.update_noteq hj]
  · intro hm
    have e : executeMemoryTypeInstructions s a =
        some { s with MEMORY := storeWord s.MEMORY (effectiveAddress s a)
                        (s.GPRS a.operand_register.toNat)
                      MAR := effectiveAddress s a
                      MDR := s.GPRS a.operand_register.toNat } := by
      unfold executeMemoryTypeInstructions
      have hn1 : ("store" = "load") = False := eq_false (by decide)
      have hn2 : ("store" = "lea") = False := eq_false (by decide)
      simp only [hc, Option.map_some', Option.bind_eq_bind, Option.some_bind, hm, onCommand,
        if_true, if_false, hn1, hn2, executeStore_eq s _ _ hr hE]
    obtain ⟨h0, h1, h2, h3⟩ :=
      storeWord_bytes s.MEMORY (effectiveAddress s a) (s.GPRS a.operand_register.toNat)
    refine ⟨_, e, ?_, ?_, ?_, ?_, ?_, rfl, rfl, rfl⟩
    · exact h0
    · show storeWord _ _ _ _ = _
      rw [h1]; omega
    · show storeWord _ _ _ _ = _
      rw [h2]; omega
    · show storeWord _ _ _ _ = _
      rw [h3]; omega
    · intro x hx
      exact storeWord_other _ _ _ _ hx

/-- C16 at `store r1, -12(r5+r6)4` and `load r2, -12(r5+r6)4` with `r5 = 10000`, `r6 = 3`: the
effective address is 10000. -/
theorem C16_load_and_store_witness :
    (∃ s', executeMemoryTypeInstructions
        (exampleState [(1, 0x12345678), (5, 10000), (6, 3)])
        (memoryInstr "store" 1 5 6 4 (-12)) = some s' ∧
      s'.MEMORY 10000 = 0x78 ∧ s'.MEMORY 10001 = 0x56 ∧ s'.MEMORY 10002 = 0x34 ∧
      s'.MEMORY 10003 = 0x12 ∧ s'.MAR = 10000 ∧ s'.MDR = 0x12345678) ∧
    (∃ s', executeMemoryTypeInstructions
        { exampleState [(5, 10000), (6, 3)] with
          MEMORY := fun a => if a = 10000 then 0x78 else if a = 10001 then 0x56 else 0 }
        (memoryInstr "load" 2 5 6 4 (-12)) = some s' ∧
      s'.GPRS 2 = 0x5678 ∧ s'.MAR = 10000 ∧ s'.MDR = 0x5678) := by
  constructor
  · obtain ⟨s', h, h0, h1, h2, h3, -, hmar, hmdr, -⟩ :=
      (C16_load_and_store (exampleState [(1, 0x12345678), (5, 10000), (6, 3)])
        (memoryInstr "store" 1 5 6 4 (-12)) (by decide) (by decide) (by decide) (by decide)
        (by decide) (fun _ _ => (by decide : (0 : Nat) < 256))).2 rfl
    exact ⟨s', h, h0.trans (by decide), h1.trans (by decide), h2.trans (by decide),
      h3.trans (by decide), hmar.trans (by decide), hmdr.trans (by decide)⟩
  · obtain ⟨s', h, hg, hmar, hmdr, -⟩ :=
      (C16_load_and_store
        { exampleState [(5, 10000), (6, 3)] with
          MEMORY := fun a => if a = 10000 then 0x78 else if a = 10001 then 0x56 else 0 }
        (memoryInstr "load" 2 5 6 4 (-12)) (by decide) (by decide) (by decide) (by decide)
        (by decide) (by
          intro i hi
          have : i = 0 ∨ i = 1 ∨ i = 2 ∨ i = 3 := by omega
          rcases this with h | h | h | h <;> subst h <;> decide)).1 rfl
    have hg' : s'.GPRS 2 = 0x5678 := hg.trans (by decide)
    exact ⟨s', h, hg', hmar.trans (by decide), (hmdr.trans hg')⟩

/-- A load, store or lea whose effective address is below 9215 or at least 65536 stops the run:
no state is returned. -/
theorem executeMemoryTypeInstructions_fault (s : State) (a : instruction_attr)
    (hb : isRegister a.base_register) (hi : isRegister a.index_register)
    (hE : effectiveAddress s a < 9215 ∨ 65536 ≤ effectiveAddress s a) :
    executeMemoryTypeInstructions s a = none := by
  unfold executeMemoryTypeInstructions
  rw [computeMemoryAddress_eq s a hb hi, (checkValidMemoryAccess_eq_none _).2 hE]
  rfl

/-- C17 (failing input): address 9215, the last byte of the instruction region
(`INSTRUCTION_MEMORY_MAX`, one below `DATA_MEMORY_MIN = 9216`), passes
`checkValidMemoryAccess`. A load with effective address 9215 executes and reads the byte at
9215 into the register; a store with effective address 9215 executes and overwrites it. -/
theorem C17_address_9215_passes_check :
    checkValidMemoryAccess 9215 = some () ∧ 9215 < DATA_MEMORY_MIN ∧
    9215 ≤ INSTRUCTION_MEMORY_MAX ∧
    (executeMemoryTypeInstructions
        { exampleState [(5, 9215)] with MEMORY := fun a => if a = 9215 then 0x11 else 0 }
        (memoryInstr "load" 1 5 0 1 0)).map (fun s => (s.GPRS 1, s.MAR, s.MDR))
      = some (0x11, 9215, 0x11) ∧
    (executeMemoryTypeInstructions
        { exampleState [(1, 0x4567), (5, 9215)] with
          MEMORY := fun a => if a = 9215 then 0x11 else 0 }
        (memoryInstr "store" 1 5 0 1 0)).map (fun s => (s.MEMORY 9215, s.MEMORY 9216, s.MAR))
      = some (0x67, 0x45, 9215) := by
  decide

/-! ## The stack and the regions -/

/-- C18 (counterexample): with SP = 9000 a `push r1` is no fault: it executes and writes the
word at 8996..8999, inside the instruction region; with SP = 8996 a `pop r2` is no fault: it
executes and reads the word at 8996; and a `ret` with SP = 8996 executes and reads PC from
there. -/
theorem C18_stack_below_9216_executes :
    (8996 : Nat) < 9216 ∧
    (executeStackInstructions (exampleState [(14, 9000), (1, 0x4567)])
        (stackInstr "push" 1)).map (fun s => (s.GPRS 14, s.MEMORY 8996, s.MEMORY 8997))
      = some (8996, 0x67, 0x45) ∧
    (executeStackInstructions
        { exampleState [(14, 8996)] with
          MEMORY := fun a => if a = 8996 then 0x67 else if a = 8997 then 0x45 else 0 }
        (stackInstr "pop" 2)).map (fun s => (s.GPRS 14, s.GPRS 2))
      = some (9000, 0x4567) ∧
    (executeNoOperandInstructions
        { exampleState [(14, 8996)] with
          MEMORY := fun a => if a = 8996 then 0x10 else if a = 8997 then 0x04 else 0 }
        retInstr).map (fun s => (s.GPRS 14, s.PC))
      = some (9000, 0x0410) := by
  decide

/-- C18 (amended): stack accesses are not checked against the regions. For every state with
`4 ≤ SP ≤ 65536`, `push r` executes, also when `SP - 4 < 9216`: it sets SP to `SP - 4` and
writes `GPR[r]` little-endian at the new SP. For every state with `1 ≤ SP ≤ 65532` (bytes are
below 256), `pop r` with `r` other than R14 and `ret` execute, also when `SP < 9216`: the word at
SP goes to `GPR[r]` (to PC for `ret`) and SP becomes `SP + 4`. -/
theorem C18_stack_not_region_checked (s : State) (a : instruction_attr)
    (hf : a.format = .STACK_REG) (hr : isRegister a.operand_register) :
    (a.instruction = "push" → 4 ≤ s.GPRS 14 → s.GPRS 14 ≤ 65536 →
      ∃ s', executeStackInstructions s a = some s' ∧ s'.GPRS 14 = s.GPRS 14 - 4 ∧
        s'.MEMORY = storeWord s.MEMORY (s.GPRS 14 - 4) (s.GPRS a.operand_register.toNat)) ∧
    (1 ≤ s.GPRS 14 → s.GPRS 14 + 3 < 65536 →
      (∀ i, i < 4 → s.MEMORY (s.GPRS 14 + i) < 256) →
      (a.instruction = "pop" → a.operand_register ≠ 14 →
        ∃ s', executeStackInstructions s a = some s' ∧
          s'.GPRS a.operand_register.toNat = loadWord s.MEMORY (s.GPRS 14) ∧
          s'.GPRS 14 = s.GPRS 14 + 4 ∧ s'.MEMORY = s.MEMORY) ∧
      (∀ r : instruction_attr, r.instruction = "ret" →
        ∃ s', executeNoOperandInstructions s r = some s' ∧
          s'.PC = loadWord s.MEMORY (s.GPRS 14) ∧ s'.GPRS 14 = s.GPRS 14 + 4 ∧
          s'.MEMORY = s.MEMORY)) := by
  refine ⟨?_, ?_⟩
  · intro hm h4 hSP
    refine ⟨_, executeStackInstructions_push s a hf hm hr h4 hSP, ?_, rfl⟩
    dsimp only
    rw [Function.update_same]
  · intro h1 hSP hb
    refine ⟨?_, ?_⟩
    · intro hm h14
      have hne : a.operand_register.toNat ≠ 14 := by
        have := hr.1
        omega
      refine ⟨_, executeStackInstructions_pop s a hf hm hr h14 h1 hSP hb, ?_, ?_, rfl⟩
      · dsimp only
        rw [Function.update_noteq hne, Function.update_same]
      · dsimp only
        rw [Function.update_same]
    · intro r hret
      have hw : writeLoc s .pc (loadWord s.MEMORY (s.GPRS 14)) =
          some { s with PC := loadWord s.MEMORY (s.GPRS 14) } := rfl
      have hp := executePop_eq s _ .pc h1 hSP hb hw
      have hfun : executeNoOperandInstructions s r = executePop s .pc := by
        unfold executeNoOperandInstructions onCommand executeRet
        rw [if_pos hret]
      rw [← hfun] at hp
      refine ⟨_, hp, rfl, ?_, rfl⟩
      dsimp only
      rw [Function.update_same]
      omega

/-- C18 (amended) at SP = 9000 for `push r1` and at SP = 8996 for `pop r2`. -/
theorem C18_stack_not_region_checked_witness :
    (∃ s', executeStackInstructions (exampleState [(14, 9000), (1, 0x4567)])
        (stackInstr "push" 1) = some s' ∧ s'.GPRS 14 = 8996 ∧ s'.MEMORY 8996 = 0x67) ∧
    (∃ s', executeStackInstructions
        { exampleState [(14, 8996)] with
          MEMORY := fun a => if a = 8996 then 0x67 else if a = 8997 then 0x45 else 0 }
        (stackInstr "pop" 2) = some s' ∧ s'.GPRS 2 = 0x4567 ∧ s'.GPRS 14 = 9000) := by
  constructor
  · obtain ⟨s', h, hsp, hmem⟩ :=
      (C18_stack_not_region_checked (exampleState [(14, 9000), (1, 0x4567)])
        (stackInstr "push" 1) rfl (by decide)).1 rfl (by decide) (by decide)
    refine ⟨s', h, hsp.trans (by decide), ?_⟩
    rw [hmem]
    decide
  · obtain ⟨s', h, hg, hsp, -⟩ :=
      ((C18_stack_not_region_checked
        { exampleState [(14, 8996)] with
          MEMORY := fun a => if a = 8996 then 0x67 else if a = 8997 then 0x45 else 0 }
        (stackInstr "pop" 2) rfl (by decide)).2 (by decide) (by decide) (by
          intro i hi
          have : i = 0 ∨ i = 1 ∨ i = 2 ∨ i = 3 := by omega
          rcases this with h | h | h | h <;> subst h <;> decide)).1 rfl (by decide)
    exact ⟨s', h, hg.trans (by decide), hsp.trans (by decide)⟩

/-- C14 at SP = 65535, PC = 1028 and `call` with offset 5: the call moves PC to 1048 and SP to
65531, and `ret` brings back PC = 1028 and SP = 65535. -/
theorem C14_call_ret_inverse_witness :
    ∃ s1, executeControlTransferInstructions
        { exampleState [(14, 65535)] with PC := 1028 } (controlInstr "call" 5) = some s1 ∧
      s1.GPRS 14 = 65531 ∧ s1.PC = 1048 ∧
      ∃ s2, executeNoOperandInstructions s1 retInstr = some s2 ∧
        s2.PC = 1028 ∧ s2.GPRS 14 = 65535 := by
  obtain ⟨s1, h1, hsp, -, hpc, hret⟩ :=
    C14_call_ret_inverse { exampleState [(14, 65535)] with PC := 1028 } (controlInstr "call" 5)
      retInstr rfl rfl (by decide) (by decide) (by decide)
  obtain ⟨s2, h2, hp, hs⟩ := hret s1 rfl (fun _ _ => rfl)
  exact ⟨s1, h1, hsp.trans (by decide), hpc.trans (by decide), s2, h2, hp, hs⟩

/-- C15 at SP = 65535 with `r1 = 0x4567` and `r2 = 0x66`:
`push r1; push r2; pop r3; pop r4` gives `r3 = 0x66`, `r4 = 0x4567` and SP = 65535. -/
theorem C15_stack_lifo_witness :
    ∃ s1 s2 s3 s4,
      executeStackInstructions (exampleState [(14, 65535), (1, 0x4567), (2, 0x66)])
        (stackInstr "push" 1) = some s1 ∧
      executeStackInstructions s1 (stackInstr "push" 2) = some s2 ∧
      executeStackInstructions s2 (stackInstr "pop" 3) = some s3 ∧
      executeStackInstructions s3 (stackInstr "pop" 4) = some s4 ∧
      s4.GPRS 3 = 0x66 ∧ s4.GPRS 4 = 0x4567 ∧ s4.GPRS 14 = 65535 := by
  exact C15_stack_lifo (exampleState [(14, 65535), (1, 0x4567), (2, 0x66)])
    (stackInstr "push" 1) (stackInstr "push" 2) (stackInstr "pop" 3) (stackInstr "pop" 4)
    rfl rfl rfl rfl rfl rfl rfl rfl (by decide) (by decide) (by decide) (by decide)
    (by decide) (by decide) (by decide) (by decide) (by decide) (by decide) (by decide)
    (by decide) (by decide)

/-! ## Label resolution -/

theorem getLabelIndexLoop_first (T : String) (iT : Int) (post : List label_pos) :
    ∀ (pre : List label_pos) (i : Int), (∀ e ∈ pre, e.label ≠ T) →
      getLabelIndexLoop T (pre ++ ⟨T, iT⟩ :: post) i = i + pre.length := by
  intro pre
  induction pre with
  | nil =>
    intro i _
    simp [getLabelIndexLoop]
  | cons e rest ih =>
    intro i h
    have he : ¬ T = e.label := fun hc => h e (List.mem_cons_self _ _) hc.symm
    have hrest : ∀ x ∈ rest, x.label ≠ T := fun x hx => h x (List.mem_cons_of_mem _ hx)
    rw [List.cons_append, getLabelIndexLoop, if_neg he, ih (i + 1) hrest, List.length_cons]
    push_cast
    omega

theorem getLabelIndex_first (T : String) (iT : Int) (pre post : List label_pos)
    (hpre : ∀ e ∈ pre, e.label ≠ T) :
    getLabelIndex (pre ++ ⟨T, iT⟩ :: post) T = pre.length := by
  unfold getLabelIndex
  rw [getLabelIndexLoop_first T iT post pre 0 hpre]
  omega

/-- The word of a control instruction fits 32 bits. -/
theorem encode_CONTROL_LABEL_lt (a : instruction_attr) (hf : a.format = .CONTROL_LABEL)
    (hm : a.instruction ∈ CONTROL_INSTR) : encodeInstructionToBinary a < 4294967296 := by
  obtain ⟨h0, h64, -⟩ := CONTROL_INSTR_table _ hm
  obtain ⟨o, hoe⟩ := Int.eq_ofNat_of_zero_le h0
  rw [hoe] at h64
  have hw : encodeInstructionToBinary a = o * 67108864 + toU32 a.const_or_label % 65536 := by
    unfold encodeInstructionToBinary
    simp only [hf, hoe]
    rw [toU32_natCast o (by omega), and_65535]
    exact word_op o _ (by omega) (by omega)
  rw [hw]
  omega

theorem saveInstructionToMemory_eq (s : State) (w : Nat) (h : s.INSTR_MEMORY_PTR + 3 < 65536) :
    saveInstructionToMemory s w =
      some { s with MEMORY := storeWord s.MEMORY s.INSTR_MEMORY_PTR w
                    INSTR_MEMORY_PTR := s.INSTR_MEMORY_PTR + 4 } := by
  unfold saveInstructionToMemory
  rw [writeIntoMemory_word s _ w h]
  have e : (s.INSTR_MEMORY_PTR + NUM_BYTES_IN_WORD) % 4294967296 = s.INSTR_MEMORY_PTR + 4 := by
    unfold NUM_BYTES_IN_WORD
    omega
  simp only [e]

theorem validateControlTransferInstruction_eq (pre post : List label_pos) (s : State)
    (T m : String) (iT iJ : Int) (junk : instruction_attr)
    (hpre : ∀ e ∈ pre, e.label ≠ T) (h : s.INSTR_MEMORY_PTR + 3 < 65536) :
    validateControlTransferInstruction (pre ++ ⟨T, iT⟩ :: post) s iJ m T junk =
      some { s with
        MEMORY := storeWord s.MEMORY s.INSTR_MEMORY_PTR
          (encodeInstructionToBinary
            { junk with instruction := m, const_or_label := iT - iJ - 1,
                        format := .CONTROL_LABEL })
        INSTR_MEMORY_PTR := s.INSTR_MEMORY_PTR + 4 } := by
  unfold validateControlTransferInstruction
  have hne : ¬ ((pre.length : Int) = -1) := by omega
  have hget : (pre ++ (⟨T, iT⟩ : label_pos) :: post)[((pre.length : Nat) : Int).toNat]?
      = some ⟨T, iT⟩ := by
    rw [Int.toNat_ofNat, List.getElem?_append_right (le_refl _), Nat.sub_self,
      List.getElem?_cons_zero]
  simp only [getLabelIndex_first T iT pre post hpre, if_neg hne, hget]
  exact saveInstructionToMemory_eq s _ h

theorem fetchInstruction_eq (t : State) (h1 : 1 ≤ t.PC) (h : t.PC + 3 < 65536)
    (hb : ∀ i, i < 4 → t.MEMORY (t.PC + i) < 256) :
    fetchInstruction t = some (loadWord t.MEMORY t.PC, { t with PC := t.PC + 4 }) := by
  unfold fetchInstruction
  rw [readFromMemory_word t _ h1 h hb]
  have e : (t.PC + 4) % 4294967296 = t.PC + 4 := by omega
  simp only [e]

/-- C20: label resolution. Let `T` be registered at instruction index `i_T` (its entry is the
first of `LABELS` with that name) and let a control instruction `m T` be validated as
instruction `i_j`, with `i_T - i_j - 1` in `[-32768, 32767]`, while the instruction-write
pointer is at `1024 + 4 * i_j` (inside the memory). Then `validateControlTransferInstruction`
returns and stores at `1024 + 4 * i_j` a word that decodes to mnemonic `m`, format
`CONTROL_LABEL` and offset `i_T - i_j - 1`; and in every later state whose PC is
`1024 + 4 * i_j` and that holds these four bytes there, the fetch returns this word with PC
moved on by 4, and executing it as a taken jump sets PC to `1024 + 4 * i_T`. -/
theorem C20_label_resolution (pre post : List label_pos) (s : State) (T m : String)
    (iT iJ : Nat) (junk prev : instruction_attr)
    (hpre : ∀ e ∈ pre, e.label ≠ T) (hm : m ∈ CONTROL_INSTR)
    (hlo : -32768 ≤ (iT : Int) - iJ - 1) (hhi : (iT : Int) - iJ - 1 ≤ 32767)
    (hptr : s.INSTR_MEMORY_PTR = 1024 + 4 * iJ) (hfit : s.INSTR_MEMORY_PTR + 3 < 65536) :
    ∃ s' w, validateControlTransferInstruction (pre ++ ⟨T, iT⟩ :: post) s iJ m T junk = some s' ∧
      loadWord s'.MEMORY s.INSTR_MEMORY_PTR = w ∧
      (∃ d, decodeInstructionFromBinary w prev = some d ∧ d.instruction = m ∧
        d.format = .CONTROL_LABEL ∧ d.const_or_label = iT - iJ - 1) ∧
      ∀ t : State, t.PC = s.INSTR_MEMORY_PTR →
        (∀ i, i < 4 → t.MEMORY (t.PC + i) = s'.MEMORY (t.PC + i)) →
        ∃ t1, fetchInstruction t = some (w, t1) ∧ t1.PC = t.PC + 4 ∧
          (m ∈ jumpMnemonics → jumpTaken m t.FLAGS = true →
            ∃ t2, executeFetched t1 w prev = some t2 ∧ t2.PC = 1024 + 4 * iT) := by
  have hv := validateControlTransferInstruction_eq pre post s T m iT iJ junk hpre hfit
  generalize ha : ({ junk with instruction := m, const_or_label := iT - iJ - 1,
                               format := .CONTROL_LABEL } : instruction_attr) = a at hv
  have haf : a.format = .CONTROL_LABEL := by rw [← ha]
  have ham : a.instruction = m := by rw [← ha]
  have hac : a.const_or_label = iT - iJ - 1 := by rw [← ha]
  have hwlt := encode_CONTROL_LABEL_lt a haf (by rw [ham]; exact hm)
  obtain ⟨d, hd, hdm, hdf, hdc⟩ := roundtrip_CONTROL_LABEL a prev haf (by rw [ham]; exact hm)
    (by rw [hac]; exact hlo) (by rw [hac]; exact hhi)
  rw [ham] at hdm
  rw [hac] at hdc
  generalize encodeInstructionToBinary a = w at hv hwlt hd
  refine ⟨_, w, hv, loadWord_storeWord _ _ _ hwlt, ⟨d, hd, hdm, hdf, hdc⟩, ?_⟩
  intro t hpc hmem
  have hb : ∀ i, i < 4 → t.MEMORY (t.PC + i) < 256 := by
    intro i hi
    rw [hmem i hi, hpc]
    exact storeWord_lt _ _ _ i hi
  have hl : loadWord t.MEMORY t.PC = w := by
    rw [loadWord_congr _ _ _ hmem, hpc]
    exact loadWord_storeWord _ _ _ hwlt
  have hf := fetchInstruction_eq t (by omega) (by omega) hb
  rw [hl] at hf
  refine ⟨_, hf, rfl, ?_⟩
  intro hj htaken
  have hdj : d.instruction ∈ jumpMnemonics := by rw [hdm]; exact hj
  have hx : executeFetched { t with PC := t.PC + 4 } w prev =
      some { t with PC := jumpTarget { t with PC := t.PC + 4 } d.const_or_label,
                    isSubtract := false } := by
    unfold executeFetched
    simp only [hd]
    unfold executeDecoded
    simp only [hdf]
    rw [executeControlTransfer_jump _ d hdj]
    have ht : jumpTaken d.instruction t.FLAGS = true := by rw [hdm]; exact htaken
    simp only [ht, if_true]
    rfl
  refine ⟨_, hx, ?_⟩
  show jumpTarget _ _ = _
  rw [jumpTarget_eq, hdc]
  dsimp only
  omega

/-- C20 for `jl loop` validated as instruction 7 with `loop` registered at instruction 2 (after
another label): the stored offset is -6 and the taken jump lands at 1032. -/
theorem C20_label_resolution_witness :
    ∃ s' w, validateControlTransferInstruction [⟨"start", 0⟩, ⟨"loop", 2⟩, ⟨"done", 9⟩]
        { zeroState with INSTR_MEMORY_PTR := 1052 } 7 "jl" "loop" retInstr = some s' ∧
      loadWord s'.MEMORY 1052 = w ∧
      (∃ d, decodeInstructionFromBinary w retInstr = some d ∧ d.instruction = "jl" ∧
        d.format = .CONTROL_LABEL ∧ d.const_or_label = -6) ∧
      ∃ t1, fetchInstruction { s' with PC := 1052, FLAGS := 0x80 } = some (w, t1) ∧
        ∃ t2, executeFetched t1 w retInstr = some t2 ∧ t2.PC = 1032 := by
  obtain ⟨s', w, hv, hw, hd, hex⟩ :=
    C20_label_resolution [⟨"start", 0⟩] [⟨"done", 9⟩]
      { zeroState with INSTR_MEMORY_PTR := 1052 } "loop" "jl" 2 7 retInstr retInstr
      (by decide) (by decide) (by decide) (by decide) rfl (by decide)
  obtain ⟨t1, hf, -, hj⟩ := hex { s' with PC := 1052, FLAGS := 0x80 } rfl (fun _ _ => rfl)
  obtain ⟨t2, hx, hpc⟩ := hj (by decide) (by show jumpTaken "jl" 0x80 = true; decide)
  exact ⟨s', w, hv, hw, hd, t1, hf, t2, hx, hpc⟩

/-! ## The carry and borrow loops -/

theorem and_mod_two (x y : Nat) : (x &&& y) % 2 = (x % 2) * (y % 2) := by
  have h := @Nat.and_mod_two_eq_one x y
  have hx := Nat.mod_two_eq_zero_or_one x
  have hy := Nat.mod_two_eq_zero_or_one y
  have ha := Nat.mod_two_eq_zero_or_one (x &&& y)
  rcases hx with hx | hx <;> rcases hy with hy | hy <;> rcases ha with ha | ha <;>
    simp_all

/-- The step of the carry loop keeps the sum: `(x xor y) + 2 * (x and y) = x + y`. -/
theorem xor_add_two_mul_and (x : Nat) : ∀ y : Nat, (x ^^^ y) + 2 * (x &&& y) = x + y := by
  induction x using Nat.strongRecOn with
  | _ x ih =>
    intro y
    by_cases hx : x = 0
    · subst hx
      simp
    · have h := ih (x / 2) (by omega) (y / 2)
      have h1 := @Nat.xor_div_two x y
      have h2 := @Nat.xor_mod_two_eq x y
      have h3 := @Nat.and_div_two x y
      have h4 := and_mod_two x y
      rw [← h1, ← h3] at h
      have hx2 := Nat.mod_two_eq_zero_or_one x
      have hy2 := Nat.mod_two_eq_zero_or_one y
      rcases hx2 with hx2 | hx2 <;> rcases hy2 with hy2 | hy2 <;>
        (rw [hx2, hy2] at h4; omega)

theorem xor_lt_32 (x y : Nat) (hx : x < 4294967296) (hy : y < 4294967296) :
    x ^^^ y < 4294967296 := by
  have := @Nat.xor_lt_two_pow x y 32 (by omega) (by omega)
  omega

theorem and_le_right_32 (x y : Nat) : x &&& y ≤ y := Nat.and_le_right

/-- The carry loop: when the low `k` bits of `val1` are clear, `33 - k` units of fuel are
enough, and the result is the sum modulo `2^32`. -/
theorem addLoop_spec : ∀ (j k : Nat) (val1 val2 : Nat), k + j = 32 →
    val1 < 4294967296 → val2 < 4294967296 → val1 % 2 ^ k = 0 →
    addLoop (j + 1) val1 val2 = some ((val1 + val2) % 4294967296) := by
  intro j
  induction j with
  | zero =>
    intro k val1 val2 hk h1 h2 hz
    have hk32 : k = 32 := by omega
    subst hk32
    have h0 : val1 = 0 := by
      have : val1 % 2 ^ 32 = val1 := Nat.mod_eq_of_lt (by omega)
      omega
    subst h0
    simp only [addLoop]
    rw [if_neg (by simp)]
    rw [Option.some.injEq]
    omega
  | succ j ih =>
    intro k val1 val2 hk h1 h2 hz
    rw [addLoop]
    by_cases h0 : val1 = 0
    · subst h0
      rw [if_neg (by simp)]
      rw [Option.some.injEq]
      omega
    · rw [if_pos h0]
      dsimp only
      have hs := xor_add_two_mul_and val2 val1
      have hc : val2 &&& val1 ≤ val1 := Nat.and_le_right
      have hxl := xor_lt_32 val2 val1 h2 h1
      have hcz : (val2 &&& val1) % 2 ^ k = 0 := by
        have := Nat.and_pow_two_sub_one_eq_mod (val2 &&& val1) k
        have e2 := Nat.and_pow_two_sub_one_eq_mod val1 k
        rw [← this, Nat.and_assoc, e2, hz]
        simp
      have hshl : shl32 (val2 &&& val1) 1 = (2 * (val2 &&& val1)) % 4294967296 := by
        unfold shl32
        rw [Nat.shiftLeft_eq, Nat.pow_one, Nat.mul_comm]
      have hz' : shl32 (val2 &&& val1) 1 % 2 ^ (k + 1) = 0 := by
        rw [hshl]
        have hd : 2 ^ (k + 1) ∣ 4294967296 := by
          have : (4294967296 : Nat) = 2 ^ 32 := by norm_num
          rw [this]
          exact Nat.pow_dvd_pow 2 (by omega)
        rw [Nat.mod_mod_of_dvd _ hd, Nat.pow_succ, Nat.mul_comm (2 ^ k) 2,
          Nat.mul_mod_mul_left, hcz]
      rw [ih (k + 1) _ _ (by omega) (by unfold shl32; omega) hxl hz', hshl]
      rw [Option.some.injEq]
      omega

/-- The function `add` returns, with the sum modulo `2^32`. -/
theorem add_eq (a b : Nat) (ha : a < 4294967296) (hb : b < 4294967296) :
    add a b = some ((a + b) % 4294967296) := by
  unfold add WORD_SIZE
  exact addLoop_spec 32 0 a b (by omega) ha hb (by rw [Nat.pow_zero, Nat.mod_one])

theorem testBit_not32 (y i : Nat) :
    (not32 y).testBit i = (decide (i < 32) && !y.testBit i) := by
  unfold not32
  have e1 : (4294967295 : Nat) = 2 ^ 32 - 1 := by norm_num
  have e2 : (4294967296 : Nat) = 2 ^ 32 := by norm_num
  rw [Nat.testBit_xor, e1, e2, Nat.testBit_two_pow_sub_one, Nat.testBit_mod_two_pow]
  by_cases h : i < 32 <;> simp [h]

theorem not32_eq (x : Nat) (hx : x < 4294967296) : not32 x = 4294967295 - x := by
  have h := xor_add_two_mul_and (not32 x) x
  have ha : not32 x &&& x = 0 := by
    apply Nat.eq_of_testBit_eq
    intro i
    rw [Nat.testBit_and, testBit_not32, Nat.zero_testBit]
    cases x.testBit i <;> simp
  have hx' : not32 x ^^^ x = 4294967295 := by
    apply Nat.eq_of_testBit_eq
    intro i
    have e1 : (4294967295 : Nat) = 2 ^ 32 - 1 := by norm_num
    rw [Nat.testBit_xor, testBit_not32, e1, Nat.testBit_two_pow_sub_one]
    by_cases hi : i < 32
    · cases x.testBit i <;> simp [hi]
    · have : x.testBit i = false :=
        Nat.testBit_lt_two_pow (lt_of_lt_of_le (by omega : x < 2 ^ 32)
          (Nat.pow_le_pow_right (by omega) (by omega)))
      simp [hi, this]
  rw [ha, hx'] at h
  omega

/-- The borrow and the common bits split `x`: `(~y & x) + (y & x) = x`. -/
theorem borrow_add_common (x y : Nat) (hx : x < 4294967296) :
    (not32 y &&& x) + (y &&& x) = x := by
  have h := xor_add_two_mul_and (not32 y &&& x) (y &&& x)
  have hx32 : ∀ i, ¬ i < 32 → x.testBit i = false := fun i hi =>
    Nat.testBit_lt_two_pow (lt_of_lt_of_le (by omega : x < 2 ^ 32)
      (Nat.pow_le_pow_right (by omega) (by omega)))
  have ha : (not32 y &&& x) &&& (y &&& x) = 0 := by
    apply Nat.eq_of_testBit_eq
    intro i
    simp only [Nat.testBit_and, testBit_not32, Nat.zero_testBit]
    cases y.testBit i <;> simp
  have hx' : (not32 y &&& x) ^^^ (y &&& x) = x := by
    apply Nat.eq_of_testBit_eq
    intro i
    simp only [Nat.testBit_xor, Nat.testBit_and, testBit_not32]
    by_cases hi : i < 32
    · cases y.testBit i <;> simp [hi]
    · simp [hx32 i hi]
  rw [ha, hx'] at h
  omega

/-- The borrow loop: when the low `k` bits of `val1` are clear, `33 - k` units of fuel are
enough, and the result is the difference `val2 - val1` modulo `2^32`. -/
theorem subtractLoop_spec : ∀ (j k : Nat) (val1 val2 : Nat), k + j = 32 →
    val1 < 4294967296 → val2 < 4294967296 → val1 % 2 ^ k = 0 →
    subtractLoop (j + 1) val1 val2 = some ((val2 + 4294967296 - val1) % 4294967296) := by
  intro j
  induction j with
  | zero =>
    intro k val1 val2 hk h1 h2 hz
    have hk32 : k = 32 := by omega
    subst hk32
    have h0 : val1 = 0 := by
      have : val1 % 2 ^ 32 = val1 := Nat.mod_eq_of_lt (by omega)
      omega
    subst h0
    simp only [subtractLoop]
    rw [if_neg (by simp)]
    rw [Option.some.injEq]
    omega
  | succ j ih =>
    intro k val1 val2 hk h1 h2 hz
    rw [subtractLoop]
    by_cases h0 : val1 = 0
    · subst h0
      rw [if_neg (by simp)]
      rw [Option.some.injEq]
      omega
    · rw [if_pos h0]
      dsimp only
      have hs := xor_add_two_mul_and val2 val1
      have hab := borrow_add_common val1 val2 h1
      have hxl := xor_lt_32 val2 val1 h2 h1
      have hcz : (not32 val2 &&& val1) % 2 ^ k = 0 := by
        have := Nat.and_pow_two_sub_one_eq_mod (not32 val2 &&& val1) k
        have e2 := Nat.and_pow_two_sub_one_eq_mod val1 k
        rw [← this, Nat.and_assoc, e2, hz]
        simp
      have hshl : shl32 (not32 val2 &&& val1) 1
          = (2 * (not32 val2 &&& val1)) % 4294967296 := by
        unfold shl32
        rw [Nat.shiftLeft_eq, Nat.pow_one, Nat.mul_comm]
      have hz' : shl32 (not32 val2 &&& val1) 1 % 2 ^ (k + 1) = 0 := by
        rw [hshl]
        have hd : 2 ^ (k + 1) ∣ 4294967296 := by
          have : (4294967296 : Nat) = 2 ^ 32 := by norm_num
          rw [this]
          exact Nat.pow_dvd_pow 2 (by omega)
        rw [Nat.mod_mod_of_dvd _ hd, Nat.pow_succ, Nat.mul_comm (2 ^ k) 2,
          Nat.mul_mod_mul_left, hcz]
      rw [ih (k + 1) _ _ (by omega) (by unfold shl32; omega) hxl hz', hshl]
      rw [Option.some.injEq]
      omega

theorem subtract_eq (s : State) (val1 val2 : Nat) (h1 : val1 < 4294967296)
    (h2 : val2 < 4294967296) :
    subtract s val1 val2 =
      some ((val2 + 4294967296 - val1) % 4294967296, { s with isSubtract := true }) := by
  unfold subtract WORD_SIZE
  rw [subtractLoop_spec 32 0 val1 val2 (by omega) h1 h2 (by rw [Nat.pow_zero, Nat.mod_one])]
  rfl

theorem Twos_Complement_eq (x : Nat) (hx : x < 4294967296) :
    Twos_Complement x = some ((4294967296 - x) % 4294967296) := by
  unfold Twos_Complement
  rw [add_eq _ _ (by rw [not32_eq x hx]; omega) (by omega), not32_eq x hx]
  rw [Option.some.injEq]
  omega

theorem tmpsubtract_eq (val1 val2 : Nat) (h1 : val1 < 4294967296) (h2 : val2 < 4294967296) :
    tmpsubtract val1 val2 = some ((val1 + 4294967296 - val2) % 4294967296) := by
  unfold tmpsubtract
  rw [Twos_Complement_eq val2 h2]
  dsimp only
  rw [add_eq _ _ h1 (by omega)]
  rw [Option.some.injEq]
  omega

/-- C29: for all 32-bit `a` and `b`, `add a b` returns and its value is `(a + b) mod 2^32`;
the loop test is evaluated at most 33 times, that is the carry-propagation loop makes at most
32 passes. The function reads and writes no global (it is a function of its two arguments), so
HI and LO are untouched. -/
theorem C29_add_terminates_with_sum (a b : Nat) (ha : a < 4294967296) (hb : b < 4294967296) :
    add a b = some ((a + b) % 4294967296) ∧
    addLoop 33 a b = some ((a + b) % 4294967296) :=
  ⟨add_eq a b ha hb, add_eq a b ha hb⟩

/-- C29 at `1 + 0xFFFFFFFF`, where the carry runs through all 32 bits: the sum wraps to 0, and
32 evaluations of the loop test are not enough. -/
theorem C29_add_terminates_with_sum_witness :
    add 1 0xFFFFFFFF = some 0 ∧ addLoop 33 1 0xFFFFFFFF = some 0 ∧
    addLoop 32 1 0xFFFFFFFF = none :=
  ⟨(C29_add_terminates_with_sum 1 0xFFFFFFFF (by decide) (by decide)).1,
   (C29_add_terminates_with_sum 1 0xFFFFFFFF (by decide) (by decide)).2, by decide⟩

/-- C30: for all 32-bit `val1` and `val2`, `subtract val1 val2` returns, its value is
`(val2 - val1) mod 2^32`, the borrow-propagation loop makes at most 32 passes, `isSubtract` is
set and nothing else of the state changes (HI and LO included); the value agrees with
`tmpsubtract val2 val1`, which is `add val2 (Twos_Complement val1)`. -/
theorem C30_subtract_terminates_with_difference (s : State) (val1 val2 : Nat)
    (h1 : val1 < 4294967296) (h2 : val2 < 4294967296) :
    subtract s val1 val2 =
      some ((val2 + 4294967296 - val1) % 4294967296, { s with isSubtract := true }) ∧
    subtractLoop 33 val1 val2 = some ((val2 + 4294967296 - val1) % 4294967296) ∧
    tmpsubtract val2 val1 = some ((val2 + 4294967296 - val1) % 4294967296) ∧
    (∃ t, Twos_Complement val1 = some t ∧ tmpsubtract val2 val1 = add val2 t) :=
  ⟨subtract_eq s val1 val2 h1 h2,
   subtractLoop_spec 32 0 val1 val2 (by omega) h1 h2 (by rw [Nat.pow_zero, Nat.mod_one]),
   tmpsubtract_eq val2 val1 h2 h1,
   ⟨_, Twos_Complement_eq val1 h1, by
      unfold tmpsubtract
      rw [Twos_Complement_eq val1 h1]⟩⟩

/-- C30 at `subtract 5 3`, that is `3 - 5`: the difference wraps to `0xFFFFFFFE`. -/
theorem C30_subtract_terminates_with_difference_witness :
    subtract zeroState 5 3 = some (0xFFFFFFFE, { zeroState with isSubtract := true }) ∧
    tmpsubtract 3 5 = some 0xFFFFFFFE :=
  ⟨(C30_subtract_terminates_with_difference zeroState 5 3 (by decide) (by decide)).1,
   (C30_subtract_terminates_with_difference zeroState 5 3 (by decide) (by decide)).2.2.1⟩

/-! ## The label table -/

theorem getLabelIndexLoop_absent (x : String) :
    ∀ (L R : List label_pos) (i : Int), (∀ e ∈ L, e.label ≠ x) →
      getLabelIndexLoop x (L ++ R) i = getLabelIndexLoop x R (i + L.length) := by
  intro L
  induction L with
  | nil =>
    intro R i _
    simp
  | cons e rest ih =>
    intro R i h
    have he : ¬ x = e.label := fun hc => h e (List.mem_cons_self _ _) hc.symm
    have hrest : ∀ y ∈ rest, y.label ≠ x := fun y hy => h y (List.mem_cons_of_mem _ hy)
    rw [List.cons_append, getLabelIndexLoop, if_neg he, ih R (i + 1) hrest, List.length_cons]
    congr 1
    push_cast
    omega

theorem getLabelIndexLoop_present (x : String) :
    ∀ (L R : List label_pos) (i : Int), 0 ≤ i → (∃ e ∈ L, e.label = x) →
      getLabelIndexLoop x (L ++ R) i = getLabelIndexLoop x L i ∧
      i ≤ getLabelIndexLoop x L i := by
  intro L
  induction L with
  | nil =>
    intro R i _ h
    obtain ⟨e, he, -⟩ := h
    cases he
  | cons e rest ih =>
    intro R i hi h
    rw [List.cons_append, getLabelIndexLoop, getLabelIndexLoop]
    by_cases he : x = e.label
    · rw [if_pos he, if_pos he]
      exact ⟨rfl, le_refl _⟩
    · rw [if_neg he, if_neg he]
      have hrest : ∃ y ∈ rest, y.label = x := by
        obtain ⟨y, hy, hyx⟩ := h
        rcases List.mem_cons.1 hy with h1 | h1
        · subst h1
          exact absurd hyx.symm he
        · exact ⟨y, h1, hyx⟩
      obtain ⟨h1, h2⟩ := ih R (i + 1) (by omega) hrest
      exact ⟨h1, by omega⟩

theorem getLabelIndex_eq_neg_one_iff (LABELS : List label_pos) (x : String) :
    getLabelIndex LABELS x = -1 ↔ ∀ e ∈ LABELS, e.label ≠ x := by
  unfold getLabelIndex
  constructor
  · intro h
    by_contra hc
    push_neg at hc
    have := (getLabelIndexLoop_present x LABELS [] 0 (le_refl _) hc).2
    omega
  · intro h
    have := getLabelIndexLoop_absent x LABELS [] 0 h
    rw [List.append_nil] at this
    rw [this]
    rfl

/-- C21: label table insertion. For every table with fewer than 100 entries and every label
`l` shorter than 50 characters that no entry carries, `storeLabelInformation l p` returns the
previous entry count `n`; afterwards the table has `n + 1` entries, `getLabelIndex l = n`,
entry `n` is `l` with position `p`, and every earlier entry and the index of every earlier
label are as before. For every label that an entry already carries, the function returns -1
and leaves the table (and so its count) unchanged. -/
theorem C21_label_table_insertion (LABELS : List label_pos) (l : String) (p : Int) :
    ((∀ e ∈ LABELS, e.label ≠ l) → LABELS.length < 100 → l.length < 50 →
      ∃ L', storeLabelInformation LABELS l p = some ((LABELS.length : Int), L') ∧
        L'.length = LABELS.length + 1 ∧
        getLabelIndex L' l = LABELS.length ∧
        L'[LABELS.length]? = some ⟨l, p⟩ ∧
        (∀ i, i < LABELS.length → L'[i]? = LABELS[i]?) ∧
        (∀ x, (∃ e ∈ LABELS, e.label = x) → getLabelIndex L' x = getLabelIndex LABELS x)) ∧
    ((∃ e ∈ LABELS, e.label = l) → storeLabelInformation LABELS l p = some (-1, LABELS)) := by
  constructor
  · intro habs hlen hl
    have h1 : getLabelIndex LABELS l = -1 := (getLabelIndex_eq_neg_one_iff _ _).2 habs
    have e : storeLabelInformation LABELS l p =
        some ((LABELS.length : Int), LABELS ++ [⟨l, p⟩]) := by
      unfold storeLabelInformation TOTAL_LABELS
      rw [if_neg (by rw [h1]; simp), if_neg (by omega), if_neg (by omega)]
    refine ⟨_, e, by simp, ?_, ?_, ?_, ?_⟩
    · unfold getLabelIndex
      rw [getLabelIndexLoop_absent l LABELS _ 0 habs]
      simp [getLabelIndexLoop]
    · rw [List.getElem?_append_right (le_refl _), Nat.sub_self, List.getElem?_cons_zero]
    · intro i hi
      rw [List.getElem?_append_left hi]
    · intro x hx
      unfold getLabelIndex
      exact (getLabelIndexLoop_present x LABELS _ 0 (le_refl _) hx).1
  · intro hpres
    have h1 : getLabelIndex LABELS l ≠ -1 := by
      intro hc
      obtain ⟨e, he, hel⟩ := hpres
      exact (getLabelIndex_eq_neg_one_iff _ _).1 hc e he hel
    unfold storeLabelInformation
    rw [if_pos h1]

/-- C21 on a table of two labels: a new label gets index 2, a present one is refused. -/
theorem C21_label_table_insertion_witness :
    (∃ L', storeLabelInformation [⟨"start", 0⟩, ⟨"loop", 2⟩] "done" 9 = some (2, L') ∧
      getLabelIndex L' "done" = 2 ∧ L'[2]? = some ⟨"done", 9⟩ ∧ getLabelIndex L' "loop" = 1) ∧
    storeLabelInformation [⟨"start", 0⟩, ⟨"loop", 2⟩] "loop" 5
      = some (-1, [⟨"start", 0⟩, ⟨"loop", 2⟩]) := by
  have h := C21_label_table_insertion [⟨"start", 0⟩, ⟨"loop", 2⟩] "done" 9
  have h' := C21_label_table_insertion [⟨"start", 0⟩, ⟨"loop", 2⟩] "loop" 5
  obtain ⟨L', e, -, hi, hg, -, hk⟩ := h.1 (by decide) (by decide) (by decide)
  refine ⟨⟨L', e, hi, hg, ?_⟩, h'.2 ⟨⟨"loop", 2⟩, by decide, rfl⟩⟩
  rw [hk "loop" ⟨⟨"loop", 2⟩, by decide, rfl⟩]
  decide

/-! ## The fetch-decode-execute loop -/

theorem decodeAndExecuteLoop_zero (junk : Nat → instruction_attr) (fuel c : Nat) (s : State) :
    decodeAndExecuteLoop junk (fuel + 1) c 0 s = some s := by
  rw [decodeAndExecuteLoop]
  rfl

/-- A run of the loop is its first `n` passes followed by the rest of the run. -/
theorem decodeAndExecuteLoop_passes (junk : Nat → instruction_attr) :
    ∀ (n c w : Nat) (s : State) (c' w' : Nat) (s' : State) (fuel : Nat),
      decodeAndExecutePasses junk n c w s = some (c', w', s') →
      decodeAndExecuteLoop junk (n + fuel) c w s = decodeAndExecuteLoop junk fuel c' w' s' := by
  intro n
  induction n with
  | zero =>
    intro c w s c' w' s' fuel h
    rw [decodeAndExecutePasses] at h
    cases h
    rw [Nat.zero_add]
  | succ n ih =>
    intro c w s c' w' s' fuel h
    rw [decodeAndExecutePasses] at h
    have e : n + 1 + fuel = (n + fuel) + 1 := by omega
    rw [e, decodeAndExecuteLoop]
    by_cases hw : w ≠ 0
    · rw [if_pos hw] at h ⊢
      cases hx : executeFetched s w (junk c) with
      | none => rw [hx] at h; cases h
      | some s1 =>
        rw [hx] at h
        dsimp only at h ⊢
        cases hf : fetchInstruction s1 with
        | none => rw [hf] at h; cases h
        | some r =>
          obtain ⟨w1, s2⟩ := r
          rw [hf] at h
          dsimp only at h ⊢
          exact ih _ _ _ _ _ _ _ h
    · rw [if_neg hw] at h
      cases h

/-- The formats for which the decoder writes `const_or_label`. -/
theorem decode_prev (w : Nat) (p : instruction_attr) :
    decodeInstructionFromBinary w p =
      (decodeInstructionFromBinary w retInstr).map fun d =>
        { d with
          const_or_label :=
            if d.format = .IMM_REG ∨ d.format = .IMM_MEM ∨ d.format = .CONTROL_LABEL ∨
                d.format = .MEM_DISPLAY ∨ d.format = .MOV_IMM_REG then d.const_or_label
            else p.const_or_label
          format := if inSomeCategory d.instruction = true then d.format else p.format } := by
  unfold decodeInstructionFromBinary
  dsimp only
  generalize getInstructionFromOpcode _ = oc
  cases oc with
  | none => rfl
  | some command =>
    dsimp only
    by_cases h1 : IsStringInStringArray command MEM_INSTR = true
    · rw [if_pos h1, if_pos h1]
      simp [inSomeCategory, h1]
    rw [if_neg h1, if_neg h1]
    by_cases h2 : IsStringInStringArray command R_INSTR = true
    · rw [if_pos h2, if_pos h2]
      cases hfo : formatOfInt ((w >>> 2) &&& 0x03) with
      | none => rfl
      | some f =>
        have hf : f = .LOAD_STORE ∨ f = .REG_REG ∨ f = .REG_MEM ∨ f = .MEM_REG := by
          have h3 : (w >>> 2) &&& 0x03 < 4 := by
            have := @Nat.and_le_right (w >>> 2) 3
            omega
          generalize (w >>> 2) &&& 0x03 = k at hfo h3
          have : k = 0 ∨ k = 1 ∨ k = 2 ∨ k = 3 := by omega
          rcases this with h | h | h | h <;> subst h <;> simp [formatOfInt] at hfo <;>
            simp [← hfo]
        rcases hf with h | h | h | h <;> subst h <;> simp [inSomeCategory, h2]
    rw [if_neg h2, if_neg h2]
    by_cases h3 : IsStringInStringArray command I_INSTR = true
    · rw [if_pos h3, if_pos h3]
      by_cases hb : (w >>> 18) &&& 0x0f = 0
      · rw [if_pos hb]
        simp [inSomeCategory, h3]
      · rw [if_neg hb]
        simp [inSomeCategory, h3]
    rw [if_neg h3, if_neg h3]
    by_cases h4 : IsStringInStringArray command CONTROL_INSTR = true
    · rw [if_pos h4, if_pos h4]
      simp [inSomeCategory, h4]
    rw [if_neg h4, if_neg h4]
    by_cases h5 : IsStringInStringArray command STACK_INSTR = true
    · rw [if_pos h5, if_pos h5]
      simp [inSomeCategory, h5]
    rw [if_neg h5, if_neg h5]
    by_cases h6 : IsStringInStringArray command NO_OPERAND_INSTR = true
    · rw [if_pos h6, if_pos h6]
      simp [inSomeCategory, h6]
    rw [if_neg h6, if_neg h6]
    by_cases h7 : IsStringInStringArray command MEM_DISPLAY_INSTR = true
    · rw [if_pos h7, if_pos h7]
      simp [inSomeCategory, h7]
    rw [if_neg h7, if_neg h7]
    by_cases h8 : IsStringInStringArray command MOV_INSTR = true
    · rw [if_pos h8, if_pos h8]
      by_cases hi : (w >>> 16) &&& 0x01 ≠ 0
      · rw [if_pos hi, if_pos hi]
        simp [inSomeCategory, h8]
      · rw [if_neg hi, if_neg hi]
        simp [inSomeCategory, h8]
    rw [if_neg h8, if_neg h8]
    simp [inSomeCategory, h1, h2, h3, h4, h5, h6, h7, h8, retInstr]

/-- What executing a fetched word does is the same for every content of the unwritten struct,
unless the word is one of the two kinds that read an unwritten field. -/
theorem executeFetched_junk (s : State) (w : Nat) (p q : instruction_attr)
    (h : junkSensitive w = false) : executeFetched s w p = executeFetched s w q := by
  have key : ∀ p, executeFetched s w p = executeFetched s w retInstr := by
    intro p
    unfold junkSensitive at h
    unfold executeFetched
    rw [decode_prev w p]
    cases hd : decodeInstructionFromBinary w retInstr with
    | none => rfl
    | some d =>
      rw [hd] at h
      simp only [Bool.or_eq_false_iff, Bool.and_eq_false_iff, Bool.not_eq_false'] at h
      obtain ⟨hmov, hcat⟩ := h
      simp only [Option.map_some', hcat, if_true]
      obtain ⟨fmt, ins, b, i, off, sc, op, c⟩ := d
      dsimp only at hmov ⊢
      cases fmt <;> simp only [reduceCtorEq, or_false, false_or, or_true, true_or, if_true,
        if_false, or_self] <;> try rfl
      have hne : ¬ ins = "movi" := by
        simpa using hmov
      simp only [executeDecoded, executeMovInstructions, onCommand, if_neg hne]
  rw [key p, key q]


theorem decodeAndExecuteLoop_junk (junk : Nat → instruction_attr) :
    ∀ (fuel c c' w : Nat) (s : State), junkFreePasses fuel w s = true →
      decodeAndExecuteLoop junk fuel c w s = decodeAndExecuteLoop exampleJunkRun fuel c' w s := by
  intro fuel
  induction fuel with
  | zero => intro c c' w s _; rfl
  | succ fuel ih =>
    intro c c' w s h
    rw [junkFreePasses] at h
    rw [decodeAndExecuteLoop, decodeAndExecuteLoop]
    by_cases hw : w ≠ 0
    · rw [if_pos hw] at h ⊢
      rw [if_pos hw]
      rw [Bool.and_eq_true, Bool.not_eq_true'] at h
      obtain ⟨hs, h⟩ := h
      rw [executeFetched_junk s w (junk c) retInstr hs]
      have e : exampleJunkRun c' = retInstr := rfl
      rw [e]
      cases hx : executeFetched s w retInstr with
      | none => rfl
      | some s1 =>
        rw [hx] at h
        dsimp only at h ⊢
        cases hf : fetchInstruction s1 with
        | none => rfl
        | some r =>
          obtain ⟨w1, s2⟩ := r
          rw [hf] at h
          dsimp only at h ⊢
          exact ih _ _ _ _ h
    · rw [if_neg hw, if_neg hw]

theorem decodeAndExecutePasses_junk (junk : Nat → instruction_attr) :
    ∀ (n c w : Nat) (s : State), junkFreePasses n w s = true →
      decodeAndExecutePasses junk n c w s = decodeAndExecutePasses exampleJunkRun n c w s := by
  intro n
  induction n with
  | zero => intro c w s _; rfl
  | succ n ih =>
    intro c w s h
    rw [junkFreePasses] at h
    rw [decodeAndExecutePasses, decodeAndExecutePasses]
    by_cases hw : w ≠ 0
    · rw [if_pos hw] at h ⊢
      rw [if_pos hw]
      rw [Bool.and_eq_true, Bool.not_eq_true'] at h
      obtain ⟨hs, h⟩ := h
      rw [executeFetched_junk s w (junk c) retInstr hs]
      have e : exampleJunkRun c = retInstr := rfl
      rw [e]
      cases hx : executeFetched s w retInstr with
      | none => rfl
      | some s1 =>
        rw [hx] at h
        dsimp only at h ⊢
        cases hf : fetchInstruction s1 with
        | none => rfl
        | some r =>
          obtain ⟨w1, s2⟩ := r
          rw [hf] at h
          dsimp only at h ⊢
          exact ih _ _ _ h
    · rw [if_neg hw, if_neg hw]

/-! ## The assembler and the unwritten locals -/

theorem getRegisterSumAddress_junk (s : State) (arg : List Char) (S : Int)
    (j : instruction_attr) :
    getRegisterSumAddress s arg S j =
      (getRegisterSumAddress s arg S retInstr).map fun r =>
        (r.1, { j with base_register := r.2.base_register,
                       index_register := r.2.index_register }) := by
  unfold getRegisterSumAddress
  dsimp only
  repeat' split
  all_goals rfl

theorem getAddressFromGenericAddressingMode_junk (s : State) (arg : List Char)
    (j : instruction_attr) :
    getAddressFromGenericAddressingMode s arg j =
      (getAddressFromGenericAddressingMode s arg retInstr).map fun r =>
        (r.1, { j with base_register := r.2.base_register,
                       index_register := r.2.index_register,
                       offset := r.2.offset, scale := r.2.scale }) := by
  unfold getAddressFromGenericAddressingMode
  dsimp only
  generalize (List.takeWhile (fun c => decide (c ≠ '(')) arg) = temp
  by_cases c1 : temp.length ≥ 100
  · rw [if_pos c1, if_pos c1]
    rfl
  rw [if_neg c1, if_neg c1]
  generalize (if temp ≠ [] then getLongFromBaseTenOrHexString temp else 0) = D
  by_cases c2 : temp ≠ [] ∧ D = -1
  · rw [if_pos c2, if_pos c2]
    rfl
  rw [if_neg c2, if_neg c2]
  by_cases c3 : D > 255
  · rw [if_pos c3, if_pos c3]
    rfl
  rw [if_neg c3, if_neg c3]
  cases List.drop temp.length arg with
  | nil => rfl
  | cons x arg1 =>
    dsimp only
    generalize (List.takeWhile (fun c => decide (c ≠ ')')) arg1) = temp1
    by_cases c4 : temp1.length ≥ 100
    · rw [if_pos c4, if_pos c4]
      rfl
    rw [if_neg c4, if_neg c4]
    cases List.drop temp1.length arg1 with
    | nil => rfl
    | cons y arg2 =>
      dsimp only
      generalize (if arg2 ≠ [] then getLongFromBaseTenOrHexString arg2 else 1) = S
      by_cases c5 : S ≠ 1 ∧ S ≠ 2 ∧ S ≠ 4 ∧ S ≠ 8
      · rw [if_pos c5, if_pos c5]
        rfl
      rw [if_neg c5, if_neg c5, getRegisterSumAddress_junk s temp1 S j]
      cases getRegisterSumAddress s temp1 S retInstr with
      | none => rfl
      | some r => rfl

theorem getValidMemoryAddress_junk (s : State) (arg : List Char) (j : instruction_attr) :
    getValidMemoryAddress s arg j =
      (getValidMemoryAddress s arg retInstr).map fun r =>
        (r.1, { j with base_register := r.2.base_register,
                       index_register := r.2.index_register,
                       offset := r.2.offset, scale := r.2.scale }) := by
  unfold getValidMemoryAddress
  by_cases c : getIndexOfFirstChar arg '(' ≠ -1
  · rw [if_pos c, if_pos c, getAddressFromGenericAddressingMode_junk s arg j]
    cases getAddressFromGenericAddressingMode s arg retInstr with
    | none => rfl
    | some r => rfl
  · rw [if_neg c, if_neg c]
    rfl

theorem validateMemoryTypeInstruction_junk (s : State) (command arg1 arg2 : String)
    (j : instruction_attr) :
    validateMemoryTypeInstruction s command arg1 arg2 j =
      validateMemoryTypeInstruction s command arg1 arg2 retInstr := by
  unfold validateMemoryTypeInstruction
  rw [getValidMemoryAddress_junk s _ j]
  cases getValidMemoryAddress s arg2.data retInstr with
  | none => rfl
  | some r => rfl

theorem validateITypeInstruction_junk (s : State) (command arg1 arg2 : String)
    (j : instruction_attr) :
    validateITypeInstruction s command arg1 arg2 j =
      validateITypeInstruction s command arg1 arg2 retInstr := by
  unfold validateITypeInstruction
  rw [getValidMemoryAddress_junk s _ j]
  cases getConstant arg1 with
  | none => rfl
  | some c =>
    cases getValidMemoryAddress s arg2.data retInstr with
    | none => rfl
    | some r => rfl

theorem validateControlTransferInstruction_junk (LABELS : List label_pos) (s : State)
    (n : Int) (command label_arg : String) (j : instruction_attr) :
    validateControlTransferInstruction LABELS s n command label_arg j =
      validateControlTransferInstruction LABELS s n command label_arg retInstr := by
  unfold validateControlTransferInstruction
  dsimp only
  split_ifs
  · rfl
  · cases LABELS[(getLabelIndex LABELS label_arg).toNat]? with
    | none => rfl
    | some e => rfl

/-- The validation of a line that is not an arithmetic instruction in register or memory
format stores the same word for every content of the unwritten locals. -/
theorem validateEncodeAndSaveInstruction_junk (LABELS : List label_pos) (s : State) (n : Int)
    (command : String) (args : List String) (j : instruction_attr) (jr : Int × Int)
    (h : IsStringInStringArray command R_INSTR = false) :
    validateEncodeAndSaveInstruction LABELS s n command args j jr =
      validateEncodeAndSaveInstruction LABELS s n command args retInstr (0, 0) := by
  unfold validateEncodeAndSaveInstruction
  dsimp only
  simp only [h, validateMemoryTypeInstruction_junk s _ _ _ j,
    validateITypeInstruction_junk s _ _ _ j,
    validateControlTransferInstruction_junk LABELS s _ _ _ j]
  rfl

theorem secondPass_junk (LABELS : List label_pos) (j : Int → instruction_attr)
    (jr : Int → Int × Int) :
    ∀ (lines : List String) (c : Int) (s : State), junkFreeLines lines = true →
      secondPass LABELS j jr lines c s
        = secondPass LABELS exampleJunk exampleJunkRegs lines c s := by
  intro lines
  induction lines with
  | nil => intro c s _; rfl
  | cons line rest ih =>
    intro c s h
    unfold junkFreeLines at h
    rw [List.all_cons, Bool.and_eq_true] at h
    obtain ⟨h1, h2⟩ := h
    rw [secondPass, secondPass]
    by_cases hl : line.data.length < 3
    · rw [if_pos hl, if_pos hl]
      exact ih _ _ h2
    · rw [if_neg hl, if_neg hl]
      dsimp only at h1 ⊢
      cases hs : splitLine line.data with
      | none => rfl
      | some r =>
        obtain ⟨command, args⟩ := r
        rw [hs] at h1
        dsimp only at h1 ⊢
        rw [Bool.not_eq_true'] at h1
        rw [validateEncodeAndSaveInstruction_junk LABELS s _ command args _ _ h1]
        have e : validateEncodeAndSaveInstruction LABELS s (c + 1 - 2) command args
            (exampleJunk (c + 1 - 2)) (exampleJunkRegs (c + 1 - 2))
            = validateEncodeAndSaveInstruction LABELS s (c + 1 - 2) command args retInstr (0, 0) :=
          rfl
        rw [e]
        cases validateEncodeAndSaveInstruction LABELS s (c + 1 - 2) command args retInstr (0, 0) with
        | none => rfl
        | some s1 => exact ih _ _ h2

/-- Assembling and running a program that reads no unwritten local or field gives the same
result for every content of these locals. -/
theorem assembleAndRun_junk (j : Int → instruction_attr) (jr : Int → Int × Int)
    (jx : Nat → instruction_attr) (lines : List String) (fuel : Nat) (s : State)
    (h : junkFreeProgram lines fuel s = true) :
    assembleAndRun j jr jx lines fuel s
      = assembleAndRun exampleJunk exampleJunkRegs exampleJunkRun lines fuel s := by
  unfold junkFreeProgram assembled at h
  rw [Bool.and_eq_true] at h
  obtain ⟨h1, h2⟩ := h
  unfold assembleAndRun
  cases hf : firstPass lines 0 [] with
  | none => rfl
  | some LABELS =>
    rw [hf] at h2
    dsimp only at h2
    simp only [Option.bind_eq_bind, Option.some_bind]
    rw [secondPass_junk LABELS j jr lines 1 s h1]
    cases hs : secondPass LABELS exampleJunk exampleJunkRegs lines 1 s with
    | none => rfl
    | some s0 =>
      rw [hs] at h2
      dsimp only at h2
      simp only [Option.some_bind]
      unfold decodeAndExecuteInstructions
      cases hw : fetchInstruction s0 with
      | none => rfl
      | some r =>
        obtain ⟨w, s1⟩ := r
        rw [hw] at h2
        dsimp only at h2 ⊢
        exact decodeAndExecuteLoop_junk jx fuel 1 1 w s1 h2

theorem decodeAndExecuteLoop_fuel (junk : Nat → instruction_attr) :
    ∀ (fuel k c w : Nat) (s r : State), decodeAndExecuteLoop junk fuel c w s = some r →
      decodeAndExecuteLoop junk (fuel + k) c w s = some r := by
  intro fuel
  induction fuel with
  | zero => intro k c w s r h; cases h
  | succ fuel ih =>
    intro k c w s r h
    have e : fuel + 1 + k = (fuel + k) + 1 := by omega
    rw [e]
    rw [decodeAndExecuteLoop] at h ⊢
    by_cases hw : w ≠ 0
    · rw [if_pos hw] at h ⊢
      cases hx : executeFetched s w (junk c) with
      | none => rw [hx] at h; cases h
      | some s1 =>
        rw [hx] at h
        dsimp only at h ⊢
        cases hf : fetchInstruction s1 with
        | none => rw [hf] at h; cases h
        | some p =>
          obtain ⟨w1, s2⟩ := p
          rw [hf] at h
          dsimp only at h ⊢
          exact ih _ _ _ _ _ h
    · rw [if_neg hw] at h ⊢
      exact h

theorem decodeAndExecuteInstructions_fuel (junk : Nat → instruction_attr) (fuel k : Nat)
    (s r : State) (h : decodeAndExecuteInstructions junk fuel s = some r) :
    decodeAndExecuteInstructions junk (fuel + k) s = some r := by
  unfold decodeAndExecuteInstructions at h ⊢
  cases hf : fetchInstruction s with
  | none => rw [hf] at h; cases h
  | some p =>
    obtain ⟨w, s1⟩ := p
    rw [hf] at h
    exact decodeAndExecuteLoop_fuel junk fuel k 1 w s1 r h

theorem assembleAndRun_fuel (j : Int → instruction_attr) (jr : Int → Int × Int)
    (jx : Nat → instruction_attr) (lines : List String) (fuel k : Nat) (s r : State)
    (h : assembleAndRun j jr jx lines fuel s = some r) :
    assembleAndRun j jr jx lines (fuel + k) s = some r := by
  unfold assembleAndRun at h ⊢
  simp only [Option.bind_eq_bind, Option.bind_eq_some] at h ⊢
  obtain ⟨L, hL, s0, hs, hr⟩ := h
  exact ⟨L, hL, s0, hs, decodeAndExecuteInstructions_fuel jx fuel k s0 r hr⟩

/-- A pass that does not return ends every run that reaches it without a result. -/
theorem decodeAndExecuteLoop_stuck (junk : Nat → instruction_attr) (n c w : Nat) (s : State)
    (c' w' : Nat) (s' : State) (hp : decodeAndExecutePasses junk n c w s = some (c', w', s'))
    (hw : w' ≠ 0) (hx : executeFetched s' w' (junk c') = none) (fuel : Nat) :
    decodeAndExecuteLoop junk fuel c w s = none := by
  cases hr : decodeAndExecuteLoop junk fuel c w s with
  | none => rfl
  | some r =>
    have h1 := decodeAndExecuteLoop_fuel junk fuel (n + 1) c w s r hr
    have e : fuel + (n + 1) = n + (fuel + 1) := by omega
    rw [e, decodeAndExecuteLoop_passes junk n c w s c' w' s' (fuel + 1) hp,
      decodeAndExecuteLoop, if_pos hw, hx] at h1
    cases h1

theorem assembled_junk (j : Int → instruction_attr) (jr : Int → Int × Int)
    (lines : List String) (s : State) (h : junkFreeLines lines = true) :
    assembled j jr lines s = assembled exampleJunk exampleJunkRegs lines s := by
  unfold assembled
  cases firstPass lines 0 [] with
  | none => rfl
  | some LABELS => exact secondPass_junk LABELS j jr lines 1 s h

theorem bind_assembleAndRun_junk (j : Int → instruction_attr) (jr : Int → Int × Int)
    (jx : Nat → instruction_attr) (lines : List String) (fuel : Nat) (o : Option State)
    (h : o.map (junkFreeProgram lines fuel) = some true) :
    o.bind (assembleAndRun j jr jx lines fuel)
      = o.bind (assembleAndRun exampleJunk exampleJunkRegs exampleJunkRun lines fuel) := by
  cases o with
  | none => rfl
  | some s =>
    rw [Option.map_some', Option.some.injEq] at h
    exact assembleAndRun_junk j jr jx lines fuel s h

theorem main_eq (j : Int → instruction_attr) (jr : Int → Int × Int)
    (jx : Nat → instruction_attr) (lines : List String) (fuel : Nat) :
    main j jr jx lines fuel = seededState.bind (assembleAndRun j jr jx lines fuel) := rfl

/-! ## The scenarios -/

set_option maxRecDepth 100000 in
/-- C22: scenario S4. From the seeded initial state, for every content of the unwritten
locals, `main` assembles the program `movi $0, r10` / `L: addi $1, r10` / `slti $5, r10` /
`jl L` and the fetch-decode-execute loop returns: 17 evaluations of the loop test are enough
(16 instructions are executed, then the zero word after the program is fetched), and for this
and every larger fuel the final state has `R10 = 5` and `PC = 1044`. -/
theorem C22_scenario_S4 (junk : Int → instruction_attr) (junkRegs : Int → Int × Int)
    (junkRun : Nat → instruction_attr) :
    ∃ s, (∀ k, main junk junkRegs junkRun programS4 (17 + k) = some s) ∧
      main junk junkRegs junkRun programS4 16 = none ∧
      s.GPRS 10 = 5 ∧ s.PC = 1044 ∧ loadWord s.MEMORY 1040 = 0 := by
  have e17 := bind_assembleAndRun_junk junk junkRegs junkRun programS4 17 seededState
    (by decide)
  have e16 := bind_assembleAndRun_junk junk junkRegs junkRun programS4 16 seededState
    (by decide)
  have r17 : (main exampleJunk exampleJunkRegs exampleJunkRun programS4 17).map
      (fun s => (s.GPRS 10, s.PC, loadWord s.MEMORY 1040)) = some (5, 1044, 0) := by decide
  have r16 : main exampleJunk exampleJunkRegs exampleJunkRun programS4 16 = none :=
    Option.not_isSome_iff_eq_none.1 (by decide)
  rw [main_eq] at r17 r16
  rw [← e17] at r17
  rw [← e16] at r16
  rw [← main_eq] at r17 r16
  cases hm : main junk junkRegs junkRun programS4 17 with
  | none => rw [hm] at r17; cases r17
  | some s =>
    rw [hm, Option.map_some', Option.some.injEq, Prod.mk.injEq, Prod.mk.injEq] at r17
    refine ⟨s, ?_, r16, r17.1, r17.2.1, r17.2.2⟩
    intro k
    rw [main_eq] at hm ⊢
    cases h0 : seededState with
    | none => rw [h0] at hm; cases hm
    | some s0 =>
      rw [h0] at hm
      exact assembleAndRun_fuel junk junkRegs junkRun programS4 17 k s0 s hm

set_option maxRecDepth 100000 in
/-- C23 (counterexample): scenario S5 does not run to completion inside the memory. After
`call F`, `addi $7, r0`, `ret` and `jmp END` the registers hold `R0 = 7` and `SP = 65535`, and
the word fetched next is the `ret` at `END`; this `ret` pops from `SP = 65535`, that is it
reads the bytes 65535..65538, three of them outside the 65,536 bytes of the memory, so the
run returns no final state. -/
theorem C23_S5_final_ret_reads_outside_memory :
    (do let s ← seededState
        let s ← assembled exampleJunk exampleJunkRegs programS5 s
        let (w, s) ← fetchInstruction s
        let (c, w, s) ← decodeAndExecutePasses exampleJunkRun 4 1 w s
        pure ([c, w, s.GPRS 0, s.GPRS 14, s.PC],
          (decodeInstructionFromBinary w retInstr).map (fun d => d.instruction),
          [(executeFetched s w retInstr).isSome,
           (readFromMemory s (s.GPRS 14) NUM_BYTES_IN_WORD).isSome]))
      = some ([5, 0x20000000, 7, 65535, 1044], some "ret", [false, false]) ∧
    (main exampleJunk exampleJunkRegs exampleJunkRun programS5 100).isSome = false := by
  decide

set_option maxRecDepth 100000 in
/-- C23 (amended): scenario S5 up to the last instruction. From the seeded initial state
(SP = 65535, R0 = 0), for every content of the unwritten locals, the program `call F` /
`jmp END` / `F: addi $7, r0` / `ret` / `END: ret` is assembled and its first four
instructions (`call F`, `addi $7, r0`, `ret`, `jmp END`) execute, every memory access inside
the memory, leaving R0 increased by 7 and SP equal to its initial value 65535. The word
fetched next is the `ret` at `END`; it reads its return address from bytes 65535..65538,
outside the memory, so for no fuel does the run return a final state. -/
theorem C23_scenario_S5_until_final_ret (junk : Int → instruction_attr)
    (junkRegs : Int → Int × Int) (junkRun : Nat → instruction_attr) :
    ∃ s0 s1 s2 s w0 w,
      seededState = some s0 ∧ s0.GPRS 0 = 0 ∧ s0.GPRS 14 = 65535 ∧
      assembled junk junkRegs programS5 s0 = some s1 ∧
      fetchInstruction s1 = some (w0, s2) ∧
      decodeAndExecutePasses junkRun 4 1 w0 s2 = some (5, w, s) ∧
      s.GPRS 0 = 7 ∧ s.GPRS 14 = 65535 ∧ s.PC = 1044 ∧
      (decodeInstructionFromBinary w (junkRun 5)).map (fun d => d.instruction) = some "ret" ∧
      readFromMemory s (s.GPRS 14) NUM_BYTES_IN_WORD = none ∧
      executeFetched s w (junkRun 5) = none ∧
      ∀ fuel, main junk junkRegs junkRun programS5 fuel = none := by
  have hA := assembled_junk junk junkRegs programS5
  have big : (do
      let s0 ← seededState
      let s1 ← assembled exampleJunk exampleJunkRegs programS5 s0
      let (w0, s2) ← fetchInstruction s1
      let (c, w, s) ← decodeAndExecutePasses exampleJunkRun 4 1 w0 s2
      pure ([s0.GPRS 0, s0.GPRS 14, c, w, s.GPRS 0, s.GPRS 14, s.PC],
        (decodeInstructionFromBinary w retInstr).map (fun d => d.instruction),
        [(executeFetched s w retInstr).isSome,
         (readFromMemory s (s.GPRS 14) NUM_BYTES_IN_WORD).isSome,
         junkFreePasses 4 w0 s2, junkSensitive w, junkFreeLines programS5]))
      = some ([0, 65535, 5, 0x20000000, 7, 65535, 1044], some "ret",
          [false, false, true, false, true]) := by
    decide
  simp only [Option.bind_eq_bind, Option.bind_eq_some, Option.pure_def, Option.some.injEq,
    Prod.mk.injEq, Prod.exists, List.cons.injEq, and_true] at big
  obtain ⟨s0, h0, s1, h1, w0, s2, h2, c, w, s, h3, ⟨g0, g14, hc, hw, r0, r14, rpc⟩, hd, hx, hr,
    hjp, hjs, hjl⟩ := big
  subst hc
  have hA' := hA s0 hjl
  have hP := decodeAndExecutePasses_junk junkRun 4 1 w0 s2 hjp
  have hX : executeFetched s w (junkRun 5) = none := by
    rw [executeFetched_junk s w (junkRun 5) retInstr hjs]
    exact Option.not_isSome_iff_eq_none.1 (by rw [hx]; decide)
  have hD : (decodeInstructionFromBinary w (junkRun 5)).map (fun d => d.instruction)
      = some "ret" := by
    rw [decode_prev w (junkRun 5), Option.map_map]
    rw [← hd]
    cases decodeInstructionFromBinary w retInstr <;> rfl
  have hw0 : w ≠ 0 := by rw [hw]; decide
  refine ⟨s0, s1, s2, s, w0, w, h0, g0, g14, by rw [hA', h1], h2, by rw [hP, h3], r0, r14, rpc,
    hD, Option.not_isSome_iff_eq_none.1 (by rw [hr]; decide), hX, ?_⟩
  intro fuel
  rw [main_eq, h0]
  show assembleAndRun junk junkRegs junkRun programS5 fuel s0 = none
  unfold assembleAndRun
  have hA2 := hA'
  unfold assembled at hA2 h1
  cases hf : firstPass programS5 0 [] with
  | none => rfl
  | some LABELS =>
    rw [hf] at hA2 h1
    dsimp only at hA2 h1
    simp only [Option.bind_eq_bind, Option.some_bind]
    rw [hA2, h1]
    simp only [Option.some_bind]
    unfold decodeAndExecuteInstructions
    rw [h2]
    dsimp only
    exact decodeAndExecuteLoop_stuck junkRun 4 1 w0 s2 5 w s (by rw [hP, h3]) hw0 hX fuel

set_option maxRecDepth 100000 in
/-- C24 (counterexample): scenario S6 with R0 = 0x2800 ends with
`R2 = 0xFFFFBEEF`, not `0xDEADBEEF`, and with `MAR = 0x5000`, not `0x2800`: the word of
`movi` carries the low 16 bits of the constant, which the decoder sign-extends, and the
operand `0(r0+r0)1` addresses `R0 + R0 * 1 + 0`. -/
theorem C24_S6_result_differs :
    ((seededWith 0 0x2800).bind
        (assembleAndRun exampleJunk exampleJunkRegs exampleJunkRun programS6 4)).map
      (fun s => [s.GPRS 0, s.GPRS 1, s.GPRS 2, s.MAR, s.MDR, loadWord s.MEMORY 0x5000])
      = some [0x2800, 0xFFFFBEEF, 0xFFFFBEEF, 0x5000, 0xFFFFBEEF, 0xFFFFBEEF] ∧
    (0xFFFFBEEF : Nat) ≠ 0xDEADBEEF ∧ (0x5000 : Nat) ≠ 0x2800 := by
  decide

set_option maxRecDepth 100000 in
/-- C24 (amended): scenario S6. With R0 = 0x2800 in the seeded initial state, for every
content of the unwritten locals, assembling and executing `movi $0xDEADBEEF, r1` /
`store r1, 0(r0+r0)1` / `load r2, 0(r0+r0)1` returns (4 evaluations of the loop test, and the
same state for every larger fuel) and leaves `R2 = 0xFFFFBEEF`, the low 16 bits of the
constant sign-extended, `MAR = 0x5000 = R0 + R0 * 1 + 0` and `MDR = 0xFFFFBEEF`. -/
theorem C24_scenario_S6 (junk : Int → instruction_attr) (junkRegs : Int → Int × Int)
    (junkRun : Nat → instruction_attr) :
    ∃ s, (∀ k, (seededWith 0 0x2800).bind
            (assembleAndRun junk junkRegs junkRun programS6 (4 + k)) = some s) ∧
      s.GPRS 2 = 0xFFFFBEEF ∧ s.MAR = 0x5000 ∧ s.MDR = 0xFFFFBEEF := by
  have e := bind_assembleAndRun_junk junk junkRegs junkRun programS6 4 (seededWith 0 0x2800)
    (by decide)
  have r : ((seededWith 0 0x2800).bind
        (assembleAndRun exampleJunk exampleJunkRegs exampleJunkRun programS6 4)).map
      (fun s => (s.GPRS 2, s.MAR, s.MDR)) = some (0xFFFFBEEF, 0x5000, 0xFFFFBEEF) := by
    decide
  rw [← e] at r
  cases hm : (seededWith 0 0x2800).bind (assembleAndRun junk junkRegs junkRun programS6 4) with
  | none => rw [hm] at r; cases r
  | some s =>
    rw [hm, Option.map_some', Option.some.injEq, Prod.mk.injEq, Prod.mk.injEq] at r
    refine ⟨s, ?_, r.1, r.2.1, r.2.2⟩
    intro k
    cases h0 : seededWith 0 0x2800 with
    | none => rw [h0] at hm; cases hm
    | some s0 =>
      rw [h0] at hm
      exact assembleAndRun_fuel junk junkRegs junkRun programS6 4 k s0 s hm

/-! ## Halting on the zero word -/

/-- Halt on zero where the fetch returns: for every state with `1 ≤ PC ≤ 65532` whose word at
PC is 0, `decodeAndExecuteInstructions` returns with nothing changed but PC, which has moved
on by 4; for a non-zero word exactly one instruction is decoded and executed, and then the
next word is fetched. -/
theorem decodeAndExecuteInstructions_first_word (junk : Nat → instruction_attr) (fuel : Nat)
    (s : State) (h1 : 1 ≤ s.PC) (h : s.PC + 3 < 65536)
    (hb : ∀ i, i < 4 → s.MEMORY (s.PC + i) < 256) :
    (loadWord s.MEMORY s.PC = 0 →
      decodeAndExecuteInstructions junk (fuel + 1) s = some { s with PC := s.PC + 4 }) ∧
    (loadWord s.MEMORY s.PC ≠ 0 →
      decodeAndExecuteInstructions junk (fuel + 1) s =
        (executeFetched { s with PC := s.PC + 4 } (loadWord s.MEMORY s.PC) (junk 1)).bind
          fun s1 => (fetchInstruction s1).bind
            fun r => decodeAndExecuteLoop junk fuel 2 r.1 r.2) := by
  unfold decodeAndExecuteInstructions
  rw [fetchInstruction_eq s h1 h hb]
  dsimp only
  constructor
  · intro hz
    rw [hz, decodeAndExecuteLoop_zero]
  · intro hz
    rw [decodeAndExecuteLoop, if_pos hz]
    cases executeFetched { s with PC := s.PC + 4 } (loadWord s.MEMORY s.PC) (junk 1) with
    | none => rfl
    | some s1 =>
      rw [Option.some_bind]
      dsimp only
      cases fetchInstruction s1 with
      | none => rfl
      | some r => rfl

set_option maxRecDepth 100000 in
/-- C28 (failing input): a state with `PC = 0` whose word at PC is 0. The fetch calls
`readFromMemory (0, 4)`, whose loop test `index >= start_index` on unsigned values holds for
every index when `start_index` is 0: after byte 0 the index wraps to `0xFFFFFFFF` and the read
leaves the memory, so `decodeAndExecuteInstructions` returns no state, for every fuel. The
state is reached from the seeded initial state by `push r0` / `ret`. -/
theorem C28_no_halt_at_address_zero :
    zeroState.PC = 0 ∧ loadWord zeroState.MEMORY 0 = 0 ∧
    (readFromMemory zeroState 0 NUM_BYTES_IN_WORD).isSome = false ∧
    (∀ junk fuel, decodeAndExecuteInstructions junk fuel zeroState = none) ∧
    (do let s ← seededState
        let s ← assembled exampleJunk exampleJunkRegs ["push r0\n", "ret\n"] s
        let (w, s) ← fetchInstruction s
        let (_, w, s) ← decodeAndExecutePasses exampleJunkRun 1 1 w s
        let s ← executeFetched s w retInstr
        pure ([s.PC, loadWord s.MEMORY s.PC], (fetchInstruction s).isSome))
      = some ([0, 0], false) := by
  refine ⟨rfl, by decide, by decide, ?_, by decide⟩
  intro junk fuel
  have hf : fetchInstruction zeroState = none := by
    unfold fetchInstruction
    have hr : readFromMemory zeroState zeroState.PC NUM_BYTES_IN_WORD = none :=
      Option.not_isSome_iff_eq_none.1 (by decide)
    rw [hr]
  unfold decodeAndExecuteInstructions
  rw [hf]

/-! ## Immediates and displacements -/

/-- C25 (failing input): the token `$abc`. `getLongFromBaseTenOrHexString` returns -1 for the
text `abc`, and `getConstant` hands the -1 on as the constant `0xFFFFFFFF` without a test: no
fatal error. The same holds for `$` alone and for `$12x`; `$-5` and the octal `$010` are
accepted too (as `0xFFFFFFFB` and 8). A decimal or `0x` number is returned as it stands, and a
token without the `$` is the fatal error. -/
theorem C25_getConstant_accepts_malformed_number :
    getLongFromBaseTenOrHexString "abc".data = -1 ∧
    getConstant "$abc" = some 0xFFFFFFFF ∧ getConstant "$" = some 0xFFFFFFFF ∧
    getConstant "$12x" = some 0xFFFFFFFF ∧ getConstant "$-5" = some 0xFFFFFFFB ∧
    getConstant "$010" = some 8 ∧
    getConstant "$42" = some 42 ∧ getConstant "$0x2A" = some 42 ∧ getConstant "42" = none := by
  decide

/-- C26 (counterexample): the operand `200(r1+r2)4` has a displacement outside
`[-128, 127]` and is accepted; the offset stored in the attr is -56, not 200. -/
theorem C26_displacement_200_accepted :
    displacementOf "200(r1+r2)4".data = 200 ∧
    (getAddressFromGenericAddressingMode zeroState "200(r1+r2)4".data retInstr).map
      (fun r => [r.2.offset, r.2.scale, r.2.base_register, r.2.index_register])
      = some [-56, 4, 1, 2] := by
  decide

/-- C26 (amended): for every memory operand `D(Rb+Ri)S` whose displacement `D` is greater than
255, `getAddressFromGenericAddressingMode` fails with the fatal error; for every accepted
operand the offset stored in the attr is the low byte of `D` read as a signed byte: `D` itself
for `D` in `[-128, 127]` and `D - 256` for `D` in `[128, 255]`. -/
theorem C26_displacement_validation (s : State) (arg : List Char) (a : instruction_attr) :
    (displacementOf arg > 255 → getAddressFromGenericAddressingMode s arg a = none) ∧
    (∀ r, getAddressFromGenericAddressingMode s arg a = some r →
      displacementOf arg ≤ 255 ∧
      r.2.offset = toChar (toU32 (displacementOf arg)) ∧
      (-128 ≤ displacementOf arg → displacementOf arg ≤ 127 →
        r.2.offset = displacementOf arg) ∧
      (128 ≤ displacementOf arg → r.2.offset = displacementOf arg - 256)) := by
  have key : ∀ r, getAddressFromGenericAddressingMode s arg a = some r →
      displacementOf arg ≤ 255 ∧ r.2.offset = toChar (toU32 (displacementOf arg)) := by
    intro r h
    unfold getAddressFromGenericAddressingMode at h
    unfold displacementOf
    dsimp only at h ⊢
    generalize (List.takeWhile (fun c => decide (c ≠ '(')) arg) = temp at h ⊢
    by_cases c1 : temp.length ≥ 100
    · rw [if_pos c1] at h
      cases h
    rw [if_neg c1] at h
    generalize (if temp ≠ [] then getLongFromBaseTenOrHexString temp else 0) = D at h ⊢
    by_cases c2 : temp ≠ [] ∧ D = -1
    · rw [if_pos c2] at h
      cases h
    rw [if_neg c2] at h
    by_cases c3 : D > 255
    · rw [if_pos c3] at h
      cases h
    rw [if_neg c3] at h
    refine ⟨by omega, ?_⟩
    cases hd : List.drop temp.length arg with
    | nil => rw [hd] at h; cases h
    | cons x arg1 =>
      rw [hd] at h
      dsimp only at h
      generalize (List.takeWhile (fun c => decide (c ≠ ')')) arg1) = temp1 at h
      by_cases c4 : temp1.length ≥ 100
      · rw [if_pos c4] at h
        cases h
      rw [if_neg c4] at h
      cases hd1 : List.drop temp1.length arg1 with
      | nil => rw [hd1] at h; cases h
      | cons y arg2 =>
        rw [hd1] at h
        dsimp only at h
        generalize (if arg2 ≠ [] then getLongFromBaseTenOrHexString arg2 else 1) = S at h
        by_cases c5 : S ≠ 1 ∧ S ≠ 2 ∧ S ≠ 4 ∧ S ≠ 8
        · rw [if_pos c5] at h
          cases h
        rw [if_neg c5] at h
        cases hg : getRegisterSumAddress s temp1 S a with
        | none => rw [hg] at h; cases h
        | some q =>
          rw [hg] at h
          dsimp only at h
          cases h
          rfl
  constructor
  · intro hD
    cases h : getAddressFromGenericAddressingMode s arg a with
    | none => rfl
    | some r =>
      have := (key r h).1
      omega
  · intro r h
    obtain ⟨h1, h2⟩ := key r h
    refine ⟨h1, h2, ?_, ?_⟩
    · intro hl hu
      rw [h2]
      unfold toChar toU32
      split_ifs <;> omega
    · intro hl
      rw [h2]
      unfold toChar toU32
      split_ifs <;> omega

/-- C26 (amended) at `300(r1+r2)4`, which is refused, and at `200(r1+r2)4` and `-5(r1)`, which
are accepted with the offsets -56 and -5. -/
theorem C26_displacement_validation_witness :
    getAddressFromGenericAddressingMode zeroState "300(r1+r2)4".data retInstr = none ∧
    (∃ r, getAddressFromGenericAddressingMode zeroState "200(r1+r2)4".data retInstr = some r ∧
      r.2.offset = -56) ∧
    (∃ r, getAddressFromGenericAddressingMode zeroState "-5(r1)".data retInstr = some r ∧
      r.2.offset = -5) := by
  refine ⟨(C26_displacement_validation zeroState "300(r1+r2)4".data retInstr).1 (by decide),
    ?_, ?_⟩
  · cases h : getAddressFromGenericAddressingMode zeroState "200(r1+r2)4".data retInstr with
    | none =>
      have : (getAddressFromGenericAddressingMode zeroState "200(r1+r2)4".data
        retInstr).isSome = true := by decide
      rw [h] at this
      cases this
    | some r =>
      have h3 := ((C26_displacement_validation zeroState "200(r1+r2)4".data retInstr).2 r
        h).2.2.2 (by decide)
      exact ⟨r, rfl, h3.trans (by decide)⟩
  · cases h : getAddressFromGenericAddressingMode zeroState "-5(r1)".data retInstr with
    | none =>
      have : (getAddressFromGenericAddressingMode zeroState "-5(r1)".data
        retInstr).isSome = true := by decide
      rw [h] at this
      cases this
    | some r =>
      have h3 := ((C26_displacement_validation zeroState "-5(r1)".data retInstr).2 r
        h).2.2.1 (by decide) (by decide)
      exact ⟨r, rfl, h3.trans (by decide)⟩

/-! ## Instructions that leave `PC` alone -/

theorem writeLoc_PC (s s' : State) (l : Loc) (v : Nat) (hl : l ≠ .pc)
    (h : writeLoc s l v = some s') : s'.PC = s.PC := by
  cases l <;> simp only [writeLoc] at h
  · split_ifs at h
    cases h
    rfl
  · split_ifs at h
    cases h
    rfl
  · exact absurd rfl hl

theorem writeIntoMemoryLoop_PC (num_bytes : Int) (data : List Nat) :
    ∀ (fuel : Nat) (i : Int) (index : Nat) (s s' : State),
      writeIntoMemoryLoop num_bytes data fuel i index s = some s' → s'.PC = s.PC := by
  intro fuel
  induction fuel with
  | zero => intro i index s s' h; simp [writeIntoMemoryLoop] at h
  | succ fuel ih =>
    intro i index s s' h
    rw [writeIntoMemoryLoop] at h
    split_ifs at h with h1 h2
    · split at h
      · cases h
      · have e := ih _ _ _ _ h
        exact e
    · cases h
      rfl

theorem writeIntoMemory_PC (s s' : State) (A : Nat) (n : Int) (data : List Nat)
    (h : writeIntoMemory s A n data = some s') : s'.PC = s.PC :=
  writeIntoMemoryLoop_PC n data _ _ _ _ _ h

theorem saveInstructionToMemory_PC (s s' : State) (w : Nat)
    (h : saveInstructionToMemory s w = some s') : s'.PC = s.PC := by
  unfold saveInstructionToMemory at h
  split at h
  · cases h
  · rename_i s1 h1
    cases h
    show s1.PC = s.PC
    exact writeIntoMemory_PC _ _ _ _ _ h1

theorem setFlagsRegister_PC (s s' : State) (a b r : Nat)
    (h : setFlagsRegister s a b r = some s') : s'.PC = s.PC := by
  obtain ⟨t, ht, -, -, -, -, -, hpc, -⟩ := setFlagsRegister_spec s a b r
  rw [ht] at h
  cases h
  exact hpc

theorem subtract_PC (s s' : State) (a b r : Nat) (h : subtract s a b = some (r, s')) :
    s'.PC = s.PC := by
  unfold subtract at h
  cases hl : subtractLoop (WORD_SIZE + 1) a b with
  | none => rw [hl] at h; cases h
  | some v =>
    rw [hl] at h
    cases h
    rfl

theorem divide_PC (s s' : State) (a b r : Nat) (h : divide s a b = some (r, s')) :
    s'.PC = s.PC := by
  unfold divide at h
  simp only [Nat.not_lt_zero, if_false] at h
  by_cases hb : b ≠ 0
  · rw [if_pos hb] at h
    cases hl : divideLoop (a + 1) a b 0 with
    | none => rw [hl] at h; cases h
    | some v =>
      rw [hl] at h
      simp only [Option.map_some', Nat.xor_self, ne_eq, not_true_eq_false, if_false] at h
      cases h
      rfl
  · rw [if_neg hb] at h
    simp only [ne_eq, not_true_eq_false, if_false] at h
    cases h
    rfl

theorem onCommand_PC (command name : String) (f : State → Option State) (s s' : State)
    (hf : ∀ t t', f t = some t' → t'.PC = t.PC)
    (h : onCommand command name f s = some s') : s'.PC = s.PC := by
  unfold onCommand at h
  split_ifs at h
  · exact hf _ _ h
  · cases h
    rfl

theorem executeAdd_PC (s s' : State) (arg1 arg2 : Loc) (hl : arg2 ≠ .pc)
    (h : executeAdd s arg1 arg2 = some s') : s'.PC = s.PC := by
  unfold executeAdd at h
  simp only [Option.bind_eq_bind, Option.bind_eq_some, Prod.exists] at h
  obtain ⟨op1, -, op2, -, r, -, s1, hw, hf⟩ := h
  rw [setFlagsRegister_PC _ _ _ _ _ hf, writeLoc_PC _ _ _ _ hl hw]

theorem executeMul_PC (s s' : State) (arg1 arg2 : Loc) (hl : arg2 ≠ .pc)
    (h : executeMul s arg1 arg2 = some s') : s'.PC = s.PC := by
  unfold executeMul at h
  simp only [Option.bind_eq_bind, Option.bind_eq_some, Prod.exists] at h
  obtain ⟨op1, -, op2, -, r, -, s1, hw, hf⟩ := h
  rw [setFlagsRegister_PC _ _ _ _ _ hf, writeLoc_PC _ _ _ _ hl hw]

theorem executeSLL_PC (s s' : State) (arg1 arg2 : Loc) (hl : arg2 ≠ .pc)
    (h : executeSLL s arg1 arg2 = some s') : s'.PC = s.PC := by
  unfold executeSLL at h
  simp only [Option.bind_eq_bind, Option.bind_eq_some, Prod.exists] at h
  obtain ⟨op1, -, op2, -, r, -, s1, hw, hf⟩ := h
  rw [setFlagsRegister_PC _ _ _ _ _ hf, writeLoc_PC _ _ _ _ hl hw]

theorem executeSRL_PC (s s' : State) (arg1 arg2 : Loc) (hl : arg2 ≠ .pc)
    (h : executeSRL s arg1 arg2 = some s') : s'.PC = s.PC := by
  unfold executeSRL at h
  simp only [Option.bind_eq_bind, Option.bind_eq_some, Prod.exists] at h
  obtain ⟨op1, -, op2, -, r, -, s1, hw, hf⟩ := h
  rw [setFlagsRegister_PC _ _ _ _ _ hf, writeLoc_PC _ _ _ _ hl hw]

theorem executeSRA_PC (s s' : State) (arg1 arg2 : Loc) (hl : arg2 ≠ .pc)
    (h : executeSRA s arg1 arg2 = some s') : s'.PC = s.PC := by
  unfold executeSRA at h
  simp only [Option.bind_eq_bind, Option.bind_eq_some, Prod.exists] at h
  obtain ⟨op1, -, op2, -, r, -, s1, hw, hf⟩ := h
  rw [setFlagsRegister_PC _ _ _ _ _ hf, writeLoc_PC _ _ _ _ hl hw]

theorem executeNOT_PC (s s' : State) (arg1 arg2 : Loc) (hl : arg2 ≠ .pc)
    (h : executeNOT s arg1 arg2 = some s') : s'.PC = s.PC := by
  unfold executeNOT at h
  simp only [Option.bind_eq_bind, Option.bind_eq_some, Prod.exists] at h
  obtain ⟨op1, -, op2, -, s1, hw, hf⟩ := h
  rw [setFlagsRegister_PC _ _ _ _ _ hf, writeLoc_PC _ _ _ _ hl hw]

theorem executeAND_PC (s s' : State) (arg1 arg2 : Loc) (hl : arg2 ≠ .pc)
    (h : executeAND s arg1 arg2 = some s') : s'.PC = s.PC := by
  unfold executeAND at h
  simp only [Option.bind_eq_bind, Option.bind_eq_some, Prod.exists] at h
  obtain ⟨op1, -, op2, -, s1, hw, hf⟩ := h
  rw [setFlagsRegister_PC _ _ _ _ _ hf, writeLoc_PC _ _ _ _ hl hw]

theorem executeOR_PC (s s' : State) (arg1 arg2 : Loc) (hl : arg2 ≠ .pc)
    (h : executeOR s arg1 arg2 = some s') : s'.PC = s.PC := by
  unfold executeOR at h
  simp only [Option.bind_eq_bind, Option.bind_eq_some, Prod.exists] at h
  obtain ⟨op1, -, op2, -, s1, hw, hf⟩ := h
  rw [setFlagsRegister_PC _ _ _ _ _ hf, writeLoc_PC _ _ _ _ hl hw]

theorem executeXOR_PC (s s' : State) (arg1 arg2 : Loc) (hl : arg2 ≠ .pc)
    (h : executeXOR s arg1 arg2 = some s') : s'.PC = s.PC := by
  unfold executeXOR at h
  simp only [Option.bind_eq_bind, Option.bind_eq_some, Prod.exists] at h
  obtain ⟨op1, -, op2, -, s1, hw, hf⟩ := h
  rw [setFlagsRegister_PC _ _ _ _ _ hf, writeLoc_PC _ _ _ _ hl hw]

theorem executeNOR_PC (s s' : State) (arg1 arg2 : Loc) (hl : arg2 ≠ .pc)
    (h : executeNOR s arg1 arg2 = some s') : s'.PC = s.PC := by
  unfold executeNOR at h
  simp only [Option.bind_eq_bind, Option.bind_eq_some, Prod.exists] at h
  obtain ⟨op1, -, op2, -, s1, hw, hf⟩ := h
  rw [setFlagsRegister_PC _ _ _ _ _ hf, writeLoc_PC _ _ _ _ hl hw]

theorem executeAddI_PC (s s' : State) (constant : Nat) (ptr : Loc) (hl : ptr ≠ .pc)
    (h : executeAddI s constant ptr = some s') : s'.PC = s.PC := by
  unfold executeAddI at h
  simp only [Option.bind_eq_bind, Option.bind_eq_some, Prod.exists] at h
  obtain ⟨op2, -, r, -, s1, hw, hf⟩ := h
  rw [setFlagsRegister_PC _ _ _ _ _ hf, writeLoc_PC _ _ _ _ hl hw]

theorem executeMulI_PC (s s' : State) (constant : Nat) (ptr : Loc) (hl : ptr ≠ .pc)
    (h : executeMulI s constant ptr = some s') : s'.PC = s.PC := by
  unfold executeMulI at h
  simp only [Option.bind_eq_bind, Option.bind_eq_some, Prod.exists] at h
  obtain ⟨op2, -, r, -, s1, hw, hf⟩ := h
  rw [setFlagsRegister_PC _ _ _ _ _ hf, writeLoc_PC _ _ _ _ hl hw]

theorem executeSLLI_PC (s s' : State) (constant : Nat) (ptr : Loc) (hl : ptr ≠ .pc)
    (h : executeSLLI s constant ptr = some s') : s'.PC = s.PC := by
  unfold executeSLLI at h
  simp only [Option.bind_eq_bind, Option.bind_eq_some, Prod.exists] at h
  obtain ⟨op2, -, r, -, s1, hw, hf⟩ := h
  rw [setFlagsRegister_PC _ _ _ _ _ hf, writeLoc_PC _ _ _ _ hl hw]

theorem executeSRLI_PC (s s' : State) (constant : Nat) (ptr : Loc) (hl : ptr ≠ .pc)
    (h : executeSRLI s constant ptr = some s') : s'.PC = s.PC := by
  unfold executeSRLI at h
  simp only [Option.bind_eq_bind, Option.bind_eq_some, Prod.exists] at h
  obtain ⟨op2, -, r, -, s1, hw, hf⟩ := h
  rw [setFlagsRegister_PC _ _ _ _ _ hf, writeLoc_PC _ _ _ _ hl hw]

theorem executeSRAI_PC (s s' : State) (constant : Nat) (ptr : Loc) (hl : ptr ≠ .pc)
    (h : executeSRAI s constant ptr = some s') : s'.PC = s.PC := by
  unfold executeSRAI at h
  simp only [Option.bind_eq_bind, Option.bind_eq_some, Prod.exists] at h
  obtain ⟨op2, -, r, -, s1, hw, hf⟩ := h
  rw [setFlagsRegister_PC _ _ _ _ _ hf, writeLoc_PC _ _ _ _ hl hw]

theorem executeANDI_PC (s s' : State) (constant : Nat) (ptr : Loc) (hl : ptr ≠ .pc)
    (h : executeANDI s constant ptr = some s') : s'.PC = s.PC := by
  unfold executeANDI at h
  simp only [Option.bind_eq_bind, Option.bind_eq_some, Prod.exists] at h
  obtain ⟨op2, -, s1, hw, hf⟩ := h
  rw [setFlagsRegister_PC _ _ _ _ _ hf, writeLoc_PC _ _ _ _ hl hw]

theorem executeORI_PC (s s' : State) (constant : Nat) (ptr : Loc) (hl : ptr ≠ .pc)
    (h : executeORI s constant ptr = some s') : s'.PC = s.PC := by
  unfold executeORI at h
  simp only [Option.bind_eq_bind, Option.bind_eq_some, Prod.exists] at h
  obtain ⟨op2, -, s1, hw, hf⟩ := h
  rw [setFlagsRegister_PC _ _ _ _ _ hf, writeLoc_PC _ _ _ _ hl hw]

theorem executeXORI_PC (s s' : State) (constant : Nat) (ptr : Loc) (hl : ptr ≠ .pc)
    (h : executeXORI s constant ptr = some s') : s'.PC = s.PC := by
  unfold executeXORI at h
  simp only [Option.bind_eq_bind, Option.bind_eq_some, Prod.exists] at h
  obtain ⟨op2, -, s1, hw, hf⟩ := h
  rw [setFlagsRegister_PC _ _ _ _ _ hf, writeLoc_PC _ _ _ _ hl hw]

theorem executeNORI_PC (s s' : State) (constant : Nat) (ptr : Loc) (hl : ptr ≠ .pc)
    (h : executeNORI s constant ptr = some s') : s'.PC = s.PC := by
  unfold executeNORI at h
  simp only [Option.bind_eq_bind, Option.bind_eq_some, Prod.exists] at h
  obtain ⟨op2, -, s1, hw, hf⟩ := h
  rw [setFlagsRegister_PC _ _ _ _ _ hf, writeLoc_PC _ _ _ _ hl hw]

theorem executeSub_PC (s s' : State) (arg1 arg2 : Loc) (hl : arg2 ≠ .pc)
    (h : executeSub s arg1 arg2 = some s') : s'.PC = s.PC := by
  unfold executeSub at h
  simp only [Option.bind_eq_bind, Option.bind_eq_some, Prod.exists] at h
  obtain ⟨op1, -, op2, -, r, s1, hs, s2, hw, hf⟩ := h
  rw [setFlagsRegister_PC _ _ _ _ _ hf, writeLoc_PC _ _ _ _ hl hw, subtract_PC _ _ _ _ _ hs]

theorem executeSubI_PC (s s' : State) (constant : Nat) (ptr : Loc) (hl : ptr ≠ .pc)
    (h : executeSubI s constant ptr = some s') : s'.PC = s.PC := by
  unfold executeSubI at h
  simp only [Option.bind_eq_bind, Option.bind_eq_some, Prod.exists] at h
  obtain ⟨op2, -, r, s1, hs, s2, hw, hf⟩ := h
  rw [setFlagsRegister_PC _ _ _ _ _ hf, writeLoc_PC _ _ _ _ hl hw, subtract_PC _ _ _ _ _ hs]

theorem executeDiv_PC (s s' : State) (arg1 arg2 : Loc) (hl : arg2 ≠ .pc)
    (h : executeDiv s arg1 arg2 = some s') : s'.PC = s.PC := by
  unfold executeDiv at h
  simp only [Option.bind_eq_bind, Option.bind_eq_some, Prod.exists] at h
  obtain ⟨op1, -, op2, -, r, s1, hs, s2, hw, hf⟩ := h
  rw [setFlagsRegister_PC _ _ _ _ _ hf, writeLoc_PC _ _ _ _ hl hw, divide_PC _ _ _ _ _ hs]

theorem executeMod_PC (s s' : State) (arg1 arg2 : Loc) (hl : arg2 ≠ .pc)
    (h : executeMod s arg1 arg2 = some s') : s'.PC = s.PC := by
  unfold executeMod at h
  simp only [Option.bind_eq_bind, Option.bind_eq_some, Prod.exists] at h
  obtain ⟨op1, -, op2, -, r, s1, hs, s2, hw, hf⟩ := h
  rw [setFlagsRegister_PC _ _ _ _ _ hf, writeLoc_PC _ _ _ _ hl hw, divide_PC _ _ _ _ _ hs]

theorem executeDivI_PC (s s' : State) (constant : Nat) (ptr : Loc) (hl : ptr ≠ .pc)
    (h : executeDivI s constant ptr = some s') : s'.PC = s.PC := by
  unfold executeDivI at h
  simp only [Option.bind_eq_bind, Option.bind_eq_some, Prod.exists] at h
  obtain ⟨op2, -, r, s1, hs, s2, hw, hf⟩ := h
  rw [setFlagsRegister_PC _ _ _ _ _ hf, writeLoc_PC _ _ _ _ hl hw, divide_PC _ _ _ _ _ hs]

theorem executeModI_PC (s s' : State) (constant : Nat) (ptr : Loc) (hl : ptr ≠ .pc)
    (h : executeModI s constant ptr = some s') : s'.PC = s.PC := by
  unfold executeModI at h
  simp only [Option.bind_eq_bind, Option.bind_eq_some, Prod.exists] at h
  obtain ⟨op2, -, r, s1, hs, s2, hw, hf⟩ := h
  rw [setFlagsRegister_PC _ _ _ _ _ hf, writeLoc_PC _ _ _ _ hl hw, divide_PC _ _ _ _ _ hs]

theorem executeSLT_PC (s s' : State) (arg1 arg2 : Loc) 
    (h : executeSLT s arg1 arg2 = some s') : s'.PC = s.PC := by
  unfold executeSLT at h
  simp only [Option.bind_eq_bind, Option.bind_eq_some, Prod.exists] at h
  obtain ⟨op1, -, op2, -, r, s1, hs, hf⟩ := h
  rw [setFlagsRegister_PC _ _ _ _ _ hf, subtract_PC _ _ _ _ _ hs]

theorem executeSLTI_PC (s s' : State) (constant : Nat) (ptr : Loc) 
    (h : executeSLTI s constant ptr = some s') : s'.PC = s.PC := by
  unfold executeSLTI at h
  simp only [Option.bind_eq_bind, Option.bind_eq_some, Prod.exists] at h
  obtain ⟨op2, -, r, s1, hs, hf⟩ := h
  rw [setFlagsRegister_PC _ _ _ _ _ hf, subtract_PC _ _ _ _ _ hs]

theorem gpr_ne_pc (r : Int) : Loc.gpr r ≠ Loc.pc := fun hc => by cases hc

theorem executeLoad_PC (s s' : State) (r : Int) (A : Nat)
    (h : executeLoad s r A = some s') : s'.PC = s.PC := by
  unfold executeLoad loadRegister at h
  simp only [Option.bind_eq_bind, Option.bind_eq_some] at h
  obtain ⟨s1, h1, v, -, h3⟩ := h
  cases h3
  split at h1
  · cases h1
  · have e := writeLoc_PC _ _ _ _ (gpr_ne_pc _) h1
    exact e

theorem executeStore_PC (s s' : State) (r : Int) (A : Nat)
    (h : executeStore s r A = some s') : s'.PC = s.PC := by
  unfold executeStore storeRegister at h
  simp only [Option.bind_eq_bind, Option.bind_eq_some] at h
  obtain ⟨s1, h1, v, -, h3⟩ := h
  cases h3
  split at h1
  · cases h1
  · have e := writeIntoMemory_PC _ _ _ _ _ h1
    exact e

theorem executePush_PC (s s' : State) (l : Loc)
    (h : executePush s l = some s') : s'.PC = s.PC := by
  unfold executePush at h
  rw [Option.bind_eq_bind, Option.bind_eq_some] at h
  obtain ⟨v, -, h2⟩ := h
  have e := writeIntoMemory_PC _ _ _ _ _ h2
  exact e

theorem executePop_PC (s s' : State) (l : Loc) (hl : l ≠ .pc)
    (h : executePop s l = some s') : s'.PC = s.PC := by
  unfold executePop at h
  simp only [Option.bind_eq_bind, Option.bind_eq_some] at h
  obtain ⟨v, -, s1, h2, h3⟩ := h
  cases h3
  have e := writeLoc_PC _ _ _ _ hl h2
  exact e

theorem executeMemoryTypeInstructions_PC (s s' : State) (a : instruction_attr)
    (h : executeMemoryTypeInstructions s a = some s') : s'.PC = s.PC := by
  unfold executeMemoryTypeInstructions at h
  simp only [Option.bind_eq_bind, Option.bind_eq_some] at h
  obtain ⟨A, -, s1, h1, s2, h2, h3⟩ := h
  have e1 := onCommand_PC _ _ _ _ _ (fun t t' ht => executeLoad_PC t t' _ _ ht) h1
  have e2 := onCommand_PC _ _ _ _ _ (fun t t' ht => executeStore_PC t t' _ _ ht) h2
  have e3 := onCommand_PC _ _ _ _ _
    (fun t t' ht => by
      unfold executeLea at ht
      exact writeLoc_PC t t' _ _ (gpr_ne_pc _) ht) h3
  rw [e3, e2, e1]

theorem executeStackInstructions_PC (s s' : State) (a : instruction_attr)
    (h : executeStackInstructions s a = some s') : s'.PC = s.PC := by
  unfold executeStackInstructions at h
  split at h
  swap
  · simp at h
  simp only [Option.bind_eq_bind, Option.bind_eq_some, Option.some_bind] at h
  obtain ⟨s1, h1, h2⟩ := h
  have e1 := onCommand_PC _ _ _ _ _ (fun t t' ht => executePush_PC t t' _ ht) h1
  have e2 := onCommand_PC _ _ _ _ _
    (fun t t' ht => executePop_PC t t' _ (gpr_ne_pc _) ht) h2
  rw [e2, e1]

theorem executeMovInstructions_PC (s s' : State) (a : instruction_attr)
    (h : executeMovInstructions s a = some s') : s'.PC = s.PC := by
  unfold executeMovInstructions at h
  simp only [Option.bind_eq_bind, Option.bind_eq_some] at h
  obtain ⟨s1, h1, h2⟩ := h
  have e1 := onCommand_PC _ _ _ _ _
    (fun t t' ht => by
      unfold executeMov at ht
      simp only [Option.bind_eq_bind, Option.bind_eq_some] at ht
      obtain ⟨v, -, hw⟩ := ht
      exact writeLoc_PC t t' _ _ (gpr_ne_pc _) hw) h1
  have e2 := onCommand_PC _ _ _ _ _
    (fun t t' ht => by
      unfold executeMovI at ht
      exact writeLoc_PC t t' _ _ (gpr_ne_pc _) ht) h2
  rw [e2, e1]

theorem executeMemoryDisplayInstructions_PC (s s' : State) (a : instruction_attr)
    (h : executeMemoryDisplayInstructions s a = some s') : s'.PC = s.PC := by
  unfold executeMemoryDisplayInstructions at h
  simp only [Option.bind_eq_bind, Option.bind_eq_some] at h
  obtain ⟨v, -, h⟩ := h
  split at h <;>
  · simp only [Option.bind_eq_some] at h
    obtain ⟨u, -, h⟩ := h
    cases h
    rfl

theorem executeRTypeChain_PC (c : String) (y : Loc × Loc) (hl : y.2 ≠ .pc) (s s' : State)
    (h : (
      (onCommand c "add" (fun s => executeAdd s y.1 y.2) s).bind fun s =>
        (onCommand c "sub" (fun s => executeSub s y.1 y.2) s).bind fun s =>
          (onCommand c "mul" (fun s => executeMul s y.1 y.2) s).bind fun s =>
            (onCommand c "div" (fun s => executeDiv s y.1 y.2) s).bind fun s =>
              (onCommand c "mod" (fun s => executeMod s y.1 y.2) s).bind fun s =>
                (onCommand c "and" (fun s => executeAND s y.1 y.2) s).bind fun s =>
                  (onCommand c "or" (fun s => executeOR s y.1 y.2) s).bind fun s =>
                    (onCommand c "xor" (fun s => executeXOR s y.1 y.2) s).bind fun s =>
                      (onCommand c "not" (fun s => executeNOT s y.1 y.2) s).bind fun s =>
                        (onCommand c "nor" (fun s => executeNOR s y.1 y.2) s).bind fun s =>
                          (onCommand c "slt" (fun s => executeSLT s y.1 y.2) s).bind fun s =>
                            (onCommand c "sll" (fun s => executeSLL s y.1 y.2) s).bind fun s =>
                              (onCommand c "srl" (fun s => executeSRL s y.1 y.2) s).bind fun s =>
                                onCommand c "sra" (fun s => executeSRA s y.1 y.2) s) = some s') :
    s'.PC = s.PC := by
  simp only [Option.bind_eq_some] at h
  obtain ⟨s1, h1, s2, h2, s3, h3, s4, h4, s5, h5, s6, h6, s7, h7, s8, h8, s9, h9, s10, h10, s11, h11, s12, h12, s13, h13, h14⟩ := h
  have e1 := onCommand_PC _ _ _ _ _ (fun t t' ht => executeAdd_PC t t' _ _ hl ht) h1
  have e2 := onCommand_PC _ _ _ _ _ (fun t t' ht => executeSub_PC t t' _ _ hl ht) h2
  have e3 := onCommand_PC _ _ _ _ _ (fun t t' ht => executeMul_PC t t' _ _ hl ht) h3
  have e4 := onCommand_PC _ _ _ _ _ (fun t t' ht => executeDiv_PC t t' _ _ hl ht) h4
  have e5 := onCommand_PC _ _ _ _ _ (fun t t' ht => executeMod_PC t t' _ _ hl ht) h5
  have e6 := onCommand_PC _ _ _ _ _ (fun t t' ht => executeAND_PC t t' _ _ hl ht) h6
  have e7 := onCommand_PC _ _ _ _ _ (fun t t' ht => executeOR_PC t t' _ _ hl ht) h7
  have e8 := onCommand_PC _ _ _ _ _ (fun t t' ht => executeXOR_PC t t' _ _ hl ht) h8
  have e9 := onCommand_PC _ _ _ _ _ (fun t t' ht => executeNOT_PC t t' _ _ hl ht) h9
  have e10 := onCommand_PC _ _ _ _ _ (fun t t' ht => executeNOR_PC t t' _ _ hl ht) h10
  have e11 := onCommand_PC _ _ _ _ _ (fun t t' ht => executeSLT_PC t t' _ _ ht) h11
  have e12 := onCommand_PC _ _ _ _ _ (fun t t' ht => executeSLL_PC t t' _ _ hl ht) h12
  have e13 := onCommand_PC _ _ _ _ _ (fun t t' ht => executeSRL_PC t t' _ _ hl ht) h13
  have e14 := onCommand_PC _ _ _ _ _ (fun t t' ht => executeSRA_PC t t' _ _ hl ht) h14
  rw [e14, e13, e12, e11, e10, e9, e8, e7, e6, e5, e4, e3, e2, e1]

theorem executeRTypeInstructions_PC (s s' : State) (a : instruction_attr)
    (h : executeRTypeInstructions s a = some s') : s'.PC = s.PC := by
  unfold executeRTypeInstructions at h
  simp only [Option.bind_eq_bind] at h
  split at h
  · exact executeRTypeChain_PC _ (_, _) (gpr_ne_pc _) _ _ h
  · cases hm : computeMemoryAddressFromOpcode s a with
    | none => rw [hm] at h; cases h
    | some m =>
      rw [hm] at h
      exact executeRTypeChain_PC _ (_, _) (fun hc => by cases hc) _ _ h
  · cases hm : computeMemoryAddressFromOpcode s a with
    | none => rw [hm] at h; cases h
    | some m =>
      rw [hm] at h
      exact executeRTypeChain_PC _ (_, _) (gpr_ne_pc _) _ _ h
  · cases h

theorem executeITypeChain_PC (c : String) (k : Nat) (y : Loc) (hl : y ≠ .pc) (s s' : State)
    (h : (
      (onCommand c "addi" (fun s => executeAddI s k y) s).bind fun s =>
        (onCommand c "subi" (fun s => executeSubI s k y) s).bind fun s =>
          (onCommand c "muli" (fun s => executeMulI s k y) s).bind fun s =>
            (onCommand c "divi" (fun s => executeDivI s k y) s).bind fun s =>
              (onCommand c "modi" (fun s => executeModI s k y) s).bind fun s =>
                (onCommand c "and" (fun s => executeANDI s k y) s).bind fun s =>
                  (onCommand c "ori" (fun s => executeORI s k y) s).bind fun s =>
                    (onCommand c "xori" (fun s => executeXORI s k y) s).bind fun s =>
                      (onCommand c "nori" (fun s => executeNORI s k y) s).bind fun s =>
                        (onCommand c "slti" (fun s => executeSLTI s k y) s).bind fun s =>
                          (onCommand c "slli" (fun s => executeSLLI s k y) s).bind fun s =>
                            (onCommand c "srli" (fun s => executeSRLI s k y) s).bind fun s =>
                              onCommand c "srai" (fun s => executeSRAI s k y) s) = some s') :
    s'.PC = s.PC := by
  simp only [Option.bind_eq_some] at h
  obtain ⟨s1, h1, s2, h2, s3, h3, s4, h4, s5, h5, s6, h6, s7, h7, s8, h8, s9, h9, s10, h10, s11, h11, s12, h12, h13⟩ := h
  have e1 := onCommand_PC _ _ _ _ _ (fun t t' ht => executeAddI_PC t t' _ _ hl ht) h1
  have e2 := onCommand_PC _ _ _ _ _ (fun t t' ht => executeSubI_PC t t' _ _ hl ht) h2
  have e3 := onCommand_PC _ _ _ _ _ (fun t t' ht => executeMulI_PC t t' _ _ hl ht) h3
  have e4 := onCommand_PC _ _ _ _ _ (fun t t' ht => executeDivI_PC t t' _ _ hl ht) h4
  have e5 := onCommand_PC _ _ _ _ _ (fun t t' ht => executeModI_PC t t' _ _ hl ht) h5
  have e6 := onCommand_PC _ _ _ _ _ (fun t t' ht => executeANDI_PC t t' _ _ hl ht) h6
  have e7 := onCommand_PC _ _ _ _ _ (fun t t' ht => executeORI_PC t t' _ _ hl ht) h7
  have e8 := onCommand_PC _ _ _ _ _ (fun t t' ht => executeXORI_PC t t' _ _ hl ht) h8
  have e9 := onCommand_PC _ _ _ _ _ (fun t t' ht => executeNORI_PC t t' _ _ hl ht) h9
  have e10 := onCommand_PC _ _ _ _ _ (fun t t' ht => executeSLTI_PC t t' _ _ ht) h10
  have e11 := onCommand_PC _ _ _ _ _ (fun t t' ht => executeSLLI_PC t t' _ _ hl ht) h11
  have e12 := onCommand_PC _ _ _ _ _ (fun t t' ht => executeSRLI_PC t t' _ _ hl ht) h12
  have e13 := onCommand_PC _ _ _ _ _ (fun t t' ht => executeSRAI_PC t t' _ _ hl ht) h13
  rw [e13, e12, e11, e10, e9, e8, e7, e6, e5, e4, e3, e2, e1]

theorem executeITypeInstructions_PC (s s' : State) (a : instruction_attr)
    (h : executeITypeInstructions s a = some s') : s'.PC = s.PC := by
  unfold executeITypeInstructions at h
  simp only [Option.bind_eq_bind] at h
  split at h
  · exact executeITypeChain_PC _ _ _ (gpr_ne_pc _) _ _ h
  · cases hm : computeMemoryAddressFromOpcode s a with
    | none => rw [hm] at h; cases h
    | some m =>
      rw [hm] at h
      exact executeITypeChain_PC _ _ _ (fun hc => by cases hc) _ _ h
  · cases h

/-! ## Control transfers and the alignment of `PC` -/

theorem jumpTarget_mod_four (s : State) (k : Int) : jumpTarget s k % 4 = s.PC % 4 := by
  unfold jumpTarget toU32
  omega

theorem onCommand_PC_mod_four (command name : String) (f : State → Option State)
    (s s' : State) (hf : ∀ t t', f t = some t' → t'.PC % 4 = t.PC % 4)
    (h : onCommand command name f s = some s') : s'.PC % 4 = s.PC % 4 := by
  unfold onCommand at h
  split_ifs at h
  · exact hf _ _ h
  · cases h
    rfl

theorem jump_PC_mod_four (c : Bool) (t t' : State) (k : Int)
    (ht : (if c = true then some { t with PC := jumpTarget t k } else some t) = some t') :
    t'.PC % 4 = t.PC % 4 := by
  split_ifs at ht <;> cases ht
  · exact jumpTarget_mod_four t k
  · rfl

theorem executeControlTransferInstructions_PC_mod_four (s s' : State) (a : instruction_attr)
    (h : executeControlTransferInstructions s a = some s') : s'.PC % 4 = s.PC % 4 := by
  unfold executeControlTransferInstructions at h
  simp only [Option.bind_eq_bind, Option.bind_eq_some] at h
  obtain ⟨s0, h0, s1, h1, s2, h2, s3, h3, s4, h4, s5, h5, s6, h6, s7, h7, s8, h8, h9⟩ := h
  have e0 := onCommand_PC_mod_four _ _ _ _ _
    (fun t t' ht => by
      unfold executeCall at ht
      simp only [Option.bind_eq_bind, Option.bind_eq_some] at ht
      obtain ⟨u, hu, hv⟩ := ht
      cases hv
      show jumpTarget u _ % 4 = t.PC % 4
      rw [jumpTarget_mod_four, executePush_PC t u _ hu]) h0
  have e1 := onCommand_PC_mod_four _ _ _ _ _
    (fun t t' ht => by
      unfold executeJmp at ht
      cases ht
      exact jumpTarget_mod_four t _) h1
  have e2 := onCommand_PC_mod_four _ _ _ _ _
    (fun t t' ht => by unfold executeJE at ht; exact jump_PC_mod_four _ t t' _ ht) h2
  have e3 := onCommand_PC_mod_four _ _ _ _ _
    (fun t t' ht => by unfold executeJNE at ht; exact jump_PC_mod_four _ t t' _ ht) h3
  have e4 := onCommand_PC_mod_four _ _ _ _ _
    (fun t t' ht => by unfold executeJS at ht; exact jump_PC_mod_four _ t t' _ ht) h4
  have e5 := onCommand_PC_mod_four _ _ _ _ _
    (fun t t' ht => by unfold executeJNS at ht; exact jump_PC_mod_four _ t t' _ ht) h5
  have e6 := onCommand_PC_mod_four _ _ _ _ _
    (fun t t' ht => by unfold executeJG at ht; exact jump_PC_mod_four _ t t' _ ht) h6
  have e7 := onCommand_PC_mod_four _ _ _ _ _
    (fun t t' ht => by unfold executeJGE at ht; exact jump_PC_mod_four _ t t' _ ht) h7
  have e8 := onCommand_PC_mod_four _ _ _ _ _
    (fun t t' ht => by unfold executeJL at ht; exact jump_PC_mod_four _ t t' _ ht) h8
  have e9 := onCommand_PC_mod_four _ _ _ _ _
    (fun t t' ht => by unfold executeJLE at ht; exact jump_PC_mod_four _ t t' _ ht) h9
  rw [e9, e8, e7, e6, e5, e4, e3, e2, e1, e0]

theorem executeDecoded_PC_mod_four (s s' : State) (d : instruction_attr)
    (hr : d.instruction ≠ "ret") (h : executeDecoded s d = some s') :
    s'.PC % 4 = s.PC % 4 := by
  unfold executeDecoded at h
  cases hf : d.format <;> simp only [hf] at h <;>
  first
  | rw [executeMemoryTypeInstructions_PC _ _ _ h]
  | rw [executeRTypeInstructions_PC _ _ _ h]
  | rw [executeITypeInstructions_PC _ _ _ h]
  | rw [executeStackInstructions_PC _ _ _ h]
  | rw [executeMemoryDisplayInstructions_PC _ _ _ h]
  | rw [executeMovInstructions_PC _ _ _ h]
  | exact executeControlTransferInstructions_PC_mod_four _ _ _ h
  | (unfold executeNoOperandInstructions onCommand at h
     rw [if_neg hr] at h
     cases h
     rfl)

theorem executeFetched_PC_mod_four (s s' : State) (w : Nat) (p d : instruction_attr)
    (hd : decodeInstructionFromBinary w p = some d) (hr : d.instruction ≠ "ret")
    (h : executeFetched s w p = some s') : s'.PC % 4 = s.PC % 4 := by
  unfold executeFetched at h
  simp only [hd] at h
  have e := executeDecoded_PC_mod_four _ _ _ hr h
  exact e

theorem fetchInstruction_PC_mod_four (s t : State) (w : Nat)
    (h : fetchInstruction s = some (w, t)) : t.PC % 4 = s.PC % 4 := by
  unfold fetchInstruction at h
  split at h
  · cases h
  · cases h
    show (s.PC + 4) % 4294967296 % 4 = s.PC % 4
    omega

theorem retFreePasses_aligned (junk : Nat → instruction_attr) :
    ∀ (n c0 w0 : Nat) (t0 u0 : State) (c w : Nat) (s : State),
      u0.PC % 4 = 0 → fetchInstruction u0 = some (w0, t0) →
      decodeAndExecutePasses junk n c0 w0 t0 = some (c, w, s) →
      retFreePasses junk n c0 w0 t0 = true →
      ∃ u, u.PC % 4 = 0 ∧ fetchInstruction u = some (w, s) := by
  intro n
  induction n with
  | zero =>
    intro c0 w0 t0 u0 c w s hu hf hp _
    rw [decodeAndExecutePasses] at hp
    cases hp
    exact ⟨u0, hu, hf⟩
  | succ n ih =>
    intro c0 w0 t0 u0 c w s hu hf hp hr
    rw [decodeAndExecutePasses] at hp
    rw [retFreePasses] at hr
    by_cases hw : w0 ≠ 0
    · rw [if_pos hw] at hp hr
      cases hx : executeFetched t0 w0 (junk c0) with
      | none => rw [hx] at hp; cases hp
      | some t1 =>
        rw [hx] at hp hr
        dsimp only at hp hr
        cases hf1 : fetchInstruction t1 with
        | none => rw [hf1] at hp; cases hp
        | some r =>
          obtain ⟨w1, t2⟩ := r
          rw [hf1] at hp hr
          dsimp only at hp hr
          rw [Bool.and_eq_true] at hr
          cases hd : decodeInstructionFromBinary w0 (junk c0) with
          | none =>
            unfold executeFetched at hx
            rw [hd] at hx
            cases hx
          | some d =>
            rw [hd] at hr
            have hne : d.instruction ≠ "ret" := by
              have := hr.1
              simpa using this
            have e1 := executeFetched_PC_mod_four _ _ _ _ _ hd hne hx
            have e0 := fetchInstruction_PC_mod_four _ _ _ hf
            exact ih _ _ _ t1 _ _ _ (by omega) hf1 hp hr.2
    · rw [if_neg hw] at hp
      cases hp

/-! ## The assembler writes one word for a line -/

theorem validateControlTransferInstruction_saves (LABELS : List label_pos) (s s' : State)
    (n : Int) (command arg : String) (j : instruction_attr)
    (h : validateControlTransferInstruction LABELS s n command arg j = some s') :
    ∃ w, saveInstructionToMemory s w = some s' := by
  unfold validateControlTransferInstruction at h
  dsimp only at h
  repeat' (first | contradiction | exact ⟨_, h⟩ | split at h)

theorem validateMemoryTypeInstruction_saves (s s' : State) (command a1 a2 : String)
    (j : instruction_attr) (h : validateMemoryTypeInstruction s command a1 a2 j = some s') :
    ∃ w, saveInstructionToMemory s w = some s' := by
  unfold validateMemoryTypeInstruction at h
  dsimp only at h
  repeat' (first | contradiction | exact ⟨_, h⟩ | split at h)

theorem validateRTypeInstruction_saves (s s' : State) (command : String) (args : List String)
    (j : instruction_attr) (jr : Int × Int)
    (h : validateRTypeInstruction s command args j jr = some s') :
    ∃ w, saveInstructionToMemory s w = some s' := by
  unfold validateRTypeInstruction at h
  split at h
  · cases h
  · exact ⟨_, h⟩

theorem validateStackInstruction_saves (s s' : State) (command a1 : String)
    (j : instruction_attr) (h : validateStackInstruction s command a1 j = some s') :
    ∃ w, saveInstructionToMemory s w = some s' := by
  unfold validateStackInstruction at h
  dsimp only at h
  repeat' (first | contradiction | exact ⟨_, h⟩ | split at h)

theorem validateITypeInstruction_saves (s s' : State) (command a1 a2 : String)
    (j : instruction_attr) (h : validateITypeInstruction s command a1 a2 j = some s') :
    ∃ w, saveInstructionToMemory s w = some s' := by
  unfold validateITypeInstruction at h
  dsimp only at h
  repeat' (first | contradiction | exact ⟨_, h⟩ | split at h)

theorem validateMemoryDisplayInstruction_saves (s s' : State) (command a1 a2 : String)
    (j : instruction_attr) (h : validateMemoryDisplayInstruction s command a1 a2 j = some s') :
    ∃ w, saveInstructionToMemory s w = some s' := by
  unfold validateMemoryDisplayInstruction at h
  dsimp only at h
  repeat' (first | contradiction | exact ⟨_, h⟩ | split at h)

theorem validateMovTypeInstruction_saves (s s' : State) (command a1 a2 : String)
    (j : instruction_attr) (h : validateMovTypeInstruction s command a1 a2 j = some s') :
    ∃ w, saveInstructionToMemory s w = some s' := by
  unfold validateMovTypeInstruction at h
  dsimp only at h
  repeat' (first | contradiction | exact ⟨_, h⟩ | split at h)

theorem validateEncodeAndSaveInstruction_saves (LABELS : List label_pos) (s s' : State)
    (n : Int) (command : String) (args : List String) (j : instruction_attr) (jr : Int × Int)
    (h : validateEncodeAndSaveInstruction LABELS s n command args j jr = some s') :
    s' = s ∨ ∃ w, saveInstructionToMemory s w = some s' := by
  unfold validateEncodeAndSaveInstruction at h
  dsimp only at h
  split_ifs at h <;> (try split at h) <;>
  first
  | exact Or.inr (validateMemoryTypeInstruction_saves _ _ _ _ _ _ h)
  | exact Or.inr (validateRTypeInstruction_saves _ _ _ _ _ _ h)
  | exact Or.inr (validateITypeInstruction_saves _ _ _ _ _ _ h)
  | exact Or.inr (validateStackInstruction_saves _ _ _ _ _ h)
  | exact Or.inr (validateMemoryDisplayInstruction_saves _ _ _ _ _ _ h)
  | exact Or.inr (validateControlTransferInstruction_saves _ _ _ _ _ _ _ h)
  | exact Or.inr (validateMovTypeInstruction_saves _ _ _ _ _ _ h)
  | exact Or.inr ⟨_, h⟩
  | (cases h; exact Or.inl rfl)
  | cases h

theorem secondPass_PC (LABELS : List label_pos) (junk : Int → instruction_attr)
    (junkRegs : Int → Int × Int) :
    ∀ (lines : List String) (n : Int) (s s' : State),
      secondPass LABELS junk junkRegs lines n s = some s' → s'.PC = s.PC := by
  intro lines
  induction lines with
  | nil =>
    intro n s s' h
    rw [secondPass] at h
    cases h
    rfl
  | cons line rest ih =>
    intro n s s' h
    rw [secondPass] at h
    split_ifs at h
    · exact ih _ _ _ h
    · dsimp only at h
      split at h
      · cases h
      · split at h
        · cases h
        · rename_i s1 hv
          rw [ih _ _ _ h]
          rcases validateEncodeAndSaveInstruction_saves _ _ _ _ _ _ _ _ hv with e | ⟨w, e⟩
          · rw [e]
          · exact saveInstructionToMemory_PC _ _ _ e

theorem assembled_PC (junk : Int → instruction_attr) (junkRegs : Int → Int × Int)
    (lines : List String) (s s' : State) (h : assembled junk junkRegs lines s = some s') :
    s'.PC = s.PC := by
  unfold assembled at h
  split at h
  · cases h
  · exact secondPass_PC _ _ _ _ _ _ _ h

/-! ## The addresses of the fetches -/

set_option maxRecDepth 100000 in
/-- C27 (counterexample): a fetch outside the instruction region, at an address that is no
multiple of 4. The program `push r1` / `ret` is assembled from the seeded initial state
(`R1 = 0x4567`); after the `push` the word fetched at 1028 is the `ret`, which loads `PC`
with the pushed `0x4567 = 17767`, and the next fetch reads the word at 17767 (it is 0, so
the run returns, with `PC = 17771`). -/
theorem C27_ret_fetches_outside_region :
    (do let s ← seededState
        let s ← assembled exampleJunk exampleJunkRegs programPushRet s
        let (w, s) ← fetchInstruction s
        let (_, w, s) ← decodeAndExecutePasses exampleJunkRun 1 1 w s
        let u ← executeFetched s w retInstr
        let (w1, t) ← fetchInstruction u
        pure ([s.PC, u.PC, u.PC % 4, w1, t.PC],
          (decodeInstructionFromBinary w retInstr).map (fun d => d.instruction)))
      = some ([1032, 17767, 3, 0, 17771], some "ret") ∧
    ¬ (1024 ≤ 17767 ∧ 17767 ≤ 9215) ∧
    (main exampleJunk exampleJunkRegs exampleJunkRun programPushRet 3).map (fun s => s.PC)
      = some 17771 := by
  decide

/-- C27 (amended): no fetch checks its address against the instruction region; what holds is
the alignment as long as no `ret` is executed. In every execution that starts from the seeded
initial state with any successfully assembled program, for every content of the unwritten
locals, `PC` is 1024 when the loop starts, and every fetch of a run whose executed words so
far are all decoded as something else than `ret` reads its word at a `PC` that is a multiple
of 4. -/
theorem C27_fetches_aligned_without_ret (junk : Int → instruction_attr)
    (junkRegs : Int → Int × Int) (junkRun : Nat → instruction_attr) (lines : List String)
    (s0 s1 : State) (h0 : seededState = some s0)
    (h1 : assembled junk junkRegs lines s0 = some s1) :
    s1.PC = 1024 ∧
    ∀ (n : Nat) (w0 : Nat) (t0 : State) (c w : Nat) (s : State),
      fetchInstruction s1 = some (w0, t0) →
      decodeAndExecutePasses junkRun n 1 w0 t0 = some (c, w, s) →
      retFreePasses junkRun n 1 w0 t0 = true →
      ∃ u, u.PC % 4 = 0 ∧ fetchInstruction u = some (w, s) := by
  have hs : seededState.map (fun s => s.PC) = some 1024 := by decide
  rw [h0] at hs
  have hpc0 : s0.PC = 1024 := Option.some.inj hs
  have hpc1 : s1.PC = 1024 := by rw [assembled_PC _ _ _ _ _ h1, hpc0]
  refine ⟨hpc1, ?_⟩
  intro n w0 t0 c w s hf hp hr
  exact retFreePasses_aligned junkRun n 1 w0 t0 s1 c w s (by rw [hpc1]) hf hp hr

set_option maxRecDepth 100000 in
/-- C27 (amended) on the program of scenario S4: its first three fetches. -/
theorem C27_fetches_aligned_without_ret_witness :
    ∃ s0 s1 w0 t0 c w s, seededState = some s0 ∧
      assembled exampleJunk exampleJunkRegs programS4 s0 = some s1 ∧
      fetchInstruction s1 = some (w0, t0) ∧
      decodeAndExecutePasses exampleJunkRun 2 1 w0 t0 = some (c, w, s) ∧
      s1.PC = 1024 ∧ ∃ u, u.PC % 4 = 0 ∧ fetchInstruction u = some (w, s) := by
  have big : (do
      let s0 ← seededState
      let s1 ← assembled exampleJunk exampleJunkRegs programS4 s0
      let (w0, t0) ← fetchInstruction s1
      let (_, _, _) ← decodeAndExecutePasses exampleJunkRun 2 1 w0 t0
      pure [retFreePasses exampleJunkRun 2 1 w0 t0]) = some [true] := by
    decide
  simp only [Option.bind_eq_bind, Option.bind_eq_some, Option.pure_def, Option.some.injEq,
    Prod.exists, List.cons.injEq, and_true] at big
  obtain ⟨s0, h0, s1, h1, w0, t0, h2, c, w, s, h3, hr⟩ := big
  have h := C27_fetches_aligned_without_ret exampleJunk exampleJunkRegs exampleJunkRun
    programS4 s0 s1 h0 h1
  exact ⟨s0, s1, w0, t0, c, w, s, h0, h1, h2, h3, h.1, h.2 2 w0 t0 c w s h2 h3 hr⟩

/-! ## Division -/

theorem divideLoop_spec (val2 : Nat) (h0 : val2 ≠ 0) (h2 : val2 < 4294967296) :
    ∀ (fuel val1 c : Nat), val1 < 4294967296 → c + val1 / val2 < 4294967296 →
      val1 / val2 < fuel →
      divideLoop fuel val1 val2 c = some (val1 % val2, c + val1 / val2) := by
  intro fuel
  induction fuel with
  | zero => intro val1 c _ _ hf; exact absurd hf (Nat.not_lt_zero _)
  | succ fuel ih =>
    intro val1 c h1 hc hf
    rw [divideLoop]
    by_cases h : val1 ≥ val2
    · have hpos : 0 < val2 := Nat.pos_of_ne_zero h0
      have hd : val1 / val2 = (val1 - val2) / val2 + 1 := Nat.div_eq_sub_div hpos h
      have hm : val1 % val2 = (val1 - val2) % val2 := Nat.mod_eq_sub_mod h
      have hs : (val1 + 4294967296 - val2) % 4294967296 = val1 - val2 := by omega
      have ih' := ih (val1 - val2) (c + 1) (by omega)
      rw [hd] at hc hf ⊢
      generalize (val1 - val2) / val2 = q at hc hf ih' ⊢
      have hc1 : (c + 1) % 4294967296 = c + 1 := Nat.mod_eq_of_lt (by omega)
      rw [if_pos h, tmpsubtract_eq val1 val2 h1 h2]
      dsimp only
      rw [hs, add_eq c 1 (by omega) (by decide)]
      dsimp only
      rw [hc1, ih' (by omega) (by omega), hm]
      rw [Option.some.injEq, Prod.mk.injEq]
      exact ⟨rfl, by omega⟩
    · rw [if_neg h]
      have hlt : val1 < val2 := by omega
      rw [Nat.mod_eq_of_lt hlt, Nat.div_eq_of_lt hlt, Nat.add_zero]

theorem divide_eq (s : State) (a b : Nat) (ha : a < 4294967296) (hb : b < 4294967296)
    (h0 : b ≠ 0) :
    divide s a b = some (a / b, { s with HI := a % b, LO := a / b }) := by
  have hq : a / b ≤ a := Nat.div_le_self a b
  unfold divide
  simp [h0, divideLoop_spec b h0 hb (a + 1) a 0 ha (by omega) (by omega)]

theorem divide_zero (s : State) (a : Nat) : divide s a 0 = some (0, { s with LO := 0 }) := by
  unfold divide
  simp

theorem executeRTypeInstructions_add (s : State) (a : instruction_attr)
    (hf : a.format = .REG_REG) (hm : a.instruction = "add") :
    executeRTypeInstructions s a
      = executeAdd s (.gpr a.operand_register) (.gpr a.base_register) := by
  unfold executeRTypeInstructions
  simp only [hf, hm, onCommand, Option.bind_eq_bind, Option.some_bind, Option.bind_some,
    String.reduceEq, if_true, if_false]

theorem executeRTypeInstructions_sub (s : State) (a : instruction_attr)
    (hf : a.format = .REG_REG) (hm : a.instruction = "sub") :
    executeRTypeInstructions s a
      = executeSub s (.gpr a.operand_register) (.gpr a.base_register) := by
  unfold executeRTypeInstructions
  simp only [hf, hm, onCommand, Option.bind_eq_bind, Option.some_bind, Option.bind_some,
    String.reduceEq, if_true, if_false]

theorem executeRTypeInstructions_mul (s : State) (a : instruction_attr)
    (hf : a.format = .REG_REG) (hm : a.instruction = "mul") :
    executeRTypeInstructions s a
      = executeMul s (.gpr a.operand_register) (.gpr a.base_register) := by
  unfold executeRTypeInstructions
  simp only [hf, hm, onCommand, Option.bind_eq_bind, Option.some_bind, Option.bind_some,
    String.reduceEq, if_true, if_false]

theorem executeRTypeInstructions_div (s : State) (a : instruction_attr)
    (hf : a.format = .REG_REG) (hm : a.instruction = "div") :
    executeRTypeInstructions s a
      = executeDiv s (.gpr a.operand_register) (.gpr a.base_register) := by
  unfold executeRTypeInstructions
  simp only [hf, hm, onCommand, Option.bind_eq_bind, Option.some_bind, Option.bind_some,
    String.reduceEq, if_true, if_false]

theorem executeRTypeInstructions_mod (s : State) (a : instruction_attr)
    (hf : a.format = .REG_REG) (hm : a.instruction = "mod") :
    executeRTypeInstructions s a
      = executeMod s (.gpr a.operand_register) (.gpr a.base_register) := by
  unfold executeRTypeInstructions
  simp only [hf, hm, onCommand, Option.bind_eq_bind, Option.some_bind, Option.bind_some,
    String.reduceEq, if_true, if_false]

theorem executeRTypeInstructions_and (s : State) (a : instruction_attr)
    (hf : a.format = .REG_REG) (hm : a.instruction = "and") :
    executeRTypeInstructions s a
      = executeAND s (.gpr a.operand_register) (.gpr a.base_register) := by
  unfold executeRTypeInstructions
  simp only [hf, hm, onCommand, Option.bind_eq_bind, Option.some_bind, Option.bind_some,
    String.reduceEq, if_true, if_false]

theorem executeRTypeInstructions_or (s : State) (a : instruction_attr)
    (hf : a.format = .REG_REG) (hm : a.instruction = "or") :
    executeRTypeInstructions s a
      = executeOR s (.gpr a.operand_register) (.gpr a.base_register) := by
  unfold executeRTypeInstructions
  simp only [hf, hm, onCommand, Option.bind_eq_bind, Option.some_bind, Option.bind_some,
    String.reduceEq, if_true, if_false]

theorem executeRTypeInstructions_xor (s : State) (a : instruction_attr)
    (hf : a.format = .REG_REG) (hm : a.instruction = "xor") :
    executeRTypeInstructions s a
      = executeXOR s (.gpr a.operand_register) (.gpr a.base_register) := by
  unfold executeRTypeInstructions
  simp only [hf, hm, onCommand, Option.bind_eq_bind, Option.some_bind, Option.bind_some,
    String.reduceEq, if_true, if_false]

theorem executeRTypeInstructions_not (s : State) (a : instruction_attr)
    (hf : a.format = .REG_REG) (hm : a.instruction = "not") :
    executeRTypeInstructions s a
      = executeNOT s (.gpr a.operand_register) (.gpr a.base_register) := by
  unfold executeRTypeInstructions
  simp only [hf, hm, onCommand, Option.bind_eq_bind, Option.some_bind, Option.bind_some,
    String.reduceEq, if_true, if_false]

theorem executeRTypeInstructions_nor (s : State) (a : instruction_attr)
    (hf : a.format = .REG_REG) (hm : a.instruction = "nor") :
    executeRTypeInstructions s a
      = executeNOR s (.gpr a.operand_register) (.gpr a.base_register) := by
  unfold executeRTypeInstructions
  simp only [hf, hm, onCommand, Option.bind_eq_bind, Option.some_bind, Option.bind_some,
    String.reduceEq, if_true, if_false]

theorem executeRTypeInstructions_slt (s : State) (a : instruction_attr)
    (hf : a.format = .REG_REG) (hm : a.instruction = "slt") :
    executeRTypeInstructions s a
      = executeSLT s (.gpr a.operand_register) (.gpr a.base_register) := by
  unfold executeRTypeInstructions
  simp only [hf, hm, onCommand, Option.bind_eq_bind, Option.some_bind, Option.bind_some,
    String.reduceEq, if_true, if_false]

theorem executeRTypeInstructions_sll (s : State) (a : instruction_attr)
    (hf : a.format = .REG_REG) (hm : a.instruction = "sll") :
    executeRTypeInstructions s a
      = executeSLL s (.gpr a.operand_register) (.gpr a.base_register) := by
  unfold executeRTypeInstructions
  simp only [hf, hm, onCommand, Option.bind_eq_bind, Option.some_bind, Option.bind_some,
    String.reduceEq, if_true, if_false]

theorem executeRTypeInstructions_srl (s : State) (a : instruction_attr)
    (hf : a.format = .REG_REG) (hm : a.instruction = "srl") :
    executeRTypeInstructions s a
      = executeSRL s (.gpr a.operand_register) (.gpr a.base_register) := by
  unfold executeRTypeInstructions
  simp only [hf, hm, onCommand, Option.bind_eq_bind, Option.some_bind, Option.bind_some,
    String.reduceEq, if_true, if_false]

theorem executeRTypeInstructions_sra (s : State) (a : instruction_attr)
    (hf : a.format = .REG_REG) (hm : a.instruction = "sra") :
    executeRTypeInstructions s a
      = executeSRA s (.gpr a.operand_register) (.gpr a.base_register) := by
  unfold executeRTypeInstructions
  simp only [hf, hm, onCommand, Option.bind_eq_bind, Option.some_bind, Option.bind_some,
    String.reduceEq, if_true, if_false]

theorem executeITypeInstructions_addi (s : State) (a : instruction_attr)
    (hf : a.format = .IMM_REG) (hm : a.instruction = "addi") :
    executeITypeInstructions s a
      = executeAddI s (toU32 a.const_or_label) (.gpr a.operand_register) := by
  unfold executeITypeInstructions
  simp only [hf, hm, onCommand, Option.bind_eq_bind, Option.some_bind, Option.bind_some,
    String.reduceEq, if_true, if_false]

theorem executeITypeInstructions_subi (s : State) (a : instruction_attr)
    (hf : a.format = .IMM_REG) (hm : a.instruction = "subi") :
    executeITypeInstructions s a
      = executeSubI s (toU32 a.const_or_label) (.gpr a.operand_register) := by
  unfold executeITypeInstructions
  simp only [hf, hm, onCommand, Option.bind_eq_bind, Option.some_bind, Option.bind_some,
    String.reduceEq, if_true, if_false]

theorem executeITypeInstructions_muli (s : State) (a : instruction_attr)
    (hf : a.format = .IMM_REG) (hm : a.instruction = "muli") :
    executeITypeInstructions s a
      = executeMulI s (toU32 a.const_or_label) (.gpr a.operand_register) := by
  unfold executeITypeInstructions
  simp only [hf, hm, onCommand, Option.bind_eq_bind, Option.some_bind, Option.bind_some,
    String.reduceEq, if_true, if_false]

theorem executeITypeInstructions_divi (s : State) (a : instruction_attr)
    (hf : a.format = .IMM_REG) (hm : a.instruction = "divi") :
    executeITypeInstructions s a
      = executeDivI s (toU32 a.const_or_label) (.gpr a.operand_register) := by
  unfold executeITypeInstructions
  simp only [hf, hm, onCommand, Option.bind_eq_bind, Option.some_bind, Option.bind_some,
    String.reduceEq, if_true, if_false]

theorem executeITypeInstructions_modi (s : State) (a : instruction_attr)
    (hf : a.format = .IMM_REG) (hm : a.instruction = "modi") :
    executeITypeInstructions s a
      = executeModI s (toU32 a.const_or_label) (.gpr a.operand_register) := by
  unfold executeITypeInstructions
  simp only [hf, hm, onCommand, Option.bind_eq_bind, Option.some_bind, Option.bind_some,
    String.reduceEq, if_true, if_false]

theorem executeITypeInstructions_and_immediate (s : State) (a : instruction_attr)
    (hf : a.format = .IMM_REG) (hm : a.instruction = "and") :
    executeITypeInstructions s a
      = executeANDI s (toU32 a.const_or_label) (.gpr a.operand_register) := by
  unfold executeITypeInstructions
  simp only [hf, hm, onCommand, Option.bind_eq_bind, Option.some_bind, Option.bind_some,
    String.reduceEq, if_true, if_false]

theorem executeITypeInstructions_ori (s : State) (a : instruction_attr)
    (hf : a.format = .IMM_REG) (hm : a.instruction = "ori") :
    executeITypeInstructions s a
      = executeORI s (toU32 a.const_or_label) (.gpr a.operand_register) := by
  unfold executeITypeInstructions
  simp only [hf, hm, onCommand, Option.bind_eq_bind, Option.some_bind, Option.bind_some,
    String.reduceEq, if_true, if_false]

theorem executeITypeInstructions_xori (s : State) (a : instruction_attr)
    (hf : a.format = .IMM_REG) (hm : a.instruction = "xori") :
    executeITypeInstructions s a
      = executeXORI s (toU32 a.const_or_label) (.gpr a.operand_register) := by
  unfold executeITypeInstructions
  simp only [hf, hm, onCommand, Option.bind_eq_bind, Option.some_bind, Option.bind_some,
    String.reduceEq, if_true, if_false]

theorem executeITypeInstructions_nori (s : State) (a : instruction_attr)
    (hf : a.format = .IMM_REG) (hm : a.instruction = "nori") :
    executeITypeInstructions s a
      = executeNORI s (toU32 a.const_or_label) (.gpr a.operand_register) := by
  unfold executeITypeInstructions
  simp only [hf, hm, onCommand, Option.bind_eq_bind, Option.some_bind, Option.bind_some,
    String.reduceEq, if_true, if_false]

theorem executeITypeInstructions_slti (s : State) (a : instruction_attr)
    (hf : a.format = .IMM_REG) (hm : a.instruction = "slti") :
    executeITypeInstructions s a
      = executeSLTI s (toU32 a.const_or_label) (.gpr a.operand_register) := by
  unfold executeITypeInstructions
  simp only [hf, hm, onCommand, Option.bind_eq_bind, Option.some_bind, Option.bind_some,
    String.reduceEq, if_true, if_false]

theorem executeITypeInstructions_slli (s : State) (a : instruction_attr)
    (hf : a.format = .IMM_REG) (hm : a.instruction = "slli") :
    executeITypeInstructions s a
      = executeSLLI s (toU32 a.const_or_label) (.gpr a.operand_register) := by
  unfold executeITypeInstructions
  simp only [hf, hm, onCommand, Option.bind_eq_bind, Option.some_bind, Option.bind_some,
    String.reduceEq, if_true, if_false]

theorem executeITypeInstructions_srli (s : State) (a : instruction_attr)
    (hf : a.format = .IMM_REG) (hm : a.instruction = "srli") :
    executeITypeInstructions s a
      = executeSRLI s (toU32 a.const_or_label) (.gpr a.operand_register) := by
  unfold executeITypeInstructions
  simp only [hf, hm, onCommand, Option.bind_eq_bind, Option.some_bind, Option.bind_some,
    String.reduceEq, if_true, if_false]

theorem executeITypeInstructions_srai (s : State) (a : instruction_attr)
    (hf : a.format = .IMM_REG) (hm : a.instruction = "srai") :
    executeITypeInstructions s a
      = executeSRAI s (toU32 a.const_or_label) (.gpr a.operand_register) := by
  unfold executeITypeInstructions
  simp only [hf, hm, onCommand, Option.bind_eq_bind, Option.some_bind, Option.bind_some,
    String.reduceEq, if_true, if_false]

theorem executeITypeInstructions_andi (s : State) (a : instruction_attr)
    (hf : a.format = .IMM_REG) (hm : a.instruction = "andi") :
    executeITypeInstructions s a = some s := by
  unfold executeITypeInstructions
  simp only [hf, hm, onCommand, Option.bind_eq_bind, Option.some_bind, Option.bind_some,
    String.reduceEq, if_true, if_false]

/-! ## `HI` and `LO` after an arithmetic instruction -/

theorem executeDiv_gpr (s : State) (rs rd : Int) (hrs : isRegister rs) (hrd : isRegister rd)
    (h1 : s.GPRS rs.toNat < 4294967296) (h2 : s.GPRS rd.toNat < 4294967296)
    (h0 : s.GPRS rd.toNat ≠ 0) :
    executeDiv s (.gpr rs) (.gpr rd) =
      setFlagsRegister
        { s with HI := s.GPRS rs.toNat % s.GPRS rd.toNat
                 LO := s.GPRS rs.toNat / s.GPRS rd.toNat
                 GPRS := Function.update s.GPRS rd.toNat
                   (s.GPRS rs.toNat / s.GPRS rd.toNat) }
        (s.GPRS rs.toNat) (s.GPRS rd.toNat) (s.GPRS rs.toNat / s.GPRS rd.toNat) := by
  unfold executeDiv
  simp only [readLoc_gpr s _ hrs, readLoc_gpr s _ hrd, Option.bind_eq_bind, Option.some_bind,
    divide_eq s _ _ h1 h2 h0, writeLoc_gpr _ _ _ hrd]

theorem executeDivI_gpr (s : State) (c : Nat) (r : Int) (hr : isRegister r)
    (h1 : c < 4294967296) (h2 : s.GPRS r.toNat < 4294967296) (h0 : s.GPRS r.toNat ≠ 0) :
    executeDivI s c (.gpr r) =
      setFlagsRegister
        { s with HI := c % s.GPRS r.toNat
                 LO := c / s.GPRS r.toNat
                 GPRS := Function.update s.GPRS r.toNat (c / s.GPRS r.toNat) }
        c (s.GPRS r.toNat) (c / s.GPRS r.toNat) := by
  unfold executeDivI
  simp only [readLoc_gpr s _ hr, Option.bind_eq_bind, Option.some_bind,
    divide_eq s _ _ h1 h2 h0, writeLoc_gpr _ _ _ hr]

theorem executeDecoded_REG_REG (s : State) (a : instruction_attr) (hf : a.format = .REG_REG) :
    executeDecoded s a = executeRTypeInstructions s a := by
  unfold executeDecoded
  simp only [hf]

theorem executeDecoded_IMM_REG (s : State) (a : instruction_attr) (hf : a.format = .IMM_REG) :
    executeDecoded s a = executeITypeInstructions s a := by
  unfold executeDecoded
  simp only [hf]

theorem executeMod_eq_executeDiv (s : State) (arg1 arg2 : Loc) :
    executeMod s arg1 arg2 = executeDiv s arg1 arg2 := rfl

theorem executeModI_eq_executeDivI (s : State) (c : Nat) (ptr : Loc) :
    executeModI s c ptr = executeDivI s c ptr := rfl

theorem executeSub_gpr (s : State) (rs rd : Int) (hrs : isRegister rs) (hrd : isRegister rd)
    (h1 : s.GPRS rs.toNat < 4294967296) (h2 : s.GPRS rd.toNat < 4294967296) :
    executeSub s (.gpr rs) (.gpr rd) =
      setFlagsRegister
        { s with isSubtract := true
                 GPRS := Function.update s.GPRS rd.toNat
                   ((s.GPRS rd.toNat + 4294967296 - s.GPRS rs.toNat) % 4294967296) }
        (s.GPRS rs.toNat) (s.GPRS rd.toNat)
        ((s.GPRS rd.toNat + 4294967296 - s.GPRS rs.toNat) % 4294967296) := by
  unfold executeSub
  simp only [readLoc_gpr s _ hrs, readLoc_gpr s _ hrd, Option.bind_eq_bind, Option.some_bind,
    subtract_eq s _ _ h1 h2, writeLoc_gpr _ _ _ hrd]

theorem executeDiv_zero_divisor (s : State) (rs rd : Int) (hrs : isRegister rs)
    (hrd : isRegister rd) (h0 : s.GPRS rd.toNat = 0) :
    executeDiv s (.gpr rs) (.gpr rd) =
      setFlagsRegister { s with LO := 0, GPRS := Function.update s.GPRS rd.toNat 0 }
        (s.GPRS rs.toNat) 0 0 := by
  unfold executeDiv
  simp only [readLoc_gpr s _ hrs, readLoc_gpr s _ hrd, Option.bind_eq_bind, Option.some_bind,
    h0, divide_zero, writeLoc_gpr _ _ _ hrd]

theorem executeDivI_zero_divisor (s : State) (c : Nat) (r : Int) (hr : isRegister r)
    (h0 : s.GPRS r.toNat = 0) :
    executeDivI s c (.gpr r) =
      setFlagsRegister { s with LO := 0, GPRS := Function.update s.GPRS r.toNat 0 } c 0 0 := by
  unfold executeDivI
  simp only [readLoc_gpr s _ hr, Option.bind_eq_bind, Option.some_bind,
    h0, divide_zero, writeLoc_gpr _ _ _ hr]

theorem setFlagsRegister_GPRS (s : State) (a b r : Nat) :
    ∃ s', setFlagsRegister s a b r = some s' ∧ s'.GPRS = s.GPRS ∧
      s'.HI = popCount r % 2 ∧ s'.LO = popCount r / 2 := by
  obtain ⟨t, ht, -, hHI, hLO, hG, -⟩ := setFlagsRegister_spec s a b r
  exact ⟨t, ht, hG, hHI, hLO⟩

/-- C31: for all 32-bit `a` and every non-zero 32-bit `b`, `divide a b` returns: the loop
ends after `a / b` passes, the value returned is the unsigned quotient `a / b`, `LO` is that
quotient and `HI` is the remainder `a % b` (nothing else of the state changes), so that
`a = LO * b + HI` and `HI < b`. -/
theorem C31_divide_quotient_and_remainder (s : State) (a b : Nat) (ha : a < 4294967296)
    (hb : b < 4294967296) (h0 : b ≠ 0) :
    ∃ s', divide s a b = some (a / b, s') ∧
      divideLoop (a / b + 1) a b 0 = some (a % b, a / b) ∧
      s' = { s with HI := a % b, LO := a / b } ∧
      s'.LO = a / b ∧ s'.HI = a % b ∧ a = s'.LO * b + s'.HI ∧ s'.HI < b := by
  have hq : a / b ≤ a := Nat.div_le_self a b
  have hl := divideLoop_spec b h0 hb (a / b + 1) a 0 ha (by omega) (by omega)
  rw [Nat.zero_add] at hl
  refine ⟨_, divide_eq s a b ha hb h0, hl, rfl, rfl, rfl, ?_, ?_⟩
  · show a = a / b * b + a % b
    rw [Nat.mul_comm]
    exact (Nat.div_add_mod a b).symm
  · exact Nat.mod_lt a (Nat.pos_of_ne_zero h0)

/-- C31 at `divide 47 5`: quotient 9 in `LO`, remainder 2 in `HI`. -/
theorem C31_divide_quotient_and_remainder_witness :
    ∃ s', divide zeroState 47 5 = some (9, s') ∧ s'.LO = 9 ∧ s'.HI = 2 := by
  obtain ⟨s', h, -, -, hLO, hHI, -, -⟩ :=
    C31_divide_quotient_and_remainder zeroState 47 5 (by decide) (by decide) (by decide)
  exact ⟨s', h, hLO, hHI⟩

/-- C32 (counterexample): `divide 7 0` returns, with the value 0, and so does `div r1, r2`
with `GPR[2] = 0`, leaving 0 in `r2`. -/
theorem C32_divide_by_zero_returns :
    (divide zeroState 7 0).map (fun r => [r.1, r.2.HI, r.2.LO]) = some [0, 0, 0] ∧
    (executeDecoded (exampleState [(1, 7), (2, 0)]) (registerForm "div" 1 2)).map
      (fun s => [s.GPRS 1, s.GPRS 2]) = some [7, 0] := by
  decide

/-- C32 (amended): for every dividend `a`, `divide a 0` returns at once (the loop is guarded
by the test `val2 != 0`): its value is 0, `LO` becomes 0 and `HI` is left as it was. So a
`div`, `mod`, `divi` or `modi` whose divisor register holds 0 completes, and leaves 0 in its
destination. -/
theorem C32_divide_by_zero (s : State) (a : Nat) :
    divide s a 0 = some (0, { s with LO := 0 }) ∧
    (∀ (m : String) (rs rd : Int), m = "div" ∨ m = "mod" → isRegister rs → isRegister rd →
      s.GPRS rd.toNat = 0 →
      ∃ s', executeDecoded s (registerForm m rs rd) = some s' ∧ s'.GPRS rd.toNat = 0) ∧
    (∀ (m : String) (c r : Int), m = "divi" ∨ m = "modi" → isRegister r →
      s.GPRS r.toNat = 0 →
      ∃ s', executeDecoded s (immediateForm m c r) = some s' ∧ s'.GPRS r.toNat = 0) := by
  refine ⟨divide_zero s a, ?_, ?_⟩
  · intro m rs rd hm hrs hrd h0
    obtain ⟨s', hs, hG, -⟩ := setFlagsRegister_GPRS
      { s with LO := 0, GPRS := Function.update s.GPRS rd.toNat 0 } (s.GPRS rs.toNat) 0 0
    refine ⟨s', ?_, by rw [hG]; exact Function.update_same _ _ _⟩
    rw [← hs, ← executeDiv_zero_divisor s rs rd hrs hrd h0]
    rw [executeDecoded_REG_REG _ _ rfl]
    rcases hm with hm | hm <;> subst hm
    · exact executeRTypeInstructions_div s (registerForm "div" rs rd) rfl rfl
    · exact executeRTypeInstructions_mod s (registerForm "mod" rs rd) rfl rfl
  · intro m c r hm hr h0
    obtain ⟨s', hs, hG, -⟩ := setFlagsRegister_GPRS
      { s with LO := 0, GPRS := Function.update s.GPRS r.toNat 0 } (toU32 c) 0 0
    refine ⟨s', ?_, by rw [hG]; exact Function.update_same _ _ _⟩
    rw [← hs, ← executeDivI_zero_divisor s (toU32 c) r hr h0]
    rw [executeDecoded_IMM_REG _ _ rfl]
    rcases hm with hm | hm <;> subst hm
    · exact executeITypeInstructions_divi s (immediateForm "divi" c r) rfl rfl
    · exact executeITypeInstructions_modi s (immediateForm "modi" c r) rfl rfl

/-- C32 (amended) at `divide 7 0` and at `mod r1, r2` and `divi $9, r2` with `GPR[2] = 0`. -/
theorem C32_divide_by_zero_witness :
    divide zeroState 7 0 = some (0, { zeroState with LO := 0 }) ∧
    (∃ s', executeDecoded (exampleState [(1, 7), (2, 0)]) (registerForm "mod" 1 2) = some s' ∧
      s'.GPRS 2 = 0) ∧
    (∃ s', executeDecoded (exampleState [(1, 7), (2, 0)]) (immediateForm "divi" 9 2) = some s' ∧
      s'.GPRS 2 = 0) :=
  ⟨(C32_divide_by_zero zeroState 7).1,
   (C32_divide_by_zero (exampleState [(1, 7), (2, 0)]) 0).2.1 "mod" 1 2 (Or.inr rfl)
     (by unfold isRegister; decide) (by unfold isRegister; decide) (by decide),
   (C32_divide_by_zero (exampleState [(1, 7), (2, 0)]) 0).2.2 "divi" 9 2 (Or.inl rfl)
     (by unfold isRegister; decide) (by decide)⟩

/-- The state after `mod` or `div` with a non-zero divisor: the destination holds the
quotient, and `HI` and `LO` hold the parity and the half of the number of one-bits of the
quotient, which `setFlagsRegister` gets from its own call of `divide`. -/
theorem executeDiv_result (s : State) (rs rd : Int) (hrs : isRegister rs) (hrd : isRegister rd)
    (h1 : s.GPRS rs.toNat < 4294967296) (h2 : s.GPRS rd.toNat < 4294967296)
    (h0 : s.GPRS rd.toNat ≠ 0) :
    ∃ s', executeDiv s (.gpr rs) (.gpr rd) = some s' ∧
      s'.GPRS rd.toNat = s.GPRS rs.toNat / s.GPRS rd.toNat ∧
      s'.HI = popCount (s.GPRS rs.toNat / s.GPRS rd.toNat) % 2 ∧
      s'.LO = popCount (s.GPRS rs.toNat / s.GPRS rd.toNat) / 2 := by
  rw [executeDiv_gpr s rs rd hrs hrd h1 h2 h0]
  obtain ⟨s', hs, hG, hHI, hLO⟩ := setFlagsRegister_GPRS
    { s with HI := s.GPRS rs.toNat % s.GPRS rd.toNat
             LO := s.GPRS rs.toNat / s.GPRS rd.toNat
             GPRS := Function.update s.GPRS rd.toNat (s.GPRS rs.toNat / s.GPRS rd.toNat) }
    (s.GPRS rs.toNat) (s.GPRS rd.toNat) (s.GPRS rs.toNat / s.GPRS rd.toNat)
  exact ⟨s', hs, by rw [hG]; exact Function.update_same _ _ _, hHI, hLO⟩

theorem executeDivI_result (s : State) (c : Nat) (r : Int) (hr : isRegister r)
    (h1 : c < 4294967296) (h2 : s.GPRS r.toNat < 4294967296) (h0 : s.GPRS r.toNat ≠ 0) :
    ∃ s', executeDivI s c (.gpr r) = some s' ∧
      s'.GPRS r.toNat = c / s.GPRS r.toNat ∧
      s'.HI = popCount (c / s.GPRS r.toNat) % 2 ∧
      s'.LO = popCount (c / s.GPRS r.toNat) / 2 := by
  rw [executeDivI_gpr s c r hr h1 h2 h0]
  obtain ⟨s', hs, hG, hHI, hLO⟩ := setFlagsRegister_GPRS
    { s with HI := c % s.GPRS r.toNat
             LO := c / s.GPRS r.toNat
             GPRS := Function.update s.GPRS r.toNat (c / s.GPRS r.toNat) }
    c (s.GPRS r.toNat) (c / s.GPRS r.toNat)
  exact ⟨s', hs, by rw [hG]; exact Function.update_same _ _ _, hHI, hLO⟩

theorem toU32_lt (x : Int) : toU32 x < 4294967296 := by
  unfold toU32
  omega

/-- C33 (counterexample): `mod r1, r2` with `GPR[1] = 7` and `GPR[2] = 2`. The division gives
the quotient 3 and the remainder 1, and `divide` leaves them in `LO` and `HI`; the destination
`r2` gets the quotient 3, but at the end of the instruction `HI` is 0 and `LO` is 1, not the
remainder 1 and the quotient 3. The same happens for `modi $7, r2`. -/
theorem C33_mod_leaves_parity_in_HI :
    (divide (exampleState [(1, 7), (2, 2)]) 7 2).map (fun r => [r.1, r.2.HI, r.2.LO])
      = some [3, 1, 3] ∧
    (executeDecoded (exampleState [(1, 7), (2, 2)]) (registerForm "mod" 1 2)).map
      (fun s => [s.GPRS 2, s.HI, s.LO]) = some [3, 0, 1] ∧
    (executeDecoded (exampleState [(2, 2)]) (immediateForm "modi" 7 2)).map
      (fun s => [s.GPRS 2, s.HI, s.LO]) = some [3, 0, 1] := by
  decide

/-- C33 (amended): after a decoded `mod rs, rd` or `modi $c, r` with a non-zero divisor (the
old value of the destination; the registers hold 32-bit values) the destination holds the
quotient of the division performed by `divide`. That call of `divide` leaves the remainder in
`HI` and the quotient in `LO`, but the instruction goes on to `setFlagsRegister`, which calls
`divide (count_ones, 2)`: when the instruction has finished, `HI` is the number of one-bits
of the quotient mod 2 and `LO` is half that number. -/
theorem C33_mod_stores_quotient (s : State) (a : instruction_attr)
    (h32 : ∀ i, s.GPRS i < 4294967296) :
    (a.format = .REG_REG → a.instruction = "mod" → isRegister a.operand_register →
      isRegister a.base_register → s.GPRS a.base_register.toNat ≠ 0 →
      ∃ q s1 s', q = s.GPRS a.operand_register.toNat / s.GPRS a.base_register.toNat ∧
        divide s (s.GPRS a.operand_register.toNat) (s.GPRS a.base_register.toNat)
          = some (q, s1) ∧
        s1.HI = s.GPRS a.operand_register.toNat % s.GPRS a.base_register.toNat ∧ s1.LO = q ∧
        executeDecoded s a = some s' ∧ s'.GPRS a.base_register.toNat = q ∧
        s'.HI = popCount q % 2 ∧ s'.LO = popCount q / 2) ∧
    (a.format = .IMM_REG → a.instruction = "modi" → isRegister a.operand_register →
      s.GPRS a.operand_register.toNat ≠ 0 →
      ∃ q s1 s', q = toU32 a.const_or_label / s.GPRS a.operand_register.toNat ∧
        divide s (toU32 a.const_or_label) (s.GPRS a.operand_register.toNat) = some (q, s1) ∧
        s1.HI = toU32 a.const_or_label % s.GPRS a.operand_register.toNat ∧ s1.LO = q ∧
        executeDecoded s a = some s' ∧ s'.GPRS a.operand_register.toNat = q ∧
        s'.HI = popCount q % 2 ∧ s'.LO = popCount q / 2) := by
  refine ⟨?_, ?_⟩
  · intro hf hm hrs hrd h0
    obtain ⟨s', hs, hG, hHI, hLO⟩ := executeDiv_result s _ _ hrs hrd (h32 _) (h32 _) h0
    refine ⟨_, _, s', rfl, divide_eq s _ _ (h32 _) (h32 _) h0, rfl, rfl, ?_, hG, hHI, hLO⟩
    rw [executeDecoded_REG_REG s a hf, executeRTypeInstructions_mod s a hf hm,
      executeMod_eq_executeDiv]
    exact hs
  · intro hf hm hr h0
    obtain ⟨s', hs, hG, hHI, hLO⟩ := executeDivI_result s _ _ hr (toU32_lt _) (h32 _) h0
    refine ⟨_, _, s', rfl, divide_eq s _ _ (toU32_lt _) (h32 _) h0, rfl, rfl, ?_, hG, hHI, hLO⟩
    rw [executeDecoded_IMM_REG s a hf, executeITypeInstructions_modi s a hf hm,
      executeModI_eq_executeDivI]
    exact hs

/-- C33 (amended) at `mod r1, r2` with `GPR[1] = 47` and `GPR[2] = 5`: the destination gets
the quotient 9, `HI` ends as 0 and `LO` as 1 (9 has two one-bits), while the remainder
was 2. -/
theorem C33_mod_stores_quotient_witness :
    ∃ s1 s', divide (exampleState [(1, 47), (2, 5)]) 47 5 = some (9, s1) ∧ s1.HI = 2 ∧
      s1.LO = 9 ∧
      executeDecoded (exampleState [(1, 47), (2, 5)]) (registerForm "mod" 1 2) = some s' ∧
      s'.GPRS 2 = 9 ∧ s'.HI = 0 ∧ s'.LO = 1 := by
  have h32 : ∀ i, (exampleState [(1, 47), (2, 5)]).GPRS i < 4294967296 := by
    intro i
    show (([(1, 47), (2, 5)] : List (Nat × Nat)).lookup i).getD 0 < 4294967296
    simp only [List.lookup]
    split
    · decide
    · split
      · decide
      · decide
  obtain ⟨q, s1, s', hq, hd, h1, h2, hx, hG, hHI, hLO⟩ :=
    (C33_mod_stores_quotient _ (registerForm "mod" 1 2) h32).1 rfl rfl
      (by unfold isRegister; decide) (by unfold isRegister; decide) (by decide)
  have hq9 : q = 9 := hq
  subst hq9
  exact ⟨s1, s', hd, h1, h2, hx, hG, hHI, hLO⟩

/-- C39: operand order of division. For every decoded register form `div rs, rd` whose
destination holds a non-zero value, execution returns and leaves in `rd` the unsigned
quotient of the source by the old destination, `GPR[rs] / GPR[rd]`; the register form
`sub rs, rd` leaves `(GPR[rd] - GPR[rs]) mod 2^32`; and the immediate form `divi $c, r` leaves
`c' / GPR[r]`, where `c'` is the sign-extended constant read as unsigned. The registers hold
32-bit values. -/
theorem C39_division_operand_order (s : State) (a : instruction_attr)
    (h32 : ∀ i, s.GPRS i < 4294967296) :
    (a.format = .REG_REG → a.instruction = "div" → isRegister a.operand_register →
      isRegister a.base_register → s.GPRS a.base_register.toNat ≠ 0 →
      ∃ s', executeDecoded s a = some s' ∧
        s'.GPRS a.base_register.toNat
          = s.GPRS a.operand_register.toNat / s.GPRS a.base_register.toNat) ∧
    (a.format = .REG_REG → a.instruction = "sub" → isRegister a.operand_register →
      isRegister a.base_register →
      ∃ s', executeDecoded s a = some s' ∧
        s'.GPRS a.base_register.toNat
          = (s.GPRS a.base_register.toNat + 4294967296 - s.GPRS a.operand_register.toNat)
              % 4294967296) ∧
    (a.format = .IMM_REG → a.instruction = "divi" → isRegister a.operand_register →
      s.GPRS a.operand_register.toNat ≠ 0 →
      ∃ s', executeDecoded s a = some s' ∧
        s'.GPRS a.operand_register.toNat
          = toU32 a.const_or_label / s.GPRS a.operand_register.toNat) := by
  refine ⟨?_, ?_, ?_⟩
  · intro hf hm hrs hrd h0
    rw [executeDecoded_REG_REG s a hf, executeRTypeInstructions_div s a hf hm]
    obtain ⟨s', hs, hG, -⟩ := executeDiv_result s _ _ hrs hrd (h32 _) (h32 _) h0
    exact ⟨s', hs, hG⟩
  · intro hf hm hrs hrd
    rw [executeDecoded_REG_REG s a hf, executeRTypeInstructions_sub s a hf hm,
      executeSub_gpr s _ _ hrs hrd (h32 _) (h32 _)]
    obtain ⟨s', hs, hG, -⟩ := setFlagsRegister_GPRS
      { s with isSubtract := true
               GPRS := Function.update s.GPRS a.base_register.toNat
                 ((s.GPRS a.base_register.toNat + 4294967296
                   - s.GPRS a.operand_register.toNat) % 4294967296) }
      (s.GPRS a.operand_register.toNat) (s.GPRS a.base_register.toNat)
      ((s.GPRS a.base_register.toNat + 4294967296 - s.GPRS a.operand_register.toNat)
        % 4294967296)
    exact ⟨s', hs, by rw [hG]; exact Function.update_same _ _ _⟩
  · intro hf hm hr h0
    rw [executeDecoded_IMM_REG s a hf, executeITypeInstructions_divi s a hf hm]
    obtain ⟨s', hs, hG, -⟩ := executeDivI_result s _ _ hr (toU32_lt _) (h32 _) h0
    exact ⟨s', hs, hG⟩

/-- C39 at `GPR[1] = 47` and `GPR[2] = 5`: `div r1, r2` leaves 9 = 47 / 5 in `r2` (not
0 = 5 / 47), `sub r1, r2` leaves `5 - 47` and `divi $-1, r2` leaves `0xFFFFFFFF / 5`. -/
theorem C39_division_operand_order_witness :
    (∃ s', executeDecoded (exampleState [(1, 47), (2, 5)]) (registerForm "div" 1 2) = some s' ∧
      s'.GPRS 2 = 9) ∧
    (∃ s', executeDecoded (exampleState [(1, 47), (2, 5)]) (registerForm "sub" 1 2) = some s' ∧
      s'.GPRS 2 = 4294967254) ∧
    (∃ s', executeDecoded (exampleState [(1, 47), (2, 5)]) (immediateForm "divi" (-1) 2)
        = some s' ∧ s'.GPRS 2 = 858993459) := by
  have h32 : ∀ i, (exampleState [(1, 47), (2, 5)]).GPRS i < 4294967296 := by
    intro i
    show (([(1, 47), (2, 5)] : List (Nat × Nat)).lookup i).getD 0 < 4294967296
    simp only [List.lookup]
    split
    · decide
    · split
      · decide
      · decide
  exact
    ⟨(C39_division_operand_order _ (registerForm "div" 1 2) h32).1 rfl rfl
        (by unfold isRegister; decide) (by unfold isRegister; decide) (by decide),
     (C39_division_operand_order _ (registerForm "sub" 1 2) h32).2.1 rfl rfl
        (by unfold isRegister; decide) (by unfold isRegister; decide),
     (C39_division_operand_order _ (immediateForm "divi" (-1) 2) h32).2.2 rfl rfl
        (by unfold isRegister; decide) (by decide)⟩

/-! ## The arithmetic shift and `slt` -/

theorem sra_of_clear_msb (n v : Nat) (hn : n < 32) (hv : v < 2147483648) :
    sra n v = some (n ||| (v >>> n)) := by
  have h0 : v >>> (WORD_SIZE - 1) = 0 := by
    unfold WORD_SIZE
    omega
  have hs : shl32 n 0 = n := by
    unfold shl32
    rw [Nat.shiftLeft_zero]
    omega
  unfold sra srl sll
  simp only [h0, ne_eq, not_true_eq_false, if_false]
  rw [if_pos (by unfold WORD_SIZE; exact hn), if_pos (by unfold WORD_SIZE; decide), hs]

theorem sra_of_set_msb (n v : Nat) (hv1 : 2147483648 ≤ v) (hv2 : v < 4294967296) :
    sra n v = none := by
  have h0 : v >>> (WORD_SIZE - 1) ≠ 0 := by
    unfold WORD_SIZE
    omega
  unfold sra srl sll
  simp only [h0, ne_eq, not_false_eq_true, if_true]
  have hz : ¬ not32 0x00 < WORD_SIZE := by decide
  rw [if_neg hz]
  split <;> rfl

/-- C34 (failing input): `sra (1, 4)`. The arithmetic right shift of 4 by 1 is 2, and `sra`
returns 3: for a value with bit 31 clear its local `z` is 0, and the call `sll (z, val1)` hands
back the shift amount itself, which is ORed into the result. For a value with bit 31 set, as
`0x80000000`, `z` is `0xFFFFFFFF` and the same call shifts by `0xFFFFFFFF` positions, which
has no defined result, where the claim expects `0xC0000000`. Only a shift by 0 of a value with
bit 31 clear comes out right. -/
theorem C34_sra_ors_the_shift_amount :
    sra 1 4 = some 3 ∧ arithmeticShiftRight 1 4 = 2 ∧
    sra 1 0 = some 1 ∧ arithmeticShiftRight 1 0 = 0 ∧
    sra 1 0x80000000 = none ∧ arithmeticShiftRight 1 0x80000000 = 0xC0000000 ∧
    sra 0 5 = some 5 ∧ arithmeticShiftRight 0 5 = 5 ∧
    (executeDecoded (exampleState [(1, 1), (2, 4)]) (registerForm "sra" 1 2)).map
      (fun s => s.GPRS 2) = some 3 := by
  decide

theorem executeSLT_gpr (s : State) (rs rd : Int) (hrs : isRegister rs) (hrd : isRegister rd)
    (h1 : s.GPRS rs.toNat < 4294967296) (h2 : s.GPRS rd.toNat < 4294967296) :
    executeSLT s (.gpr rs) (.gpr rd) =
      setFlagsRegister { s with isSubtract := true } (s.GPRS rs.toNat) (s.GPRS rd.toNat)
        ((s.GPRS rd.toNat + 4294967296 - s.GPRS rs.toNat) % 4294967296) := by
  unfold executeSLT
  simp only [readLoc_gpr s _ hrs, readLoc_gpr s _ hrd, Option.bind_eq_bind, Option.some_bind,
    subtract_eq s _ _ h1 h2]

/-- The flags after `slt rs, rd`, for all values but the one pair at which `setFlagsRegister`
misses the overflow (`GPR[rd] = 0` and `GPR[rs] = 0x80000000`): no register changes, the `jl`
condition SF xor OF holds iff `GPR[rd] < GPR[rs]` as signed integers, and ZF holds iff the two
values are equal. -/
theorem executeSLT_signed_comparison (s : State) (rs rd : Int) (hrs : isRegister rs)
    (hrd : isRegister rd) (h1 : s.GPRS rs.toNat < 4294967296)
    (h2 : s.GPRS rd.toNat < 4294967296)
    (hne : ¬ (s.GPRS rd.toNat = 0 ∧ s.GPRS rs.toNat = 2147483648)) :
    ∃ s', executeDecoded s (registerForm "slt" rs rd) = some s' ∧ s'.GPRS = s.GPRS ∧
      ((getFlagStatusFromFlagsRegister s' .SF ^^ getFlagStatusFromFlagsRegister s' .OF) = true
        ↔ toS32 (s.GPRS rd.toNat) < toS32 (s.GPRS rs.toNat)) ∧
      ((!(getFlagStatusFromFlagsRegister s' .SF ^^ getFlagStatusFromFlagsRegister s' .OF))
          = true
        ↔ toS32 (s.GPRS rd.toNat) ≥ toS32 (s.GPRS rs.toNat)) ∧
      (getFlagStatusFromFlagsRegister s' .ZF = true ↔ s.GPRS rd.toNat = s.GPRS rs.toNat) := by
  rw [executeDecoded_REG_REG _ _ rfl,
    executeRTypeInstructions_slt s (registerForm "slt" rs rd) rfl rfl]
  show ∃ s', executeSLT s (.gpr rs) (.gpr rd) = some s' ∧ _
  rw [executeSLT_gpr s rs rd hrs hrd h1 h2]
  generalize s.GPRS rs.toNat = a at h1 hne ⊢
  generalize s.GPRS rd.toNat = b at h2 hne ⊢
  obtain ⟨s', hs, hof⟩ := OF_on_subtract { s with isSubtract := true } a b h1 h2 rfl
  obtain ⟨t, ht, hbits, -, -, hG, -⟩ := setFlagsRegister_spec { s with isSubtract := true } a b
    ((b + 4294967296 - a) % 4294967296)
  rw [hs] at ht
  cases ht
  have h7 := hbits 7 (by decide)
  have h2' := hbits 2 (by decide)
  rw [if_neg (by decide), if_neg (by decide), if_neg (by decide), if_neg (by decide),
    if_pos rfl] at h7
  rw [if_neg (by decide), if_pos rfl] at h2'
  have hsf : s'.FLAGS.testBit 7 = true ↔ 2147483648 ≤ (b + 4294967296 - a) % 4294967296 := by
    rw [h7, decide_eq_true_eq, msb_ne_zero_iff, testBit_31_iff _ (Nat.mod_lt _ (by decide))]
  have hzf : s'.FLAGS.testBit 2 = true ↔ (b + 4294967296 - a) % 4294967296 = 0 := by
    rw [h2', decide_eq_true_eq]
  refine ⟨s', hs, hG, ?_, ?_, ?_⟩
  · rw [getFlagStatus_SF, getFlagStatus_OF]
    unfold toS32 at hof ⊢
    rcases Bool.eq_false_or_eq_true (s'.FLAGS.testBit 7) with e7 | e7 <;>
    rcases Bool.eq_false_or_eq_true (s'.FLAGS.testBit 6) with e6 | e6 <;>
    simp only [e7, e6, Bool.xor_self, Bool.xor_false, Bool.false_xor, Bool.true_xor,
      Bool.not_true, Bool.not_false, true_iff, false_iff, Bool.false_eq_true,
      iff_true, iff_false, not_and, not_or, not_not, not_lt, not_le, true_and] at hsf hof ⊢ <;>
    split_ifs at hof ⊢ <;> omega
  · rw [getFlagStatus_SF, getFlagStatus_OF]
    unfold toS32 at hof ⊢
    rcases Bool.eq_false_or_eq_true (s'.FLAGS.testBit 7) with e7 | e7 <;>
    rcases Bool.eq_false_or_eq_true (s'.FLAGS.testBit 6) with e6 | e6 <;>
    simp only [e7, e6, Bool.xor_self, Bool.xor_false, Bool.false_xor, Bool.true_xor,
      Bool.not_true, Bool.not_false, true_iff, false_iff, Bool.false_eq_true,
      iff_true, iff_false, not_and, not_or, not_not, not_lt, not_le, true_and] at hsf hof ⊢ <;>
    split_ifs at hof ⊢ <;> omega
  · rw [getFlagStatus_ZF, hzf]
    omega

/-! ## Immediate and register forms -/

/-- The immediate forms other than `andi` and `srai` do what their register forms do: with the
source register holding the constant, the two decoded instructions give the same result,
state or no state. -/
theorem immediate_and_register_forms_agree (s : State) (c rs r : Int) (hrs : isRegister rs)
    (hval : s.GPRS rs.toNat = toU32 c) :
    ∀ p ∈ immediatePairs, p.1 ≠ "andi" → p.1 ≠ "srai" →
      executeDecoded s (immediateForm p.1 c r) = executeDecoded s (registerForm p.2 rs r) := by
  intro p hp h1 h2
  simp only [immediatePairs, List.mem_cons, List.mem_singleton, List.mem_nil_iff,
    or_false] at hp
  rcases hp with hp | hp | hp | hp | hp | hp | hp | hp | hp | hp | hp | hp | hp <;>
    subst hp
  · rw [executeDecoded_IMM_REG _ _ rfl, executeDecoded_REG_REG _ _ rfl,
      executeITypeInstructions_addi s (immediateForm "addi" c r) rfl rfl,
      executeRTypeInstructions_add s (registerForm "add" rs r) rfl rfl]
    show executeAddI s (toU32 c) (.gpr r) = executeAdd s (.gpr rs) (.gpr r)
    unfold executeAddI executeAdd
    simp only [readLoc_gpr s _ hrs, hval, Option.bind_eq_bind, Option.some_bind]
  · rw [executeDecoded_IMM_REG _ _ rfl, executeDecoded_REG_REG _ _ rfl,
      executeITypeInstructions_subi s (immediateForm "subi" c r) rfl rfl,
      executeRTypeInstructions_sub s (registerForm "sub" rs r) rfl rfl]
    show executeSubI s (toU32 c) (.gpr r) = executeSub s (.gpr rs) (.gpr r)
    unfold executeSubI executeSub
    simp only [readLoc_gpr s _ hrs, hval, Option.bind_eq_bind, Option.some_bind]
  · rw [executeDecoded_IMM_REG _ _ rfl, executeDecoded_REG_REG _ _ rfl,
      executeITypeInstructions_muli s (immediateForm "muli" c r) rfl rfl,
      executeRTypeInstructions_mul s (registerForm "mul" rs r) rfl rfl]
    show executeMulI s (toU32 c) (.gpr r) = executeMul s (.gpr rs) (.gpr r)
    unfold executeMulI executeMul
    simp only [readLoc_gpr s _ hrs, hval, Option.bind_eq_bind, Option.some_bind]
  · rw [executeDecoded_IMM_REG _ _ rfl, executeDecoded_REG_REG _ _ rfl,
      executeITypeInstructions_divi s (immediateForm "divi" c r) rfl rfl,
      executeRTypeInstructions_div s (registerForm "div" rs r) rfl rfl]
    show executeDivI s (toU32 c) (.gpr r) = executeDiv s (.gpr rs) (.gpr r)
    unfold executeDivI executeDiv
    simp only [readLoc_gpr s _ hrs, hval, Option.bind_eq_bind, Option.some_bind]
  · rw [executeDecoded_IMM_REG _ _ rfl, executeDecoded_REG_REG _ _ rfl,
      executeITypeInstructions_modi s (immediateForm "modi" c r) rfl rfl,
      executeRTypeInstructions_mod s (registerForm "mod" rs r) rfl rfl]
    show executeModI s (toU32 c) (.gpr r) = executeMod s (.gpr rs) (.gpr r)
    unfold executeModI executeMod
    simp only [readLoc_gpr s _ hrs, hval, Option.bind_eq_bind, Option.some_bind]
  · exact absurd rfl h1
  · rw [executeDecoded_IMM_REG _ _ rfl, executeDecoded_REG_REG _ _ rfl,
      executeITypeInstructions_ori s (immediateForm "ori" c r) rfl rfl,
      executeRTypeInstructions_or s (registerForm "or" rs r) rfl rfl]
    show executeORI s (toU32 c) (.gpr r) = executeOR s (.gpr rs) (.gpr r)
    unfold executeORI executeOR
    simp only [readLoc_gpr s _ hrs, hval, Option.bind_eq_bind, Option.some_bind]
  · rw [executeDecoded_IMM_REG _ _ rfl, executeDecoded_REG_REG _ _ rfl,
      executeITypeInstructions_xori s (immediateForm "xori" c r) rfl rfl,
      executeRTypeInstructions_xor s (registerForm "xor" rs r) rfl rfl]
    show executeXORI s (toU32 c) (.gpr r) = executeXOR s (.gpr rs) (.gpr r)
    unfold executeXORI executeXOR
    simp only [readLoc_gpr s _ hrs, hval, Option.bind_eq_bind, Option.some_bind]
  · rw [executeDecoded_IMM_REG _ _ rfl, executeDecoded_REG_REG _ _ rfl,
      executeITypeInstructions_nori s (immediateForm "nori" c r) rfl rfl,
      executeRTypeInstructions_nor s (registerForm "nor" rs r) rfl rfl]
    show executeNORI s (toU32 c) (.gpr r) = executeNOR s (.gpr rs) (.gpr r)
    unfold executeNORI executeNOR
    simp only [readLoc_gpr s _ hrs, hval, Option.bind_eq_bind, Option.some_bind]
  · rw [executeDecoded_IMM_REG _ _ rfl, executeDecoded_REG_REG _ _ rfl,
      executeITypeInstructions_slti s (immediateForm "slti" c r) rfl rfl,
      executeRTypeInstructions_slt s (registerForm "slt" rs r) rfl rfl]
    show executeSLTI s (toU32 c) (.gpr r) = executeSLT s (.gpr rs) (.gpr r)
    unfold executeSLTI executeSLT
    simp only [readLoc_gpr s _ hrs, hval, Option.bind_eq_bind, Option.some_bind]
  · rw [executeDecoded_IMM_REG _ _ rfl, executeDecoded_REG_REG _ _ rfl,
      executeITypeInstructions_slli s (immediateForm "slli" c r) rfl rfl,
      executeRTypeInstructions_sll s (registerForm "sll" rs r) rfl rfl]
    show executeSLLI s (toU32 c) (.gpr r) = executeSLL s (.gpr rs) (.gpr r)
    unfold executeSLLI executeSLL
    simp only [readLoc_gpr s _ hrs, hval, Option.bind_eq_bind, Option.some_bind]
  · rw [executeDecoded_IMM_REG _ _ rfl, executeDecoded_REG_REG _ _ rfl,
      executeITypeInstructions_srli s (immediateForm "srli" c r) rfl rfl,
      executeRTypeInstructions_srl s (registerForm "srl" rs r) rfl rfl]
    show executeSRLI s (toU32 c) (.gpr r) = executeSRL s (.gpr rs) (.gpr r)
    unfold executeSRLI executeSRL
    simp only [readLoc_gpr s _ hrs, hval, Option.bind_eq_bind, Option.some_bind]
  · exact absurd rfl h2

set_option maxRecDepth 100000 in
/-- C38 (failing input): `slt r1, r2` with `GPR[1] = 0x80000000` and `GPR[2] = 0`. The
instruction computes `0 - 0x80000000 = 0x80000000`, which sets SF; the subtraction overflows,
but `setFlagsRegister` asks for `val2_signed > 0` and leaves OF clear. So SF xor OF holds, the
`jl` condition, although `GPR[2] = 0` is not less than `GPR[1] = -2147483648` as signed
integers, and the `jge` condition fails although `GPR[2] >= GPR[1]`. No register changes and
ZF is clear. -/
theorem C38_jl_condition_wrong_at_int_min :
    (executeDecoded (exampleState [(1, 0x80000000), (2, 0)]) (registerForm "slt" 1 2)).map
      (fun s => ([s.GPRS 1, s.GPRS 2],
        [getFlagStatusFromFlagsRegister s .SF, getFlagStatusFromFlagsRegister s .OF,
         getFlagStatusFromFlagsRegister s .ZF,
         getFlagStatusFromFlagsRegister s .SF ^^ getFlagStatusFromFlagsRegister s .OF]))
      = some ([0x80000000, 0], [true, false, false, true]) ∧
    toS32 0 = 0 ∧ toS32 0x80000000 = -2147483648 ∧ ¬ (toS32 0 < toS32 0x80000000) := by
  decide

set_option maxRecDepth 100000 in
/-- C37 (failing inputs): `andi $5, r1` against `and r2, r1` with `GPR[1] = 3`, `GPR[2] = 5`,
and `srai $1, r1` against `sra r2, r1` with `GPR[1] = 4`, `GPR[2] = 1`, each word encoded,
decoded and executed. `and` leaves `3 & 5 = 1` in `r1` and sets flags; the decoded `andi`
changes nothing, because `executeITypeInstructions` compares the mnemonic with `"and"` in
front of `executeANDI`. `sra r2, r1` calls `sra (GPR[2], GPR[1])` and leaves 3, while
`executeSRAI` calls `sra (op2, constant)`, the operands exchanged, and leaves 4. -/
theorem C37_andi_and_srai_differ_from_register_forms :
    (decodeInstructionFromBinary (encodeInstructionToBinary (immediateForm "andi" 5 1))
        retInstr).map (fun d => (d.instruction, [d.const_or_label, d.operand_register]))
      = some ("andi", [5, 1]) ∧
    (decodeInstructionFromBinary (encodeInstructionToBinary (registerForm "and" 2 1))
        retInstr).map (fun d => (d.instruction, [d.operand_register, d.base_register]))
      = some ("and", [2, 1]) ∧
    (executeFetched (exampleState [(1, 3), (2, 5)])
        (encodeInstructionToBinary (immediateForm "andi" 5 1)) retInstr).map
      (fun s => [s.GPRS 1, s.FLAGS]) = some [3, 0] ∧
    (executeFetched (exampleState [(1, 3), (2, 5)])
        (encodeInstructionToBinary (registerForm "and" 2 1)) retInstr).map
      (fun s => [s.GPRS 1, s.FLAGS]) = some [1, 17] ∧
    (executeFetched (exampleState [(1, 4), (2, 1)])
        (encodeInstructionToBinary (immediateForm "srai" 1 1)) retInstr).map
      (fun s => [s.GPRS 1, s.FLAGS]) = some [4, 16] ∧
    (executeFetched (exampleState [(1, 4), (2, 1)])
        (encodeInstructionToBinary (registerForm "sra" 2 1)) retInstr).map
      (fun s => [s.GPRS 1, s.FLAGS]) = some [3, 1] := by
  decide

/-! ## Reading a word back -/

/-- A word written at an address from 1 to 65532 is read back. -/
theorem readFromMemory_after_writeIntoMemory (s : State) (A w : Nat) (hA1 : 1 ≤ A)
    (hA : A + 3 < 65536) (hw : w < 4294967296) :
    (writeIntoMemory s A NUM_BYTES_IN_WORD (wordBytes w)).bind
      (fun s' => readFromMemory s' A NUM_BYTES_IN_WORD) = some w := by
  rw [writeIntoMemory_word s A w hA, Option.some_bind,
    readFromMemory_word _ A hA1 hA (storeWord_lt s.MEMORY A w)]
  show some (loadWord (storeWord s.MEMORY A w) A) = some w
  rw [loadWord_storeWord _ _ _ hw]

set_option maxRecDepth 100000 in
/-- C40 (failing input): address 0. `writeIntoMemory (0, 4, w)` stores the word in bytes
0..3, and `readFromMemory (0, 4)` does not return it: its loop test `index >= start_index` on
unsigned values holds for every index when `start_index` is 0, so after byte 0 the index
wraps to `0xFFFFFFFF` and the read leaves the memory. The seeded machine gets there with
`movi $4, r14` / `push r1` / `pop r2`: the push writes `GPR[1] = 0x4567` at address 0, and the
pop has no result. -/
theorem C40_no_read_back_at_address_zero :
    (writeIntoMemory zeroState 0 NUM_BYTES_IN_WORD (wordBytes 0xDEADBEEF)).map
      (fun s => loadWord s.MEMORY 0) = some 0xDEADBEEF ∧
    (writeIntoMemory zeroState 0 NUM_BYTES_IN_WORD (wordBytes 0xDEADBEEF)).bind
      (fun s => readFromMemory s 0 NUM_BYTES_IN_WORD) = none ∧
    (writeIntoMemory zeroState 1 NUM_BYTES_IN_WORD (wordBytes 0xDEADBEEF)).bind
      (fun s => readFromMemory s 1 NUM_BYTES_IN_WORD) = some 0xDEADBEEF ∧
    (do let s ← seededState
        let s ← assembled exampleJunk exampleJunkRegs
          ["movi $4, r14\n", "push r1\n", "pop r2\n"] s
        let (w, s) ← fetchInstruction s
        let (_, w, s) ← decodeAndExecutePasses exampleJunkRun 2 1 w s
        pure ([s.GPRS 14, loadWord s.MEMORY 0],
          (decodeInstructionFromBinary w retInstr).map (fun d => d.instruction),
          (executeFetched s w retInstr).isSome))
      = some ([0, 0x4567], some "pop", false) := by
  decide

end CCPU
